import Mathlib

/-!
# Quantized vector codec of `acl/math/vector4_packing.h`

A shallow embedding of the pack/unpack primitives of the Animation Compression
Library, together with the properties of its binary layouts.

Conventions of the embedding.

* Machine integers are natural numbers; a truncating operation on a `w`-bit
  unsigned type carries an explicit `% 2 ^ w`.  `size_t` and `uint64_t` are 64
  bits wide, `int` is 32 bits wide, the target is little-endian (the only kind
  of target on which `byte_swap` turns a big-endian word into a native one).
* A byte buffer is a list of bytes; a pointer is the buffer together with a
  byte index.  Addresses are not modelled, so the alignment checks of
  `safe_ptr_cast` are outside the embedding.
* A call can end without a result in two ways: a failed check (`ACL_ENSURE`,
  `safe_static_cast`), or an operation that C++ leaves undefined (an access
  outside the buffer, a shift by a count outside the width of the type, signed
  overflow).  Both are values of type `Failure`.
* A packer is a computation on the output buffer (`Exec`): it returns the
  buffer as its writes have left it, also when it fails part of the way.
* A float is whatever the scalar quantizer works on; the quantizer itself
  (`acl/math/scalar_packing.h`) is a parameter of the packers.  The integer
  part of an unpacker, up to the codes it hands to the quantizer, is a function
  of its own (`..._codes`).
* The bit widths `XBits`, `YBits`, `ZBits` are `uint8_t` in the code and
  natural numbers here; C++ adds them in `int`, without wrap-around.
-/

namespace acl

/-! ## Failures, bytes and buffers -/

/-- How a call can end without a result. -/
inductive Failure where
  /-- A check of the code failed: `ACL_ENSURE` or `safe_static_cast`. -/
  | precondition
  /-- The operation has no defined result in C++. -/
  | undefined
  deriving DecidableEq

/-- A byte, `uint8_t`. -/
abbrev Byte := Fin 256

/-- A byte buffer, `uint8_t*` with the memory behind it. -/
abbrev Buffer := List Byte

/-- Truncation of an integer to a byte, `static_cast<uint8_t>`. -/
def toByte (v : Nat) : Byte := ⟨v % 256, Nat.mod_lt v (by decide)⟩

/-- Modelled from the spec: `ACL_ENSURE` of `acl/core/error.h`, which is not
among the sources.  A failed check is a precondition violation that ends the
call; the message is not modelled. -/
def ACL_ENSURE (expression : Bool) : Except Failure Unit :=
  if expression then .ok () else .error .precondition

/-- Modelled from the spec: `safe_static_cast` of `acl/core/memory.h`, which is
not among the sources: the checked narrowing cast of a non-negative integer to
an unsigned type of `bits` bits.  It fails when the value does not fit. -/
def safe_static_cast (bits : Nat) (input : Nat) : Except Failure Nat :=
  if input < 2 ^ bits then .ok input else .error .precondition

/-- Modelled from the spec: `byte_swap` of `acl/core/memory.h`, which is not
among the sources: the eight bytes of a 64-bit word in reverse order, the
conversion of a big-endian word to native order. -/
def byte_swap (value : Nat) : Nat :=
  (value % 256) * 2 ^ 56 + (value / 2 ^ 8 % 256) * 2 ^ 48 +
  (value / 2 ^ 16 % 256) * 2 ^ 40 + (value / 2 ^ 24 % 256) * 2 ^ 32 +
  (value / 2 ^ 32 % 256) * 2 ^ 24 + (value / 2 ^ 40 % 256) * 2 ^ 16 +
  (value / 2 ^ 48 % 256) * 2 ^ 8 + (value / 2 ^ 56 % 256)

/-! ## Integer operations of C++ -/

/-- The operator `<<` on `uint64_t` (and `size_t`): undefined for a count
outside `[0, 64)`, otherwise the product truncated to 64 bits. -/
def shl_u64 (value : Nat) (count : Int) : Except Failure Nat :=
  if 0 ≤ count ∧ count < 64 then .ok ((value <<< count.toNat) % 2 ^ 64)
  else .error .undefined

/-- The operator `>>` on `uint64_t`: undefined for a count outside `[0, 64)`. -/
def shr_u64 (value : Nat) (count : Int) : Except Failure Nat :=
  if 0 ≤ count ∧ count < 64 then .ok (value >>> count.toNat)
  else .error .undefined

/-- The operator `>>` on `uint32_t`: undefined for a count outside `[0, 32)`. -/
def shr_u32 (value : Nat) (count : Int) : Except Failure Nat :=
  if 0 ≤ count ∧ count < 32 then .ok (value >>> count.toNat)
  else .error .undefined

/-- The operator `<<` on a non-negative `int`: undefined for a count outside
`[0, 32)` and when the product is not representable in `unsigned int`;
otherwise the product, read as a two's complement `int`. -/
def shl_int (value : Int) (count : Int) : Except Failure Int :=
  if 0 ≤ value ∧ 0 ≤ count ∧ count < 32 ∧ value * 2 ^ count.toNat < 2 ^ 32 then
    .ok (if value * 2 ^ count.toNat < 2 ^ 31 then value * 2 ^ count.toNat
         else value * 2 ^ count.toNat - 2 ^ 32)
  else .error .undefined

/-- The operator `-` on `int`: undefined when the difference overflows. -/
def sub_int (a b : Int) : Except Failure Int :=
  if -(2 ^ 31) ≤ a - b ∧ a - b < 2 ^ 31 then .ok (a - b) else .error .undefined

/-- Conversion of an `int` to `uint32_t`. -/
def to_u32 (value : Int) : Nat := (value % 2 ^ 32).toNat

/-- Conversion of an `int` to `uint64_t`. -/
def to_u64 (value : Int) : Nat := (value % 2 ^ 64).toNat

/-- The expression `(1 << bits) - 1`, evaluated in `int` as the code writes
it. -/
def int_mask (bits : Nat) : Except Failure Int := do
  let one_shifted ← shl_int 1 bits
  sub_int one_shifted 1

/-! ## Loads and stores -/

/-- The byte `data[index]`; an index outside the buffer is undefined. -/
def load_u8 (data : Buffer) (index : Nat) : Except Failure Nat :=
  match data[index]? with
  | some b => .ok b.val
  | none => .error .undefined

/-- The 16-bit unit `data_ptr_u16[index]` of a buffer viewed as `uint16_t*`,
in native (little-endian) byte order. -/
def load_u16 (data : Buffer) (index : Nat) : Except Failure Nat := do
  let b0 ← load_u8 data (2 * index)
  let b1 ← load_u8 data (2 * index + 1)
  pure (b0 + b1 * 2 ^ 8)

/-- The 32-bit word at a byte offset, in native (little-endian) byte order. -/
def load_u32 (data : Buffer) (byte_offset : Nat) : Except Failure Nat := do
  let b0 ← load_u8 data byte_offset
  let b1 ← load_u8 data (byte_offset + 1)
  let b2 ← load_u8 data (byte_offset + 2)
  let b3 ← load_u8 data (byte_offset + 3)
  pure (b0 + b1 * 2 ^ 8 + b2 * 2 ^ 16 + b3 * 2 ^ 24)

/-- The 64-bit word `*(const uint64_t*)(data + byte_offset)`, in native
(little-endian) byte order. -/
def load_u64 (data : Buffer) (byte_offset : Nat) : Except Failure Nat := do
  let b0 ← load_u8 data byte_offset
  let b1 ← load_u8 data (byte_offset + 1)
  let b2 ← load_u8 data (byte_offset + 2)
  let b3 ← load_u8 data (byte_offset + 3)
  let b4 ← load_u8 data (byte_offset + 4)
  let b5 ← load_u8 data (byte_offset + 5)
  let b6 ← load_u8 data (byte_offset + 6)
  let b7 ← load_u8 data (byte_offset + 7)
  pure (b0 + b1 * 2 ^ 8 + b2 * 2 ^ 16 + b3 * 2 ^ 24 + b4 * 2 ^ 32 + b5 * 2 ^ 40 +
        b6 * 2 ^ 48 + b7 * 2 ^ 56)

/-- A computation that writes to the output buffer: it ends with a result or a
failure, and with the buffer as the writes done so far have left it. -/
def Exec (α : Type) : Type := Buffer → Except Failure α × Buffer

/-- A computation that writes nothing. -/
def Exec.pure {α : Type} (a : α) : Exec α := fun out => (.ok a, out)

/-- Sequencing: a failure ends the call and keeps the buffer as it is then. -/
def Exec.bind {α β : Type} (x : Exec α) (f : α → Exec β) : Exec β := fun out =>
  match x out with
  | (.ok a, out') => f a out'
  | (.error e, out') => (.error e, out')

instance : Monad Exec where
  pure := Exec.pure
  bind := Exec.bind

/-- A computation without writes inside a computation with writes. -/
def Exec.check {α : Type} (x : Except Failure α) : Exec α := fun out => (x, out)

instance : MonadLift (Except Failure) Exec where
  monadLift := Exec.check

/-- The store `data[index] = value` of one byte; an index outside the buffer is
undefined. -/
def store_u8 (index : Nat) (value : Nat) : Exec Unit := fun out =>
  if index < out.length then (.ok (), out.set index (toByte value))
  else (.error .undefined, out)

/-- The store `data[index] = value` through a `uint16_t*`, in native
(little-endian) byte order. -/
def store_u16 (index : Nat) (value : Nat) : Exec Unit := fun out =>
  if 2 * index + 1 < out.length then
    (.ok (), (out.set (2 * index) (toByte value)).set (2 * index + 1) (toByte (value / 2 ^ 8)))
  else (.error .undefined, out)

/-- The store `*data = value` through a `uint64_t*` at the start of the buffer,
in native (little-endian) byte order. -/
def store_u64 (value : Nat) : Exec Unit := fun out =>
  if 8 ≤ out.length then
    (.ok (), (((((((out.set 0 (toByte value)).set 1 (toByte (value / 2 ^ 8))).set 2
      (toByte (value / 2 ^ 16))).set 3 (toByte (value / 2 ^ 24))).set 4
      (toByte (value / 2 ^ 32))).set 5 (toByte (value / 2 ^ 40))).set 6
      (toByte (value / 2 ^ 48))).set 7 (toByte (value / 2 ^ 56)))
  else (.error .undefined, out)

/-! ## The scalar quantizer and the vector type -/

/-- Modelled from the spec: the scalar quantizer of `acl/math/scalar_packing.h`,
which is not among the sources.  The packers are written against these eight
functions and never look inside them, so they are a parameter: each maps a
float to an integer code, or a code back to a float, and may fail on an
argument outside its contract. -/
structure ScalarPacking (F : Type) where
  /-- The code of a float of `[0, 1]` on `num_bits` bits. -/
  pack_scalar_unsigned : F → Nat → Except Failure Nat
  /-- The code of a float of `[-1, 1]` on `num_bits` bits. -/
  pack_scalar_signed : F → Nat → Except Failure Nat
  /-- The float of `[0, 1]` of a code on `num_bits` bits. -/
  unpack_scalar_unsigned : Nat → Nat → Except Failure F
  /-- The float of `[-1, 1]` of a code on `num_bits` bits. -/
  unpack_scalar_signed : Nat → Nat → Except Failure F
  /-- The 24-bit specialization of `pack_scalar_unsigned`. -/
  pack_scalar_unsigned_24 : F → Except Failure Nat
  /-- The 24-bit specialization of `pack_scalar_signed`. -/
  pack_scalar_signed_24 : F → Except Failure Nat
  /-- The 24-bit specialization of `unpack_scalar_unsigned`. -/
  unpack_scalar_unsigned_24 : Nat → Except Failure F
  /-- The 24-bit specialization of `unpack_scalar_signed`. -/
  unpack_scalar_signed_24 : Nat → Except Failure F

/-- The expression `is_unsigned ? pack_scalar_unsigned(input, num_bits) :
pack_scalar_signed(input, num_bits)` that every packer repeats. -/
def ScalarPacking.pack_scalar {F : Type} (sp : ScalarPacking F) (is_unsigned : Bool)
    (input : F) (num_bits : Nat) : Except Failure Nat :=
  if is_unsigned then sp.pack_scalar_unsigned input num_bits
  else sp.pack_scalar_signed input num_bits

/-- The expression `is_unsigned ? pack_scalar_unsigned_24(input) :
pack_scalar_signed_24(input)` of the 72-bit packer. -/
def ScalarPacking.pack_scalar_24 {F : Type} (sp : ScalarPacking F) (is_unsigned : Bool)
    (input : F) : Except Failure Nat :=
  if is_unsigned then sp.pack_scalar_unsigned_24 input else sp.pack_scalar_signed_24 input

/-- The expression `is_unsigned ? unpack_scalar_unsigned(input, num_bits) :
unpack_scalar_signed(input, num_bits)` that every unpacker repeats. -/
def ScalarPacking.unpack_scalar {F : Type} (sp : ScalarPacking F) (is_unsigned : Bool)
    (input : Nat) (num_bits : Nat) : Except Failure F :=
  if is_unsigned then sp.unpack_scalar_unsigned input num_bits
  else sp.unpack_scalar_signed input num_bits

/-- The expression `is_unsigned ? unpack_scalar_unsigned_24(input) :
unpack_scalar_signed_24(input)` of the 72-bit unpackers. -/
def ScalarPacking.unpack_scalar_24 {F : Type} (sp : ScalarPacking F) (is_unsigned : Bool)
    (input : Nat) : Except Failure F :=
  if is_unsigned then sp.unpack_scalar_unsigned_24 input else sp.unpack_scalar_signed_24 input

/-- The vector sample `Vector4_32` of `acl/math/math_types.h`: four floats. -/
structure Vector4_32 (F : Type) where
  x : F
  y : F
  z : F
  w : F

/-- Modelled from the spec: `vector_get_x` of `acl/math/vector4_32.h`, which is
not among the sources: the first component of a sample. -/
def vector_get_x {F : Type} (vector : Vector4_32 F) : F := vector.x

/-- Modelled from the spec: `vector_get_y` of `acl/math/vector4_32.h`, which is
not among the sources: the second component of a sample. -/
def vector_get_y {F : Type} (vector : Vector4_32 F) : F := vector.y

/-- Modelled from the spec: `vector_get_z` of `acl/math/vector4_32.h`, which is
not among the sources: the third component of a sample. -/
def vector_get_z {F : Type} (vector : Vector4_32 F) : F := vector.z

/-- Modelled from the spec: the three-argument `vector_set` of
`acl/math/vector4_32.h`, which is not among the sources: the sample of three
components `(x, y, z)`.  The fourth lane is not part of a three-component
sample and is left out. -/
def vector_set {F : Type} (x y z : F) : F × F × F := (x, y, z)

/-! ## The 32-bit triple, lines 171-201 -/

/-- The packer `pack_vector3_32`. -/
def pack_vector3_32 {F : Type} (sp : ScalarPacking F) (vector : Vector4_32 F)
    (XBits YBits ZBits : Nat) (is_unsigned : Bool) : Exec Unit := do
  ACL_ENSURE (XBits + YBits + ZBits == 32)
  let vector_x ← sp.pack_scalar is_unsigned (vector_get_x vector) XBits
  let vector_y ← sp.pack_scalar is_unsigned (vector_get_y vector) YBits
  let vector_z ← sp.pack_scalar is_unsigned (vector_get_z vector) ZBits
  let x_shifted ← shl_u64 vector_x ((YBits : Int) + (ZBits : Int))
  let y_shifted ← shl_u64 vector_y (ZBits : Int)
  let vector_u32 ← safe_static_cast 32 (x_shifted ||| y_shifted ||| vector_z)
  let data0 ← safe_static_cast 16 (vector_u32 >>> 16)
  store_u16 0 data0
  let data1 ← safe_static_cast 16 (vector_u32 &&& 0xFFFF)
  store_u16 1 data1

/-- The integer part of `unpack_vector3_32`, lines 189-196: the codes `x32`,
`y32`, `z32` it extracts before it hands them to the scalar quantizer. -/
def unpack_vector3_32_codes (XBits YBits ZBits : Nat) (vector_data : Buffer) :
    Except Failure (Nat × Nat × Nat) := do
  ACL_ENSURE (XBits + YBits + ZBits == 32)
  let unit0 ← load_u16 vector_data 0
  let high ← safe_static_cast 32 unit0
  let unit1 ← load_u16 vector_data 1
  let low ← safe_static_cast 32 unit1
  let vector_u32 := ((high <<< 16) % 2 ^ 32) ||| low
  let x32 ← shr_u32 vector_u32 ((YBits : Int) + (ZBits : Int))
  let y_shifted ← shr_u32 vector_u32 (ZBits : Int)
  let y_mask ← int_mask YBits
  let y32 := y_shifted &&& to_u32 y_mask
  let z_mask ← int_mask ZBits
  let z32 := vector_u32 &&& to_u32 z_mask
  pure (x32, y32, z32)

/-- The unpacker `unpack_vector3_32`. -/
def unpack_vector3_32 {F : Type} (sp : ScalarPacking F) (XBits YBits ZBits : Nat)
    (is_unsigned : Bool) (vector_data : Buffer) : Except Failure (F × F × F) := do
  let (x32, y32, z32) ← unpack_vector3_32_codes XBits YBits ZBits vector_data
  let x ← sp.unpack_scalar is_unsigned x32 XBits
  let y ← sp.unpack_scalar is_unsigned y32 YBits
  let z ← sp.unpack_scalar is_unsigned z32 ZBits
  pure (vector_set x y z)

/-! ## The 72-bit triple, lines 225-279 -/

/-- The packer `pack_vector3_72`. -/
def pack_vector3_72 {F : Type} (sp : ScalarPacking F) (vector : Vector4_32 F)
    (is_unsigned : Bool) : Exec Unit := do
  let vector_x ← sp.pack_scalar_24 is_unsigned (vector_get_x vector)
  let vector_y ← sp.pack_scalar_24 is_unsigned (vector_get_y vector)
  let vector_z ← sp.pack_scalar_24 is_unsigned (vector_get_z vector)
  let data0 ← safe_static_cast 8 (vector_x >>> 16)
  store_u8 0 data0
  let data1 ← safe_static_cast 8 ((vector_x >>> 8) &&& 0xFF)
  store_u8 1 data1
  let data2 ← safe_static_cast 8 (vector_x &&& 0xFF)
  store_u8 2 data2
  let data3 ← safe_static_cast 8 (vector_y >>> 16)
  store_u8 3 data3
  let data4 ← safe_static_cast 8 ((vector_y >>> 8) &&& 0xFF)
  store_u8 4 data4
  let data5 ← safe_static_cast 8 (vector_y &&& 0xFF)
  store_u8 5 data5
  let data6 ← safe_static_cast 8 (vector_z >>> 16)
  store_u8 6 data6
  let data7 ← safe_static_cast 8 ((vector_z >>> 8) &&& 0xFF)
  store_u8 7 data7
  let data8 ← safe_static_cast 8 (vector_z &&& 0xFF)
  store_u8 8 data8

/-- The integer part of the non-streaming `unpack_vector3_72`, lines 245-248:
the codes `x32`, `y32`, `z32`. -/
def unpack_vector3_72_codes (vector_data : Buffer) : Except Failure (Nat × Nat × Nat) := do
  let d0 ← load_u8 vector_data 0
  let d1 ← load_u8 vector_data 1
  let d2 ← load_u8 vector_data 2
  let x32 := (d0 <<< 16) ||| (d1 <<< 8) ||| d2
  let d3 ← load_u8 vector_data 3
  let d4 ← load_u8 vector_data 4
  let d5 ← load_u8 vector_data 5
  let y32 := (d3 <<< 16) ||| (d4 <<< 8) ||| d5
  let d6 ← load_u8 vector_data 6
  let d7 ← load_u8 vector_data 7
  let d8 ← load_u8 vector_data 8
  let z32 := (d6 <<< 16) ||| (d7 <<< 8) ||| d8
  pure (x32, y32, z32)

/-- The non-streaming unpacker `unpack_vector3_72`. -/
def unpack_vector3_72 {F : Type} (sp : ScalarPacking F) (is_unsigned : Bool)
    (vector_data : Buffer) : Except Failure (F × F × F) := do
  let (x32, y32, z32) ← unpack_vector3_72_codes vector_data
  let x ← sp.unpack_scalar_24 is_unsigned x32
  let y ← sp.unpack_scalar_24 is_unsigned y32
  let z ← sp.unpack_scalar_24 is_unsigned z32
  pure (vector_set x y z)

/-- The integer part of the streaming `unpack_vector3_72`, lines 258-274: the
codes `x64`, `y64`, `z64` read at a bit offset of a big-endian stream. -/
def unpack_vector3_72_bit_offset_codes (vector_data : Buffer) (bit_offset : Nat) :
    Except Failure (Nat × Nat × Nat) := do
  let byte_offset := bit_offset / 8
  let vector_u64 ← load_u64 vector_data byte_offset
  let vector_u64 := byte_swap vector_u64
  let vector_u64 := (vector_u64 <<< (bit_offset % 8)) % 2 ^ 64
  let vector_u64 := vector_u64 >>> (64 - 48)
  let x64 := (vector_u64 >>> 24) &&& 0xFFFFFF
  let y64 := vector_u64 &&& 0xFFFFFF
  let bit_offset := (bit_offset + 48) % 2 ^ 64
  let byte_offset := bit_offset / 8
  let vector_u64 ← load_u64 vector_data byte_offset
  let vector_u64 := byte_swap vector_u64
  let vector_u64 := (vector_u64 <<< (bit_offset % 8)) % 2 ^ 64
  let vector_u64 := vector_u64 >>> (64 - 24)
  let z64 := vector_u64
  pure (x64, y64, z64)

/-- The streaming unpacker `unpack_vector3_72`, the overload with a bit
offset. -/
def unpack_vector3_72_bit_offset {F : Type} (sp : ScalarPacking F) (is_unsigned : Bool)
    (vector_data : Buffer) (bit_offset : Nat) : Except Failure (F × F × F) := do
  let (x64, y64, z64) ← unpack_vector3_72_bit_offset_codes vector_data bit_offset
  let x ← sp.unpack_scalar_24 is_unsigned x64
  let y ← sp.unpack_scalar_24 is_unsigned y64
  let z ← sp.unpack_scalar_24 is_unsigned z64
  pure (vector_set x y z)

/-! ## The variable-width triple, lines 281-337 -/

/-- The packer `pack_vector3_n`. -/
def pack_vector3_n {F : Type} (sp : ScalarPacking F) (vector : Vector4_32 F)
    (XBits YBits ZBits : Nat) (is_unsigned : Bool) : Exec Unit := do
  let vector_x ← sp.pack_scalar is_unsigned (vector_get_x vector) XBits
  let vector_y ← sp.pack_scalar is_unsigned (vector_get_y vector) YBits
  let vector_z ← sp.pack_scalar is_unsigned (vector_get_z vector) ZBits
  let x_shifted ← shl_u64 vector_x ((YBits : Int) + (ZBits : Int))
  let y_shifted ← shl_u64 vector_y (ZBits : Int)
  let vector_u64 ← safe_static_cast 64 (x_shifted ||| y_shifted ||| vector_z)
  store_u64 vector_u64

/-- The integer part of the non-streaming `unpack_vector3_n`, lines 296-299:
the codes `x64`, `y64`, `z64`. -/
def unpack_vector3_n_codes (YBits ZBits : Nat) (vector_data : Buffer) :
    Except Failure (Nat × Nat × Nat) := do
  let vector_u64 ← load_u64 vector_data 0
  let x64 ← shr_u64 vector_u64 ((YBits : Int) + (ZBits : Int))
  let y_shifted ← shr_u64 vector_u64 (ZBits : Int)
  let y_mask ← int_mask YBits
  let y64 := y_shifted &&& to_u64 y_mask
  let z_mask ← int_mask ZBits
  let z64 := vector_u64 &&& to_u64 z_mask
  pure (x64, y64, z64)

/-- The non-streaming unpacker `unpack_vector3_n`. -/
def unpack_vector3_n {F : Type} (sp : ScalarPacking F) (XBits YBits ZBits : Nat)
    (is_unsigned : Bool) (vector_data : Buffer) : Except Failure (F × F × F) := do
  let (x64, y64, z64) ← unpack_vector3_n_codes YBits ZBits vector_data
  let x ← sp.unpack_scalar is_unsigned x64 XBits
  let y ← sp.unpack_scalar is_unsigned y64 YBits
  let z ← sp.unpack_scalar is_unsigned z64 ZBits
  pure (vector_set x y z)

/-- The integer part of the streaming `unpack_vector3_n`, lines 309-331: the
codes `x64`, `y64`, `z64` read at a bit offset of a big-endian stream. -/
def unpack_vector3_n_bit_offset_codes (XBits YBits ZBits : Nat) (vector_data : Buffer)
    (bit_offset : Nat) : Except Failure (Nat × Nat × Nat) := do
  let num_bits_to_read : Nat := (XBits + YBits + ZBits) % 2 ^ 8
  let byte_offset := bit_offset / 8
  let vector_u64 ← load_u64 vector_data byte_offset
  let vector_u64 := byte_swap vector_u64
  let vector_u64 := (vector_u64 <<< (bit_offset % 8)) % 2 ^ 64
  let vector_u64 ← shr_u64 vector_u64 (64 - (num_bits_to_read : Int))
  let x64 ← shr_u64 vector_u64 ((YBits : Int) + (ZBits : Int))
  let y_shifted ← shr_u64 vector_u64 (ZBits : Int)
  let y_mask ← int_mask YBits
  let y64 := y_shifted &&& to_u64 y_mask
  let z_mask ← int_mask ZBits
  let z64 := vector_u64 &&& to_u64 z_mask
  if (num_bits_to_read + bit_offset % 8) % 2 ^ 64 > 64 then
    let bit_offset := (bit_offset + (XBits + YBits)) % 2 ^ 64
    let byte_offset := bit_offset / 8
    let vector_u64 ← load_u64 vector_data byte_offset
    let vector_u64 := byte_swap vector_u64
    let vector_u64 := (vector_u64 <<< (bit_offset % 8)) % 2 ^ 64
    let vector_u64 ← shr_u64 vector_u64 (64 - (ZBits : Int))
    let z64 := vector_u64
    pure (x64, y64, z64)
  else
    pure (x64, y64, z64)

/-- The streaming unpacker `unpack_vector3_n`, the overload with a bit
offset. -/
def unpack_vector3_n_bit_offset {F : Type} (sp : ScalarPacking F) (XBits YBits ZBits : Nat)
    (is_unsigned : Bool) (vector_data : Buffer) (bit_offset : Nat) :
    Except Failure (F × F × F) := do
  let (x64, y64, z64) ←
    unpack_vector3_n_bit_offset_codes XBits YBits ZBits vector_data bit_offset
  let x ← sp.unpack_scalar is_unsigned x64 XBits
  let y ← sp.unpack_scalar is_unsigned y64 YBits
  let z ← sp.unpack_scalar is_unsigned z64 ZBits
  pure (vector_set x y z)

/-! ## The 96-bit triple, lines 100-145

The format is a raw copy, so a float is represented by its 32-bit pattern. -/

/-- Modelled from the spec: `vector_unaligned_load3` of
`acl/math/vector4_32.h`, which is not among the sources: the raw copy of three
native floats, here the three 32-bit patterns at byte offsets 0, 4 and 8 in
native byte order. -/
def vector_unaligned_load3 (input : Buffer) : Except Failure (Nat × Nat × Nat) := do
  let x ← load_u32 input 0
  let y ← load_u32 input 4
  let z ← load_u32 input 8
  pure (vector_set x y z)

/-- Modelled from the spec: `scalar_unaligned_load` of `acl/core/memory.h`,
which is not among the sources, applied to the address of a 64-bit local: the
float whose pattern is the first four bytes of the local, which are its low 32
bits on a little-endian target. -/
def scalar_unaligned_load (local_u64 : Nat) : Nat := local_u64 % 2 ^ 32

/-- The non-streaming unpacker `unpack_vector3_96`. -/
def unpack_vector3_96 (vector_data : Buffer) : Except Failure (Nat × Nat × Nat) :=
  vector_unaligned_load3 vector_data

/-- The integer part of the streaming `unpack_vector3_96`, lines 113-137: the
values `x64`, `y64`, `z64` read at a bit offset of a big-endian stream. -/
def unpack_vector3_96_bit_offset_codes (vector_data : Buffer) (bit_offset : Nat) :
    Except Failure (Nat × Nat × Nat) := do
  let byte_offset := bit_offset / 8
  let vector_u64 ← load_u64 vector_data byte_offset
  let vector_u64 := byte_swap vector_u64
  let vector_u64 := (vector_u64 <<< (bit_offset % 8)) % 2 ^ 64
  let vector_u64 := vector_u64 >>> (64 - 32)
  let x64 := vector_u64
  let bit_offset := (bit_offset + 32) % 2 ^ 64
  let byte_offset := bit_offset / 8
  let vector_u64 ← load_u64 vector_data byte_offset
  let vector_u64 := byte_swap vector_u64
  let vector_u64 := (vector_u64 <<< (bit_offset % 8)) % 2 ^ 64
  let vector_u64 := vector_u64 >>> (64 - 32)
  let y64 := vector_u64
  let bit_offset := (bit_offset + 32) % 2 ^ 64
  let byte_offset := bit_offset / 8
  let vector_u64 ← load_u64 vector_data byte_offset
  let vector_u64 := byte_swap vector_u64
  let vector_u64 := (vector_u64 <<< (bit_offset % 8)) % 2 ^ 64
  let vector_u64 := vector_u64 >>> (64 - 32)
  let z64 := vector_u64
  pure (x64, y64, z64)

/-- The streaming unpacker `unpack_vector3_96`, the overload with a bit
offset. -/
def unpack_vector3_96_bit_offset (vector_data : Buffer) (bit_offset : Nat) :
    Except Failure (Nat × Nat × Nat) := do
  let (x64, y64, z64) ← unpack_vector3_96_bit_offset_codes vector_data bit_offset
  let x := scalar_unaligned_load x64
  let y := scalar_unaligned_load y64
  let z := scalar_unaligned_load z64
  pure (vector_set x y z)

/-! ## The big-endian bitstream, the reference of the streaming unpackers -/

/-- Bit `i` of a buffer read as a bitstream, most significant bit of byte 0
first.  Bits past the end of the buffer read as 0. -/
def stream_bit (data : Buffer) (i : Nat) : Nat :=
  ((data.getD (i / 8) 0).val / 2 ^ (7 - i % 8)) % 2

/-- The unsigned integer formed by the bits `[b, b + width)` of the bitstream,
the first bit the most significant. -/
def stream_bits (data : Buffer) (b : Nat) : Nat → Nat
  | 0 => 0
  | width + 1 => 2 * stream_bits data b width + stream_bit data (b + width)

/-! ## A quantizer of codes

The packers are exercised on chosen codes through a quantizer that hands back
the integer it is given: a float is then the code itself. -/

/-- The quantizer whose floats are the codes themselves. -/
def code_quantizer : ScalarPacking Nat where
  pack_scalar_unsigned := fun input _ => .ok input
  pack_scalar_signed := fun input _ => .ok input
  unpack_scalar_unsigned := fun input _ => .ok input
  unpack_scalar_signed := fun input _ => .ok input
  pack_scalar_unsigned_24 := fun input => .ok input
  pack_scalar_signed_24 := fun input => .ok input
  unpack_scalar_unsigned_24 := fun input => .ok input
  unpack_scalar_signed_24 := fun input => .ok input

/-! ## The byte order of a 32-bit pattern -/

/-- The four bytes of a 32-bit pattern in reverse order: the pattern read in
the other byte order.  It states how the two `unpack_vector3_96` overloads
relate. -/
def byte_swap_u32 (value : Nat) : Nat :=
  (value % 256) * 2 ^ 24 + (value / 2 ^ 8 % 256) * 2 ^ 16 + (value / 2 ^ 16 % 256) * 2 ^ 8 +
    (value / 2 ^ 24 % 256)

/-! ## The 16-bit and 8-bit formats, lines 46-98, 147-169 and 203-223 -/

/-- Modelled from the spec: `vector_get_w` of `acl/math/vector4_32.h`, which is
not among the sources: the fourth component of a sample. -/
def vector_get_w {F : Type} (vector : Vector4_32 F) : F := vector.w

/-- Modelled from the spec: the four-argument `vector_set` of
`acl/math/vector4_32.h`, which is not among the sources: the sample of four
components. -/
def vector_set4 {F : Type} (x y z w : F) : Vector4_32 F := ⟨x, y, z, w⟩

/-- The packer `pack_vector4_64`. -/
def pack_vector4_64 {F : Type} (sp : ScalarPacking F) (vector : Vector4_32 F)
    (is_unsigned : Bool) : Exec Unit := do
  let vector_x ← sp.pack_scalar is_unsigned (vector_get_x vector) 16
  let vector_y ← sp.pack_scalar is_unsigned (vector_get_y vector) 16
  let vector_z ← sp.pack_scalar is_unsigned (vector_get_z vector) 16
  let vector_w ← sp.pack_scalar is_unsigned (vector_get_w vector) 16
  let data0 ← safe_static_cast 16 vector_x
  store_u16 0 data0
  let data1 ← safe_static_cast 16 vector_y
  store_u16 1 data1
  let data2 ← safe_static_cast 16 vector_z
  store_u16 2 data2
  let data3 ← safe_static_cast 16 vector_w
  store_u16 3 data3

/-- The integer part of `unpack_vector4_64`, lines 62-66: the codes `x16`,
`y16`, `z16`, `w16`. -/
def unpack_vector4_64_codes (vector_data : Buffer) :
    Except Failure (Nat × Nat × Nat × Nat) := do
  let x16 ← load_u16 vector_data 0
  let y16 ← load_u16 vector_data 1
  let z16 ← load_u16 vector_data 2
  let w16 ← load_u16 vector_data 3
  pure (x16, y16, z16, w16)

/-- The unpacker `unpack_vector4_64`. -/
def unpack_vector4_64 {F : Type} (sp : ScalarPacking F) (vector_data : Buffer)
    (is_unsigned : Bool) : Except Failure (Vector4_32 F) := do
  let (x16, y16, z16, w16) ← unpack_vector4_64_codes vector_data
  let x ← sp.unpack_scalar is_unsigned x16 16
  let y ← sp.unpack_scalar is_unsigned y16 16
  let z ← sp.unpack_scalar is_unsigned z16 16
  let w ← sp.unpack_scalar is_unsigned w16 16
  pure (vector_set4 x y z w)

/-- The packer `pack_vector4_32`. -/
def pack_vector4_32 {F : Type} (sp : ScalarPacking F) (vector : Vector4_32 F)
    (is_unsigned : Bool) : Exec Unit := do
  let vector_x ← sp.pack_scalar is_unsigned (vector_get_x vector) 8
  let vector_y ← sp.pack_scalar is_unsigned (vector_get_y vector) 8
  let vector_z ← sp.pack_scalar is_unsigned (vector_get_z vector) 8
  let vector_w ← sp.pack_scalar is_unsigned (vector_get_w vector) 8
  let data0 ← safe_static_cast 8 vector_x
  store_u8 0 data0
  let data1 ← safe_static_cast 8 vector_y
  store_u8 1 data1
  let data2 ← safe_static_cast 8 vector_z
  store_u8 2 data2
  let data3 ← safe_static_cast 8 vector_w
  store_u8 3 data3

/-- The integer part of `unpack_vector4_32`, lines 89-92: the codes `x8`, `y8`,
`z8`, `w8`. -/
def unpack_vector4_32_codes (vector_data : Buffer) :
    Except Failure (Nat × Nat × Nat × Nat) := do
  let x8 ← load_u8 vector_data 0
  let y8 ← load_u8 vector_data 1
  let z8 ← load_u8 vector_data 2
  let w8 ← load_u8 vector_data 3
  pure (x8, y8, z8, w8)

/-- The unpacker `unpack_vector4_32`. -/
def unpack_vector4_32 {F : Type} (sp : ScalarPacking F) (vector_data : Buffer)
    (is_unsigned : Bool) : Except Failure (Vector4_32 F) := do
  let (x8, y8, z8, w8) ← unpack_vector4_32_codes vector_data
  let x ← sp.unpack_scalar is_unsigned x8 8
  let y ← sp.unpack_scalar is_unsigned y8 8
  let z ← sp.unpack_scalar is_unsigned z8 8
  let w ← sp.unpack_scalar is_unsigned w8 8
  pure (vector_set4 x y z w)

/-- The packer `pack_vector3_48`. -/
def pack_vector3_48 {F : Type} (sp : ScalarPacking F) (vector : Vector4_32 F)
    (is_unsigned : Bool) : Exec Unit := do
  let vector_x ← sp.pack_scalar is_unsigned (vector_get_x vector) 16
  let vector_y ← sp.pack_scalar is_unsigned (vector_get_y vector) 16
  let vector_z ← sp.pack_scalar is_unsigned (vector_get_z vector) 16
  let data0 ← safe_static_cast 16 vector_x
  store_u16 0 data0
  let data1 ← safe_static_cast 16 vector_y
  store_u16 1 data1
  let data2 ← safe_static_cast 16 vector_z
  store_u16 2 data2

/-- The integer part of `unpack_vector3_48`, lines 161-164: the codes `x16`,
`y16`, `z16`. -/
def unpack_vector3_48_codes (vector_data : Buffer) : Except Failure (Nat × Nat × Nat) := do
  let x16 ← load_u16 vector_data 0
  let y16 ← load_u16 vector_data 1
  let z16 ← load_u16 vector_data 2
  pure (x16, y16, z16)

/-- The unpacker `unpack_vector3_48`. -/
def unpack_vector3_48 {F : Type} (sp : ScalarPacking F) (vector_data : Buffer)
    (is_unsigned : Bool) : Except Failure (F × F × F) := do
  let (x16, y16, z16) ← unpack_vector3_48_codes vector_data
  let x ← sp.unpack_scalar is_unsigned x16 16
  let y ← sp.unpack_scalar is_unsigned y16 16
  let z ← sp.unpack_scalar is_unsigned z16 16
  pure (vector_set x y z)

/-- The packer `pack_vector3_24`. -/
def pack_vector3_24 {F : Type} (sp : ScalarPacking F) (vector : Vector4_32 F)
    (is_unsigned : Bool) : Exec Unit := do
  let vector_x ← sp.pack_scalar is_unsigned (vector_get_x vector) 8
  let vector_y ← sp.pack_scalar is_unsigned (vector_get_y vector) 8
  let vector_z ← sp.pack_scalar is_unsigned (vector_get_z vector) 8
  let data0 ← safe_static_cast 8 vector_x
  store_u8 0 data0
  let data1 ← safe_static_cast 8 vector_y
  store_u8 1 data1
  let data2 ← safe_static_cast 8 vector_z
  store_u8 2 data2

/-- The integer part of `unpack_vector3_24`, lines 216-218: the codes `x8`,
`y8`, `z8`. -/
def unpack_vector3_24_codes (vector_data : Buffer) : Except Failure (Nat × Nat × Nat) := do
  let x8 ← load_u8 vector_data 0
  let y8 ← load_u8 vector_data 1
  let z8 ← load_u8 vector_data 2
  pure (x8, y8, z8)

/-- The unpacker `unpack_vector3_24`. -/
def unpack_vector3_24 {F : Type} (sp : ScalarPacking F) (vector_data : Buffer)
    (is_unsigned : Bool) : Except Failure (F × F × F) := do
  let (x8, y8, z8) ← unpack_vector3_24_codes vector_data
  let x ← sp.unpack_scalar is_unsigned x8 8
  let y ← sp.unpack_scalar is_unsigned y8 8
  let z ← sp.unpack_scalar is_unsigned z8 8
  pure (vector_set x y z)

/-! ## The lossless formats, lines 36-44 and 100-103

A float is represented by its 32-bit pattern. -/

/-- The store of a 32-bit word at a byte offset, in native (little-endian) byte
order; a byte outside the buffer is undefined. -/
def store_u32 (byte_offset : Nat) (value : Nat) : Exec Unit := fun out =>
  if byte_offset + 3 < out.length then
    (.ok (), (((out.set byte_offset (toByte value)).set (byte_offset + 1)
      (toByte (value / 2 ^ 8))).set (byte_offset + 2) (toByte (value / 2 ^ 16))).set
      (byte_offset + 3) (toByte (value / 2 ^ 24)))
  else (.error .undefined, out)

/-- Modelled from the spec: `vector_unaligned_write` of `acl/math/vector4_32.h`,
which is not among the sources: the raw copy of the four native floats of a
sample to the first 16 bytes of the output. -/
def vector_unaligned_write (input : Vector4_32 Nat) : Exec Unit := do
  store_u32 0 input.x
  store_u32 4 input.y
  store_u32 8 input.z
  store_u32 12 input.w

/-- Modelled from the spec: `vector_unaligned_load` of `acl/math/vector4_32.h`,
which is not among the sources: the raw copy of four native floats, the 32-bit
patterns at byte offsets 0, 4, 8 and 12. -/
def vector_unaligned_load (input : Buffer) : Except Failure (Vector4_32 Nat) := do
  let x ← load_u32 input 0
  let y ← load_u32 input 4
  let z ← load_u32 input 8
  let w ← load_u32 input 12
  pure (vector_set4 x y z w)

/-- Modelled from the spec: `vector_unaligned_write3` of
`acl/math/vector4_32.h`, which is not among the sources: the raw copy of the
first three native floats of a sample to the first 12 bytes of the output. -/
def vector_unaligned_write3 (input : Vector4_32 Nat) : Exec Unit := do
  store_u32 0 input.x
  store_u32 4 input.y
  store_u32 8 input.z

/-- The packer `pack_vector4_128`. -/
def pack_vector4_128 (vector : Vector4_32 Nat) : Exec Unit :=
  vector_unaligned_write vector

/-- The unpacker `unpack_vector4_128`. -/
def unpack_vector4_128 (vector_data : Buffer) : Except Failure (Vector4_32 Nat) :=
  vector_unaligned_load vector_data

/-- The packer `pack_vector3_96`. -/
def pack_vector3_96 (vector : Vector4_32 Nat) : Exec Unit :=
  vector_unaligned_write3 vector

/-! ## Format and size metadata, lines 341-359 -/

/-- Modelled from the spec: the enumeration `VectorFormat8`, declared in a
header that is not among the sources.  Its named values are the three fixed
triple formats and the variable-format sentinel; the numeric tags are not
known, so any other value of the underlying `uint8_t` is `unknown`. -/
inductive VectorFormat8 where
  | Vector3_96
  | Vector3_48
  | Vector3_32
  | Vector3_Variable
  | unknown (tag : Nat)
  deriving DecidableEq

/-- The size `sizeof(float)` in bytes. -/
def sizeof_float : Nat := 4

/-- The size `sizeof(uint16_t)` in bytes. -/
def sizeof_uint16_t : Nat := 2

/-- The size `sizeof(uint32_t)` in bytes. -/
def sizeof_uint32_t : Nat := 4

/-- The function `get_packed_vector_size`. -/
def get_packed_vector_size (format : VectorFormat8) : Except Failure Nat :=
  match format with
  | .Vector3_96 => .ok (sizeof_float * 3)
  | .Vector3_48 => .ok (sizeof_uint16_t * 3)
  | .Vector3_32 => .ok sizeof_uint32_t
  | _ => do
    ACL_ENSURE false
    pure 0

/-- The function `get_range_reduction_vector_size`. -/
def get_range_reduction_vector_size (_format : VectorFormat8) : Nat :=
  sizeof_float * 6

/-! ## The scalar quantizer as the spec describes it

The quantizer in exact arithmetic: a float is a rational number. -/

/-- Modelled from the spec: `pack_scalar_unsigned` of
`acl/math/scalar_packing.h`, which is not among the sources: an input of
`[0, 1]` maps to the integer of `[0, 2 ^ num_bits - 1]` nearest to
`input * (2 ^ num_bits - 1)`, for `num_bits` in `[1, 32]`; anything else is a
precondition violation.  A tie, which the spec leaves open, rounds up. -/
def pack_scalar_unsigned (input : ℚ) (num_bits : Nat) : Except Failure Nat :=
  if 1 ≤ num_bits ∧ num_bits ≤ 32 ∧ 0 ≤ input ∧ input ≤ 1 then
    .ok (⌊input * (2 ^ num_bits - 1) + 1 / 2⌋).toNat
  else .error .precondition

/-- Modelled from the spec: `pack_scalar_signed` of `acl/math/scalar_packing.h`,
which is not among the sources: an input of `[-1, 1]` is rescaled to `[0, 1]`
by `(input + 1) / 2` and handed to the unsigned mapping; an input outside
`[-1, 1]` is a precondition violation. -/
def pack_scalar_signed (input : ℚ) (num_bits : Nat) : Except Failure Nat :=
  if -1 ≤ input ∧ input ≤ 1 then pack_scalar_unsigned ((input + 1) / 2) num_bits
  else .error .precondition

/-- Modelled from the spec: `unpack_scalar_unsigned` of
`acl/math/scalar_packing.h`, which is not among the sources: the inverse
mapping `input / (2 ^ num_bits - 1)`, for `num_bits` in `[1, 32]`. -/
def unpack_scalar_unsigned (input : Nat) (num_bits : Nat) : Except Failure ℚ :=
  if 1 ≤ num_bits ∧ num_bits ≤ 32 then .ok ((input : ℚ) / (2 ^ num_bits - 1))
  else .error .precondition

/-- Modelled from the spec: `unpack_scalar_signed` of
`acl/math/scalar_packing.h`, which is not among the sources: the inverse of the
signed mapping, `input / (2 ^ num_bits - 1) * 2 - 1`. -/
def unpack_scalar_signed (input : Nat) (num_bits : Nat) : Except Failure ℚ :=
  if 1 ≤ num_bits ∧ num_bits ≤ 32 then .ok ((input : ℚ) / (2 ^ num_bits - 1) * 2 - 1)
  else .error .precondition

/-- Modelled from the spec: the scalar quantizer of `acl/math/scalar_packing.h`
over the rationals, with its 24-bit specializations. -/
def spec_quantizer : ScalarPacking ℚ where
  pack_scalar_unsigned := pack_scalar_unsigned
  pack_scalar_signed := pack_scalar_signed
  unpack_scalar_unsigned := unpack_scalar_unsigned
  unpack_scalar_signed := unpack_scalar_signed
  pack_scalar_unsigned_24 := fun input => pack_scalar_unsigned input 24
  pack_scalar_signed_24 := fun input => pack_scalar_signed input 24
  unpack_scalar_unsigned_24 := fun input => unpack_scalar_unsigned input 24
  unpack_scalar_signed_24 := fun input => unpack_scalar_signed input 24

/-- The normalized domain of a component: `[0, 1]` unsigned, `[-1, 1]`
signed. -/
def in_domain (is_unsigned : Bool) (value : ℚ) : Prop :=
  (if is_unsigned then 0 else -1) ≤ value ∧ value ≤ 1

/-- The lower end of the normalized domain: 0 unsigned, -1 signed. -/
def domain_lower (is_unsigned : Bool) : ℚ := if is_unsigned then 0 else -1

/-- What the boundary-value property says of one component: `code` is the code
the quantizer of the spec gives `value` on `num_bits` bits, it is 0 when the
value is the lower end of the domain and `2 ^ num_bits - 1` when the value is
1. -/
def boundary_code (is_unsigned : Bool) (value : ℚ) (num_bits : Nat) (code : Nat) : Prop :=
  spec_quantizer.pack_scalar is_unsigned value num_bits = .ok code ∧
  (value = domain_lower is_unsigned → code = 0) ∧
  (value = 1 → code = 2 ^ num_bits - 1)

/-- The four bytes of a stored 32-bit pattern, in native byte order. -/
def pattern_bytes (value : Nat) : List Byte :=
  [toByte value, toByte (value / 2 ^ 8), toByte (value / 2 ^ 16), toByte (value / 2 ^ 24)]

/-! ## Arithmetic of bit fields -/

/-- Three fields side by side are below the power of two of the total width. -/
theorem fields_lt {a b c X Y Z : Nat} (hX : X < 2 ^ a) (hY : Y < 2 ^ b) (hZ : Z < 2 ^ c) :
    X * 2 ^ (b + c) + Y * 2 ^ c + Z < 2 ^ (a + b + c) := by
  have h1 : Y * 2 ^ c + Z < 2 ^ (b + c) := by
    have : (Y + 1) * 2 ^ c ≤ 2 ^ b * 2 ^ c := Nat.mul_le_mul_right _ hY
    rw [pow_add]; nlinarith
  have h2 : (X + 1) * 2 ^ (b + c) ≤ 2 ^ a * 2 ^ (b + c) := Nat.mul_le_mul_right _ hX
  rw [Nat.add_assoc a b c, pow_add 2 a (b + c)]
  nlinarith

/-- Two fields side by side are below the power of two of the total width. -/
theorem fields2_lt {b c Y Z : Nat} (hY : Y < 2 ^ b) (hZ : Z < 2 ^ c) :
    Y * 2 ^ c + Z < 2 ^ (b + c) := by
  have : (Y + 1) * 2 ^ c ≤ 2 ^ b * 2 ^ c := Nat.mul_le_mul_right _ hY
  rw [pow_add]; nlinarith

/-- Composing fields that do not overlap with `|` is adding them. -/
theorem compose_or_eq {b c Y Z : Nat} (X : Nat) (hY : Y < 2 ^ b) (hZ : Z < 2 ^ c) :
    (X <<< (b + c)) ||| (Y <<< c) ||| Z = X * 2 ^ (b + c) + Y * 2 ^ c + Z := by
  rw [Nat.shiftLeft_eq, Nat.shiftLeft_eq, Nat.or_assoc]
  have h1 : Y * 2 ^ c ||| Z = Y * 2 ^ c + Z := by
    rw [Nat.mul_comm Y, Nat.mul_add_lt_is_or hZ]
  rw [h1, Nat.add_assoc, Nat.mul_comm X, Nat.mul_add_lt_is_or (fields2_lt hY hZ)]

/-- The high field of a composed word. -/
theorem compose_div {b c Y Z : Nat} (X : Nat) (hY : Y < 2 ^ b) (hZ : Z < 2 ^ c) :
    (X * 2 ^ (b + c) + Y * 2 ^ c + Z) / 2 ^ (b + c) = X := by
  have h := fields2_lt hY hZ
  rw [Nat.add_assoc, Nat.mul_comm X, Nat.mul_add_div (by positivity), Nat.div_eq_of_lt h]
  rfl

/-- The middle field of a composed word. -/
theorem compose_mid {b c Y Z : Nat} (X : Nat) (hY : Y < 2 ^ b) (hZ : Z < 2 ^ c) :
    (X * 2 ^ (b + c) + Y * 2 ^ c + Z) / 2 ^ c % 2 ^ b = Y := by
  have e : X * 2 ^ (b + c) + Y * 2 ^ c + Z = 2 ^ c * (X * 2 ^ b + Y) + Z := by
    rw [pow_add]; ring
  rw [e, Nat.mul_add_div (by positivity), Nat.div_eq_of_lt hZ, Nat.add_zero,
    Nat.mul_comm X, Nat.mul_add_mod, Nat.mod_eq_of_lt hY]

/-- The low field of a composed word. -/
theorem compose_low {b c Y Z : Nat} (X : Nat) (hZ : Z < 2 ^ c) :
    (X * 2 ^ (b + c) + Y * 2 ^ c + Z) % 2 ^ c = Z := by
  have e : X * 2 ^ (b + c) + Y * 2 ^ c + Z = 2 ^ c * (X * 2 ^ b + Y) + Z := by
    rw [pow_add]; ring
  rw [e, Nat.mul_add_mod, Nat.mod_eq_of_lt hZ]

/-! ## The mask expression -/

/-- The mask `(1 << bits) - 1` is defined for a width of at most 30 bits, and
is then the mask of the low `bits` bits. -/
theorem int_mask_ok {bits : Nat} (h : bits ≤ 30) :
    int_mask bits = .ok ((2 ^ bits - 1 : Nat) : Int) := by
  have h1 : (2 : Int) ^ bits ≤ 2 ^ 30 := pow_le_pow_right₀ (by norm_num) h
  have h0 : (1 : Int) ≤ 2 ^ bits := one_le_pow₀ (by norm_num)
  have hc : (1 : Nat) ≤ 2 ^ bits := Nat.one_le_two_pow
  simp only [int_mask, shl_int, sub_int, bind, Except.bind, Int.toNat_ofNat, one_mul]
  have hdef : (0 : Int) ≤ 1 ∧ (0 : Int) ≤ (bits : Int) ∧ (bits : Int) < 32 ∧
      (2 : Int) ^ bits < 2 ^ 32 :=
    ⟨by norm_num, by positivity, by norm_cast; omega, by norm_num at h1 ⊢; omega⟩
  rw [if_pos hdef]
  rw [if_pos (by norm_num at h1 ⊢; omega)]
  simp only []
  rw [if_pos (by norm_num at h1 ⊢; omega)]
  push_cast [hc]
  rfl

/-- The mask of at most 30 bits converted to `uint32_t`. -/
theorem to_u32_mask {bits : Nat} (h : bits ≤ 30) :
    to_u32 ((2 ^ bits - 1 : Nat) : Int) = 2 ^ bits - 1 := by
  have h1 : (2 : Nat) ^ bits ≤ 2 ^ 30 := Nat.pow_le_pow_right (by norm_num) h
  unfold to_u32
  have : ((2 ^ bits - 1 : Nat) : Int) % 2 ^ 32 = ((2 ^ bits - 1 : Nat) : Int) := by
    have h2 : 2 ^ bits - 1 < 2 ^ 32 := by norm_num at h1 ⊢; omega
    exact Int.emod_eq_of_lt (by positivity) (by exact_mod_cast h2)
  rw [this, Int.toNat_ofNat]

/-- The mask of at most 30 bits converted to `uint64_t`. -/
theorem to_u64_mask {bits : Nat} (h : bits ≤ 30) :
    to_u64 ((2 ^ bits - 1 : Nat) : Int) = 2 ^ bits - 1 := by
  have h1 : (2 : Nat) ^ bits ≤ 2 ^ 30 := Nat.pow_le_pow_right (by norm_num) h
  unfold to_u64
  have : ((2 ^ bits - 1 : Nat) : Int) % 2 ^ 64 = ((2 ^ bits - 1 : Nat) : Int) := by
    have h2 : 2 ^ bits - 1 < 2 ^ 64 := by norm_num at h1 ⊢; omega
    exact Int.emod_eq_of_lt (by positivity) (by exact_mod_cast h2)
  rw [this, Int.toNat_ofNat]

/-! ## Running a packer -/

/-- Sequencing, run on a buffer. -/
theorem Exec.bind_run {α β : Type} (x : Exec α) (f : α → Exec β) (out : Buffer) :
    (x >>= f) out = match x out with
      | (.ok a, out') => f a out'
      | (.error e, out') => (.error e, out') := rfl

/-- A computation without writes, run on a buffer. -/
theorem Exec.monadLift_run {α : Type} (x : Except Failure α) (out : Buffer) :
    (MonadLiftT.monadLift x : Exec α) out = (x, out) := rfl

/-- The checked cast of a value that fits is the value. -/
theorem safe_static_cast_ok {bits input : Nat} (h : input < 2 ^ bits) :
    safe_static_cast bits input = .ok input := by
  simp [safe_static_cast, h]

/-- A left shift of a 64-bit value by a count below 64. -/
theorem shl_u64_ok {value count : Nat} (h : count < 64) :
    shl_u64 value (count : Int) = .ok ((value * 2 ^ count) % 2 ^ 64) := by
  have : (0 : Int) ≤ count ∧ (count : Int) < 64 := ⟨by positivity, by exact_mod_cast h⟩
  simp [shl_u64, this, Nat.shiftLeft_eq]

/-- A right shift of a 64-bit value by a count below 64. -/
theorem shr_u64_ok {value count : Nat} (h : count < 64) :
    shr_u64 value (count : Int) = .ok (value / 2 ^ count) := by
  have : (0 : Int) ≤ count ∧ (count : Int) < 64 := ⟨by positivity, by exact_mod_cast h⟩
  simp [shr_u64, this, Nat.shiftRight_eq_div_pow]

/-- A right shift of a 32-bit value by a count below 32. -/
theorem shr_u32_ok {value count : Nat} (h : count < 32) :
    shr_u32 value (count : Int) = .ok (value / 2 ^ count) := by
  have : (0 : Int) ≤ count ∧ (count : Int) < 32 := ⟨by positivity, by exact_mod_cast h⟩
  simp [shr_u32, this, Nat.shiftRight_eq_div_pow]

/-- The run of `pack_vector3_32` on codes in range: it succeeds and stores the
two halves of the composed word. -/
theorem pack_vector3_32_run {F : Type} (sp : ScalarPacking F) (vector : Vector4_32 F)
    (is_unsigned : Bool) (XBits YBits ZBits X Y Z : Nat) (out : Buffer)
    (hsum : XBits + YBits + ZBits = 32)
    (hx : sp.pack_scalar is_unsigned vector.x XBits = .ok X)
    (hy : sp.pack_scalar is_unsigned vector.y YBits = .ok Y)
    (hz : sp.pack_scalar is_unsigned vector.z ZBits = .ok Z)
    (hX : X < 2 ^ XBits) (hY : Y < 2 ^ YBits) (hZ : Z < 2 ^ ZBits)
    (hout : 4 ≤ out.length) :
    pack_vector3_32 sp vector XBits YBits ZBits is_unsigned out =
      (.ok (), (((out.set 0 (toByte ((X * 2 ^ (YBits + ZBits) + Y * 2 ^ ZBits + Z) / 2 ^ 16))).set 1
        (toByte ((X * 2 ^ (YBits + ZBits) + Y * 2 ^ ZBits + Z) / 2 ^ 16 / 2 ^ 8))).set 2
        (toByte ((X * 2 ^ (YBits + ZBits) + Y * 2 ^ ZBits + Z) % 2 ^ 16))).set 3
        (toByte ((X * 2 ^ (YBits + ZBits) + Y * 2 ^ ZBits + Z) % 2 ^ 16 / 2 ^ 8))) := by
  have hW : X * 2 ^ (YBits + ZBits) + Y * 2 ^ ZBits + Z < 2 ^ 32 := by
    rw [← hsum]; exact fields_lt hX hY hZ
  have hYZ : Y * 2 ^ ZBits + Z < 2 ^ (YBits + ZBits) := fields2_lt hY hZ
  have hle : (2 : Nat) ^ (YBits + ZBits) ≤ 2 ^ 32 := Nat.pow_le_pow_right (by norm_num) (by omega)
  have hxs : X * 2 ^ (YBits + ZBits) % 2 ^ 64 = X * 2 ^ (YBits + ZBits) :=
    Nat.mod_eq_of_lt (by omega)
  have hys : Y * 2 ^ ZBits % 2 ^ 64 = Y * 2 ^ ZBits := Nat.mod_eq_of_lt (by omega)
  have hor : X * 2 ^ (YBits + ZBits) ||| Y * 2 ^ ZBits ||| Z =
      X * 2 ^ (YBits + ZBits) + Y * 2 ^ ZBits + Z := by
    have := compose_or_eq X hY hZ
    rwa [Nat.shiftLeft_eq, Nat.shiftLeft_eq] at this
  have h1 : shl_u64 X ((YBits : Int) + (ZBits : Int)) = .ok (X * 2 ^ (YBits + ZBits)) := by
    have := @shl_u64_ok X (YBits + ZBits) (by omega)
    rw [hxs] at this; rw [← this]; push_cast; rfl
  have h2 : shl_u64 Y (ZBits : Int) = .ok (Y * 2 ^ ZBits) := by
    have := @shl_u64_ok Y ZBits (by omega)
    rwa [hys] at this
  have h3 : (X * 2 ^ (YBits + ZBits) + Y * 2 ^ ZBits + Z) / 2 ^ 16 < 2 ^ 16 := by omega
  have h4 : (X * 2 ^ (YBits + ZBits) + Y * 2 ^ ZBits + Z) % 2 ^ 16 < 2 ^ 16 :=
    Nat.mod_lt _ (by norm_num)
  have hand : (X * 2 ^ (YBits + ZBits) + Y * 2 ^ ZBits + Z) &&& 65535 =
      (X * 2 ^ (YBits + ZBits) + Y * 2 ^ ZBits + Z) % 2 ^ 16 :=
    Nat.and_pow_two_sub_one_eq_mod _ 16
  unfold pack_vector3_32
  simp only [Exec.bind_run, Exec.monadLift_run, ACL_ENSURE, hsum, vector_get_x, vector_get_y,
    vector_get_z, hx, hy, hz, h1, h2, hor, safe_static_cast_ok hW, Nat.shiftRight_eq_div_pow,
    safe_static_cast_ok h3, hand, safe_static_cast_ok h4, beq_self_eq_true, if_true]
  have hb1 : 1 < out.length := by omega
  have hb3 : 3 < out.length := by omega
  simp [store_u16, List.length_set, hb1, hb3]

/-! ## Reading back what was stored -/

/-- A byte read inside the buffer. -/
theorem load_u8_ok {data : Buffer} {index : Nat} (h : index < data.length) :
    load_u8 data index = .ok (data.getD index 0).val := by
  simp [load_u8, List.getD_eq_getElem?_getD, List.getElem?_eq_getElem h]

/-- A byte truncates a value below 256 to itself. -/
theorem toByte_val (v : Nat) : (toByte v).val = v % 256 := rfl

/-- The two 16-bit units of a buffer whose first four bytes were stored. -/
theorem load_u16_stored (out : Buffer) (a b c d : Byte) (hout : 4 ≤ out.length) :
    load_u16 ((((out.set 0 a).set 1 b).set 2 c).set 3 d) 0 = .ok (a.val + b.val * 2 ^ 8) ∧
    load_u16 ((((out.set 0 a).set 1 b).set 2 c).set 3 d) 1 = .ok (c.val + d.val * 2 ^ 8) := by
  have h0 : 0 < out.length := by omega
  have h1 : 1 < out.length := by omega
  have h2 : 2 < out.length := by omega
  have h3 : 3 < out.length := by omega
  constructor <;>
    simp [load_u16, load_u8, List.getElem?_set, h0, h1, h2, h3, bind, Except.bind, pure,
      Except.pure]

/-- The codes `unpack_vector3_32` extracts from two 16-bit units: the fields of
the word whose high half is the first unit and whose low half is the second. -/
theorem unpack_vector3_32_codes_of_units (XBits YBits ZBits high low : Nat)
    (vector_data : Buffer)
    (hXBits : 1 ≤ XBits) (hYBits : 1 ≤ YBits) (hZBits : 1 ≤ ZBits)
    (hsum : XBits + YBits + ZBits = 32)
    (h0 : load_u16 vector_data 0 = .ok high) (h1 : load_u16 vector_data 1 = .ok low)
    (hhigh : high < 2 ^ 16) (hlow : low < 2 ^ 16) :
    unpack_vector3_32_codes XBits YBits ZBits vector_data =
      .ok ((high * 2 ^ 16 + low) / 2 ^ (YBits + ZBits),
           (high * 2 ^ 16 + low) / 2 ^ ZBits % 2 ^ YBits,
           (high * 2 ^ 16 + low) % 2 ^ ZBits) := by
  have hh : high < 2 ^ 32 := by omega
  have hl : low < 2 ^ 32 := by omega
  have hw : (high <<< 16) % 2 ^ 32 ||| low = high * 2 ^ 16 + low := by
    rw [Nat.shiftLeft_eq, Nat.mod_eq_of_lt (by omega), Nat.mul_comm,
      Nat.mul_add_lt_is_or hlow]
  have hsx : shr_u32 (high * 2 ^ 16 + low) ((YBits : Int) + (ZBits : Int)) =
      .ok ((high * 2 ^ 16 + low) / 2 ^ (YBits + ZBits)) := by
    have := @shr_u32_ok (high * 2 ^ 16 + low) (YBits + ZBits) (by omega)
    rw [← this]; push_cast; rfl
  have hsy := @shr_u32_ok (high * 2 ^ 16 + low) ZBits (by omega)
  have hmy := @int_mask_ok YBits (by omega)
  have hmz := @int_mask_ok ZBits (by omega)
  simp only [unpack_vector3_32_codes, ACL_ENSURE, hsum, h0, h1, safe_static_cast_ok hh,
    safe_static_cast_ok hl, hw, hsx, hsy, hmy, hmz, to_u32_mask (show YBits ≤ 30 by omega),
    to_u32_mask (show ZBits ≤ 30 by omega), Nat.and_pow_two_sub_one_eq_mod, bind, Except.bind,
    pure, Except.pure, beq_self_eq_true, if_true]

/-! ## The variable-width triple: running the packer and reading the word -/

/-- A 64-bit word stored in the first eight bytes and loaded back. -/
theorem load_u64_stored (out : Buffer) (W : Nat) (hout : 8 ≤ out.length) (hW : W < 2 ^ 64) :
    load_u64 (store_u64 W out).2 0 = .ok W := by
  have h0 : 0 < out.length := by omega
  have h1 : 1 < out.length := by omega
  have h2 : 2 < out.length := by omega
  have h3 : 3 < out.length := by omega
  have h4 : 4 < out.length := by omega
  have h5 : 5 < out.length := by omega
  have h6 : 6 < out.length := by omega
  have h7 : 7 < out.length := by omega
  simp only [store_u64, if_pos hout, load_u64, load_u8, List.getElem?_set, List.length_set,
    bind, Except.bind, pure, Except.pure, toByte_val]
  simp [h0, h1, h2, h3, h4, h5, h6, h7, toByte_val]
  omega

/-- The run of `pack_vector3_n`: whatever the sum of the widths, it stores the
low 64 bits of the composed integer when the quantizer gives codes and the
shift counts are below 64. -/
theorem pack_vector3_n_run {F : Type} (sp : ScalarPacking F) (vector : Vector4_32 F)
    (is_unsigned : Bool) (XBits YBits ZBits X Y Z : Nat) (out : Buffer)
    (hx : sp.pack_scalar is_unsigned vector.x XBits = .ok X)
    (hy : sp.pack_scalar is_unsigned vector.y YBits = .ok Y)
    (hz : sp.pack_scalar is_unsigned vector.z ZBits = .ok Z)
    (hcount : YBits + ZBits < 64) (hZ : Z < 2 ^ 64) (hout : 8 ≤ out.length) :
    pack_vector3_n sp vector XBits YBits ZBits is_unsigned out =
      (.ok (), (store_u64 ((X * 2 ^ (YBits + ZBits)) % 2 ^ 64 ||| (Y * 2 ^ ZBits) % 2 ^ 64 ||| Z)
        out).2) := by
  have h1 : shl_u64 X ((YBits : Int) + (ZBits : Int)) =
      .ok ((X * 2 ^ (YBits + ZBits)) % 2 ^ 64) := by
    have := @shl_u64_ok X (YBits + ZBits) hcount
    rw [← this]; push_cast; rfl
  have h2 := @shl_u64_ok Y ZBits (by omega)
  have hW : (X * 2 ^ (YBits + ZBits)) % 2 ^ 64 ||| (Y * 2 ^ ZBits) % 2 ^ 64 ||| Z < 2 ^ 64 :=
    Nat.or_lt_two_pow (Nat.or_lt_two_pow (Nat.mod_lt _ (by positivity))
      (Nat.mod_lt _ (by positivity))) hZ
  unfold pack_vector3_n
  simp only [Exec.bind_run, Exec.monadLift_run, vector_get_x, vector_get_y, vector_get_z, hx, hy,
    hz, h1, h2, safe_static_cast_ok hW]
  simp [store_u64, hout]

/-- The codes the non-streaming `unpack_vector3_n` extracts from the 64-bit
word at the start of the buffer, for `YBits` and `ZBits` of at most 30. -/
theorem unpack_vector3_n_codes_of_word (YBits ZBits word : Nat) (vector_data : Buffer)
    (hYBits : YBits ≤ 30) (hZBits : ZBits ≤ 30) (hword : load_u64 vector_data 0 = .ok word) :
    unpack_vector3_n_codes YBits ZBits vector_data =
      .ok (word / 2 ^ (YBits + ZBits), word / 2 ^ ZBits % 2 ^ YBits, word % 2 ^ ZBits) := by
  have hsx : shr_u64 word ((YBits : Int) + (ZBits : Int)) = .ok (word / 2 ^ (YBits + ZBits)) := by
    have := @shr_u64_ok word (YBits + ZBits) (by omega)
    rw [← this]; push_cast; rfl
  have hsy := @shr_u64_ok word ZBits (by omega)
  simp only [unpack_vector3_n_codes, hword, hsx, hsy, int_mask_ok hYBits, int_mask_ok hZBits,
    to_u64_mask hYBits, to_u64_mask hZBits, Nat.and_pow_two_sub_one_eq_mod, bind, Except.bind,
    pure, Except.pure]

/-! ## The bitstream -/

/-- A bit field of the stream is below the power of two of its width. -/
theorem stream_bits_lt (data : Buffer) (b width : Nat) : stream_bits data b width < 2 ^ width := by
  induction width with
  | zero => simp [stream_bits]
  | succ w ih =>
    have hbit : stream_bit data (b + w) < 2 := Nat.mod_lt _ (by norm_num)
    simp only [stream_bits, pow_succ]
    omega

/-- A bit field splits into its first `w1` bits and the `w2` bits after them. -/
theorem stream_bits_add (data : Buffer) (b w1 w2 : Nat) :
    stream_bits data b (w1 + w2) =
      stream_bits data b w1 * 2 ^ w2 + stream_bits data (b + w1) w2 := by
  induction w2 with
  | zero => simp [stream_bits]
  | succ w ih =>
    rw [← Nat.add_assoc]
    simp only [stream_bits, ih, pow_succ, Nat.add_assoc]
    ring

/-- The eight bits of a byte, most significant first, form the byte. -/
theorem stream_bits_byte (data : Buffer) (k : Nat) :
    stream_bits data (8 * k) 8 = (data.getD k 0).val := by
  have hv : (data.getD k 0).val < 256 := (data.getD k 0).isLt
  have d : ∀ j, j < 8 → (8 * k + j) / 8 = k ∧ (8 * k + j) % 8 = j := by
    intro j hj; constructor <;> omega
  simp only [stream_bits, stream_bit, Nat.add_zero]
  rw [(d 1 (by norm_num)).1, (d 1 (by norm_num)).2, (d 2 (by norm_num)).1,
    (d 2 (by norm_num)).2, (d 3 (by norm_num)).1, (d 3 (by norm_num)).2,
    (d 4 (by norm_num)).1, (d 4 (by norm_num)).2, (d 5 (by norm_num)).1,
    (d 5 (by norm_num)).2, (d 6 (by norm_num)).1, (d 6 (by norm_num)).2,
    (d 7 (by norm_num)).1, (d 7 (by norm_num)).2]
  have e0 : 8 * k / 8 = k := by omega
  have e1 : 8 * k % 8 = 0 := by omega
  rw [e0, e1]
  norm_num
  omega

/-- The bits of `n + 1` whole bytes: the first byte, then the bits of the
other `n`. -/
theorem stream_bits_bytes_succ (data : Buffer) (k n : Nat) :
    stream_bits data (8 * k) (8 + 8 * n) =
      (data.getD k 0).val * 2 ^ (8 * n) + stream_bits data (8 * (k + 1)) (8 * n) := by
  rw [stream_bits_add, stream_bits_byte, Nat.mul_add, Nat.mul_one]

/-- The 64 bits that start at a byte boundary are the eight bytes there read as
a big-endian word. -/
theorem stream_bits_word (data : Buffer) (k : Nat) :
    stream_bits data (8 * k) 64 =
      (data.getD k 0).val * 2 ^ 56 + (data.getD (k + 1) 0).val * 2 ^ 48 +
      (data.getD (k + 2) 0).val * 2 ^ 40 + (data.getD (k + 3) 0).val * 2 ^ 32 +
      (data.getD (k + 4) 0).val * 2 ^ 24 + (data.getD (k + 5) 0).val * 2 ^ 16 +
      (data.getD (k + 6) 0).val * 2 ^ 8 + (data.getD (k + 7) 0).val := by
  have h7 : stream_bits data (8 * k) 64 =
      (data.getD k 0).val * 2 ^ 56 + stream_bits data (8 * (k + 1)) 56 :=
    stream_bits_bytes_succ data k 7
  have h6 : stream_bits data (8 * (k + 1)) 56 =
      (data.getD (k + 1) 0).val * 2 ^ 48 + stream_bits data (8 * (k + 2)) 48 :=
    stream_bits_bytes_succ data (k + 1) 6
  have h5 : stream_bits data (8 * (k + 2)) 48 =
      (data.getD (k + 2) 0).val * 2 ^ 40 + stream_bits data (8 * (k + 3)) 40 :=
    stream_bits_bytes_succ data (k + 2) 5
  have h4 : stream_bits data (8 * (k + 3)) 40 =
      (data.getD (k + 3) 0).val * 2 ^ 32 + stream_bits data (8 * (k + 4)) 32 :=
    stream_bits_bytes_succ data (k + 3) 4
  have h3 : stream_bits data (8 * (k + 4)) 32 =
      (data.getD (k + 4) 0).val * 2 ^ 24 + stream_bits data (8 * (k + 5)) 24 :=
    stream_bits_bytes_succ data (k + 4) 3
  have h2 : stream_bits data (8 * (k + 5)) 24 =
      (data.getD (k + 5) 0).val * 2 ^ 16 + stream_bits data (8 * (k + 6)) 16 :=
    stream_bits_bytes_succ data (k + 5) 2
  have h1 : stream_bits data (8 * (k + 6)) 16 =
      (data.getD (k + 6) 0).val * 2 ^ 8 + stream_bits data (8 * (k + 7)) 8 := by
    have := stream_bits_bytes_succ data (k + 6) 1
    rwa [show stream_bits data (8 * (k + 6 + 1)) (8 * 1) = stream_bits data (8 * (k + 7)) 8
      from rfl] at this
  rw [h7, h6, h5, h4, h3, h2, h1, stream_bits_byte data (k + 7)]
  simp only [Nat.add_assoc]

/-- A 64-bit load inside the buffer. -/
theorem load_u64_ok {data : Buffer} {k : Nat} (h : k + 8 ≤ data.length) :
    load_u64 data k = .ok ((data.getD k 0).val + (data.getD (k + 1) 0).val * 2 ^ 8 +
      (data.getD (k + 2) 0).val * 2 ^ 16 + (data.getD (k + 3) 0).val * 2 ^ 24 +
      (data.getD (k + 4) 0).val * 2 ^ 32 + (data.getD (k + 5) 0).val * 2 ^ 40 +
      (data.getD (k + 6) 0).val * 2 ^ 48 + (data.getD (k + 7) 0).val * 2 ^ 56) := by
  simp only [load_u64, load_u8_ok (show k < data.length by omega),
    load_u8_ok (show k + 1 < data.length by omega), load_u8_ok (show k + 2 < data.length by omega),
    load_u8_ok (show k + 3 < data.length by omega), load_u8_ok (show k + 4 < data.length by omega),
    load_u8_ok (show k + 5 < data.length by omega), load_u8_ok (show k + 6 < data.length by omega),
    load_u8_ok (show k + 7 < data.length by omega), bind, Except.bind, pure, Except.pure]

/-- The byte swap of a little-endian word is the big-endian word of the same
bytes. -/
theorem byte_swap_bytes (b0 b1 b2 b3 b4 b5 b6 b7 : Nat) (h0 : b0 < 256) (h1 : b1 < 256)
    (h2 : b2 < 256) (h3 : b3 < 256) (h4 : b4 < 256) (h5 : b5 < 256) (h6 : b6 < 256)
    (h7 : b7 < 256) :
    byte_swap (b0 + b1 * 2 ^ 8 + b2 * 2 ^ 16 + b3 * 2 ^ 24 + b4 * 2 ^ 32 + b5 * 2 ^ 40 +
      b6 * 2 ^ 48 + b7 * 2 ^ 56) =
    b0 * 2 ^ 56 + b1 * 2 ^ 48 + b2 * 2 ^ 40 + b3 * 2 ^ 32 + b4 * 2 ^ 24 + b5 * 2 ^ 16 +
      b6 * 2 ^ 8 + b7 := by
  unfold byte_swap
  norm_num
  omega

/-- A 64-bit load followed by the byte swap reads 64 bits of the stream. -/
theorem load_u64_byte_swap {data : Buffer} {k : Nat} (h : k + 8 ≤ data.length) :
    ∃ v, load_u64 data k = .ok v ∧ byte_swap v = stream_bits data (8 * k) 64 := by
  refine ⟨_, load_u64_ok h, ?_⟩
  rw [byte_swap_bytes _ _ _ _ _ _ _ _ (data.getD k 0).isLt (data.getD (k + 1) 0).isLt
    (data.getD (k + 2) 0).isLt (data.getD (k + 3) 0).isLt (data.getD (k + 4) 0).isLt
    (data.getD (k + 5) 0).isLt (data.getD (k + 6) 0).isLt (data.getD (k + 7) 0).isLt,
    stream_bits_word]

/-- The shift pair of the bit cursor: a word of 64 stream bits shifted left by
`s` within 64 bits and right by `64 - width` is the field of `width` bits that
starts `s` bits into the word, as long as the field ends inside the word. -/
theorem stream_bits_extract (data : Buffer) (k s width : Nat) (h : s + width ≤ 64) :
    (stream_bits data (8 * k) 64 * 2 ^ s) % 2 ^ 64 / 2 ^ (64 - width) =
      stream_bits data (8 * k + s) width := by
  obtain ⟨r, hr⟩ : ∃ r, 64 = s + (width + r) := ⟨64 - s - width, by omega⟩
  have hsplit : stream_bits data (8 * k) 64 =
      stream_bits data (8 * k) s * 2 ^ (width + r) +
        (stream_bits data (8 * k + s) width * 2 ^ r + stream_bits data (8 * k + s + width) r) := by
    conv_lhs => rw [hr]
    rw [stream_bits_add, stream_bits_add]
  have hC := stream_bits_lt data (8 * k + s + width) r
  have hB := stream_bits_lt data (8 * k + s) width
  generalize stream_bits data (8 * k) s = A at hsplit
  generalize stream_bits data (8 * k + s) width = B at hsplit hB ⊢
  generalize stream_bits data (8 * k + s + width) r = C at hsplit hC
  have hw : 64 - width = s + r := by omega
  rw [hsplit, hw]
  have e1 : (A * 2 ^ (width + r) + (B * 2 ^ r + C)) * 2 ^ s =
      2 ^ 64 * A + (B * 2 ^ r + C) * 2 ^ s := by
    conv_rhs => rw [hr]
    ring
  have hlt : (B * 2 ^ r + C) * 2 ^ s < 2 ^ 64 := by
    have : B * 2 ^ r + C < 2 ^ (width + r) := fields2_lt hB hC
    calc (B * 2 ^ r + C) * 2 ^ s < 2 ^ (width + r) * 2 ^ s :=
          Nat.mul_lt_mul_of_pos_right this (by positivity)
      _ = 2 ^ 64 := by rw [← pow_add]; congr 1; omega
  rw [e1, Nat.mul_add_mod, Nat.mod_eq_of_lt hlt]
  have e2 : (B * 2 ^ r + C) * 2 ^ s = 2 ^ (s + r) * B + C * 2 ^ s := by
    rw [pow_add]; ring
  have hC2 : C * 2 ^ s < 2 ^ (s + r) := by
    rw [pow_add, Nat.mul_comm (2 ^ s)]
    exact Nat.mul_lt_mul_of_pos_right hC (by positivity)
  rw [e2, Nat.mul_add_div (by positivity), Nat.div_eq_of_lt hC2, Nat.add_zero]

/-- One read step of the bit cursor: the 64-bit load at `bit_offset / 8`, the
byte swap, the left shift by `bit_offset % 8` and the right shift by
`64 - width` give the field of `width` bits at `bit_offset`, as long as the
field ends within the loaded word. -/
theorem cursor_read {data : Buffer} {bit_offset width : Nat}
    (hlen : bit_offset / 8 + 8 ≤ data.length) (hfit : bit_offset % 8 + width ≤ 64) :
    ∃ v, load_u64 data (bit_offset / 8) = .ok v ∧
      ((byte_swap v <<< (bit_offset % 8)) % 2 ^ 64) >>> (64 - width) =
        stream_bits data bit_offset width := by
  obtain ⟨v, hv, hsw⟩ := load_u64_byte_swap hlen
  refine ⟨v, hv, ?_⟩
  rw [hsw, Nat.shiftLeft_eq, Nat.shiftRight_eq_div_pow, stream_bits_extract _ _ _ _ hfit,
    Nat.div_add_mod]

/-- The shift pair of the bit cursor on a loaded word: see
`stream_bits_extract`. -/
theorem cursor_field {data : Buffer} {k v : Nat} (s width : Nat)
    (hsw : byte_swap v = stream_bits data (8 * k) 64) (hfit : s + width ≤ 64) :
    ((byte_swap v <<< s) % 2 ^ 64) / 2 ^ (64 - width) = stream_bits data (8 * k + s) width := by
  rw [hsw, Nat.shiftLeft_eq, stream_bits_extract _ _ _ _ hfit]

/-- A right shift of a 64-bit value by `64 - n` for `n` in `[1, 64]`. -/
theorem shr_u64_compl {value n : Nat} (h1 : 1 ≤ n) (h2 : n ≤ 64) :
    shr_u64 value (64 - (n : Int)) = .ok (value / 2 ^ (64 - n)) := by
  have := @shr_u64_ok value (64 - n) (by omega)
  rw [← this]; congr 1; omega

/-! ## The 72-bit triple -/

/-- The 24 bits that start at a byte boundary are the three bytes there, most
significant first. -/
theorem stream_bits_3bytes (data : Buffer) (k : Nat) :
    stream_bits data (8 * k) 24 =
      (data.getD k 0).val * 2 ^ 16 + (data.getD (k + 1) 0).val * 2 ^ 8 +
        (data.getD (k + 2) 0).val := by
  have h2 : stream_bits data (8 * k) 24 =
      (data.getD k 0).val * 2 ^ 16 + stream_bits data (8 * (k + 1)) 16 :=
    stream_bits_bytes_succ data k 2
  have h1 : stream_bits data (8 * (k + 1)) 16 =
      (data.getD (k + 1) 0).val * 2 ^ 8 + stream_bits data (8 * (k + 2)) 8 := by
    have := stream_bits_bytes_succ data (k + 1) 1
    rwa [show stream_bits data (8 * (k + 1 + 1)) (8 * 1) = stream_bits data (8 * (k + 2)) 8
      from rfl] at this
  rw [h2, h1, stream_bits_byte data (k + 2)]
  simp only [Nat.add_assoc]

/-- Three bytes composed with shifts and `|`, most significant first. -/
theorem three_bytes_or (d0 d1 d2 : Nat) (h1 : d1 < 256) (h2 : d2 < 256) :
    (d0 <<< 16) ||| (d1 <<< 8) ||| d2 = d0 * 2 ^ 16 + d1 * 2 ^ 8 + d2 :=
  @compose_or_eq 8 8 d1 d2 d0 h1 h2

/-- The codes of the non-streaming `unpack_vector3_72` are the three 24-bit
fields at the start of the bitstream. -/
theorem unpack_vector3_72_codes_run (vector_data : Buffer) (hlen : 9 ≤ vector_data.length) :
    unpack_vector3_72_codes vector_data =
      .ok (stream_bits vector_data 0 24, stream_bits vector_data 24 24,
        stream_bits vector_data 48 24) := by
  have e0 := stream_bits_3bytes vector_data 0
  have e1 := stream_bits_3bytes vector_data 3
  have e2 := stream_bits_3bytes vector_data 6
  simp only [Nat.mul_zero, Nat.zero_add, Nat.reduceMul, Nat.reduceAdd] at e0 e1 e2
  simp only [unpack_vector3_72_codes, load_u8_ok (show 0 < vector_data.length by omega),
    load_u8_ok (show 1 < vector_data.length by omega),
    load_u8_ok (show 2 < vector_data.length by omega),
    load_u8_ok (show 3 < vector_data.length by omega),
    load_u8_ok (show 4 < vector_data.length by omega),
    load_u8_ok (show 5 < vector_data.length by omega),
    load_u8_ok (show 6 < vector_data.length by omega),
    load_u8_ok (show 7 < vector_data.length by omega),
    load_u8_ok (show 8 < vector_data.length by omega), bind, Except.bind, pure, Except.pure]
  rw [three_bytes_or _ _ _ (vector_data.getD 1 0).isLt (vector_data.getD 2 0).isLt,
    three_bytes_or _ _ _ (vector_data.getD 4 0).isLt (vector_data.getD 5 0).isLt,
    three_bytes_or _ _ _ (vector_data.getD 7 0).isLt (vector_data.getD 8 0).isLt, e0, e1, e2]

/-- The codes of the streaming `unpack_vector3_72` are the three 24-bit fields
of the bitstream at the bit offset. -/
theorem unpack_vector3_72_bit_offset_codes_run (vector_data : Buffer) (b : Nat)
    (hlen : (b + 48) / 8 + 8 ≤ vector_data.length)
    (hcursor : b + 48 < 2 ^ 64) :
    unpack_vector3_72_bit_offset_codes vector_data b =
      .ok (stream_bits vector_data b 24, stream_bits vector_data (b + 24) 24,
        stream_bits vector_data (b + 48) 24) := by
  have hwrap : (b + 48) % 2 ^ 64 = b + 48 := Nat.mod_eq_of_lt hcursor
  obtain ⟨v1, hv1, hr1⟩ := @cursor_read vector_data b 48 (by omega) (by omega)
  obtain ⟨v2, hv2, hr2⟩ := @cursor_read vector_data (b + 48) 24 hlen (by omega)
  have hsplit : stream_bits vector_data b 48 =
      stream_bits vector_data b 24 * 2 ^ 24 + stream_bits vector_data (b + 24) 24 :=
    stream_bits_add vector_data b 24 24
  have hx := stream_bits_lt vector_data b 24
  have hy := stream_bits_lt vector_data (b + 24) 24
  simp only [unpack_vector3_72_bit_offset_codes, hv1, hv2, hwrap, bind, Except.bind, pure,
    Except.pure]
  rw [hr1, hr2, hsplit,
    show (16777215 : Nat) = 2 ^ 24 - 1 by norm_num, Nat.and_pow_two_sub_one_eq_mod,
    Nat.and_pow_two_sub_one_eq_mod, Nat.shiftRight_eq_div_pow]
  have e1 : (stream_bits vector_data b 24 * 2 ^ 24 + stream_bits vector_data (b + 24) 24) /
      2 ^ 24 % 2 ^ 24 = stream_bits vector_data b 24 := by omega
  have e2 : (stream_bits vector_data b 24 * 2 ^ 24 + stream_bits vector_data (b + 24) 24) %
      2 ^ 24 = stream_bits vector_data (b + 24) 24 := by omega
  rw [e1, e2]

/-- A buffer of at least nine bytes is nine bytes followed by the rest. -/
theorem buffer_nine (out : Buffer) (h : 9 ≤ out.length) :
    ∃ a0 a1 a2 a3 a4 a5 a6 a7 a8 rest,
      out = a0 :: a1 :: a2 :: a3 :: a4 :: a5 :: a6 :: a7 :: a8 :: rest := by
  rcases out with _ | ⟨a0, _ | ⟨a1, _ | ⟨a2, _ | ⟨a3, _ | ⟨a4, _ | ⟨a5, _ | ⟨a6, _ |
    ⟨a7, _ | ⟨a8, rest⟩⟩⟩⟩⟩⟩⟩⟩⟩ <;>
    first
    | exact ⟨_, _, _, _, _, _, _, _, _, _, rfl⟩
    | (simp at h)

/-- The three bytes of a 24-bit code, most significant first, as the packer
computes them. -/
theorem code_bytes {X : Nat} (hX : X < 2 ^ 24) :
    X >>> 16 < 2 ^ 8 ∧ (X >>> 8) &&& 0xFF < 2 ^ 8 ∧ X &&& 0xFF < 2 ^ 8 ∧
    (toByte (X >>> 16)).val = X / 2 ^ 16 ∧ (toByte ((X >>> 8) &&& 0xFF)).val = X / 2 ^ 8 % 256 ∧
    (toByte (X &&& 0xFF)).val = X % 256 := by
  have e : (0xFF : Nat) = 2 ^ 8 - 1 := by norm_num
  simp only [e, Nat.and_pow_two_sub_one_eq_mod, Nat.shiftRight_eq_div_pow, toByte_val]
  refine ⟨by omega, by omega, by omega, by omega, by omega, by omega⟩

/-- A check that passes hands its value to the rest of the call. -/
theorem Exec.ok_bind_run {α β : Type} (a : α) (f : α → Exec β) (out : Buffer) :
    ((MonadLiftT.monadLift (Except.ok a : Except Failure α) : Exec α) >>= f) out = f a out :=
  rfl

/-- A byte store inside the buffer, followed by the rest of the call. -/
theorem store_u8_bind_run {β : Type} (index value : Nat) (f : Unit → Exec β) (out : Buffer)
    (h : index < out.length) :
    (store_u8 index value >>= f) out = f () (out.set index (toByte value)) := by
  simp [Exec.bind_run, store_u8, h]

/-- The run of `pack_vector3_72` on codes below `2 ^ 24`: it succeeds and
replaces the first nine bytes of the output. -/
theorem pack_vector3_72_run {F : Type} (sp : ScalarPacking F) (vector : Vector4_32 F)
    (is_unsigned : Bool) (X Y Z : Nat) (out : Buffer)
    (hx : sp.pack_scalar_24 is_unsigned vector.x = .ok X)
    (hy : sp.pack_scalar_24 is_unsigned vector.y = .ok Y)
    (hz : sp.pack_scalar_24 is_unsigned vector.z = .ok Z)
    (hX : X < 2 ^ 24) (hY : Y < 2 ^ 24) (hZ : Z < 2 ^ 24) (hout : 9 ≤ out.length) :
    pack_vector3_72 sp vector is_unsigned out =
      (.ok (), [toByte (X >>> 16), toByte ((X >>> 8) &&& 0xFF), toByte (X &&& 0xFF),
        toByte (Y >>> 16), toByte ((Y >>> 8) &&& 0xFF), toByte (Y &&& 0xFF),
        toByte (Z >>> 16), toByte ((Z >>> 8) &&& 0xFF), toByte (Z &&& 0xFF)] ++ out.drop 9) := by
  obtain ⟨a0, a1, a2, a3, a4, a5, a6, a7, a8, rest, rfl⟩ := buffer_nine out hout
  obtain ⟨x0, x1, x2, -, -, -⟩ := code_bytes hX
  obtain ⟨y0, y1, y2, -, -, -⟩ := code_bytes hY
  obtain ⟨z0, z1, z2, -, -, -⟩ := code_bytes hZ
  unfold pack_vector3_72
  rw [vector_get_x, vector_get_y, vector_get_z, hx, Exec.ok_bind_run, hy, Exec.ok_bind_run, hz,
    Exec.ok_bind_run,
    safe_static_cast_ok x0, Exec.ok_bind_run, store_u8_bind_run _ _ _ _ (by simp),
    safe_static_cast_ok x1, Exec.ok_bind_run, store_u8_bind_run _ _ _ _ (by simp),
    safe_static_cast_ok x2, Exec.ok_bind_run, store_u8_bind_run _ _ _ _ (by simp),
    safe_static_cast_ok y0, Exec.ok_bind_run, store_u8_bind_run _ _ _ _ (by simp),
    safe_static_cast_ok y1, Exec.ok_bind_run, store_u8_bind_run _ _ _ _ (by simp),
    safe_static_cast_ok y2, Exec.ok_bind_run, store_u8_bind_run _ _ _ _ (by simp),
    safe_static_cast_ok z0, Exec.ok_bind_run, store_u8_bind_run _ _ _ _ (by simp),
    safe_static_cast_ok z1, Exec.ok_bind_run, store_u8_bind_run _ _ _ _ (by simp),
    safe_static_cast_ok z2, Exec.ok_bind_run]
  simp [store_u8]

/-! ## The 96-bit triple: lemmas -/

/-- The two halves of a 32-bit word, as the bytes of two little-endian units,
read back as units. -/
theorem halves_bytes {W : Nat} (hW : W < 2 ^ 32) :
    (toByte (W / 2 ^ 16)).val + (toByte (W / 2 ^ 16 / 2 ^ 8)).val * 2 ^ 8 = W / 2 ^ 16 ∧
    (toByte (W % 2 ^ 16)).val + (toByte (W % 2 ^ 16 / 2 ^ 8)).val * 2 ^ 8 = W % 2 ^ 16 := by
  simp only [toByte_val]
  constructor <;> omega

/-- The 32 bits that start at a byte boundary are the four bytes there, most
significant first. -/
theorem stream_bits_4bytes (data : Buffer) (k : Nat) :
    stream_bits data (8 * k) 32 =
      (data.getD k 0).val * 2 ^ 24 + (data.getD (k + 1) 0).val * 2 ^ 16 +
        (data.getD (k + 2) 0).val * 2 ^ 8 + (data.getD (k + 3) 0).val := by
  have h3 : stream_bits data (8 * k) 32 =
      (data.getD k 0).val * 2 ^ 24 + stream_bits data (8 * (k + 1)) 24 :=
    stream_bits_bytes_succ data k 3
  rw [h3, stream_bits_3bytes data (k + 1)]
  simp only [Nat.add_assoc]

/-- A 32-bit load inside the buffer. -/
theorem load_u32_ok {data : Buffer} {k : Nat} (h : k + 4 ≤ data.length) :
    load_u32 data k = .ok ((data.getD k 0).val + (data.getD (k + 1) 0).val * 2 ^ 8 +
      (data.getD (k + 2) 0).val * 2 ^ 16 + (data.getD (k + 3) 0).val * 2 ^ 24) := by
  simp only [load_u32, load_u8_ok (show k < data.length by omega),
    load_u8_ok (show k + 1 < data.length by omega), load_u8_ok (show k + 2 < data.length by omega),
    load_u8_ok (show k + 3 < data.length by omega), bind, Except.bind, pure, Except.pure]

/-- The native 32-bit word at a byte offset, byte-swapped, is the 32 bits of
the stream there. -/
theorem byte_swap_u32_load (data : Buffer) (k : Nat) :
    byte_swap_u32 ((data.getD k 0).val + (data.getD (k + 1) 0).val * 2 ^ 8 +
      (data.getD (k + 2) 0).val * 2 ^ 16 + (data.getD (k + 3) 0).val * 2 ^ 24) =
    stream_bits data (8 * k) 32 := by
  have h0 := (data.getD k 0).isLt
  have h1 := (data.getD (k + 1) 0).isLt
  have h2 := (data.getD (k + 2) 0).isLt
  have h3 := (data.getD (k + 3) 0).isLt
  rw [stream_bits_4bytes]
  unfold byte_swap_u32
  norm_num
  omega

/-- A native 32-bit load, byte-swapped, reads 32 bits of the stream. -/
theorem load_u32_byte_swap {data : Buffer} {k : Nat} (h : k + 4 ≤ data.length) :
    ∃ v, load_u32 data k = .ok v ∧ byte_swap_u32 v = stream_bits data (8 * k) 32 :=
  ⟨_, load_u32_ok h, byte_swap_u32_load data k⟩

/-- The values of the streaming `unpack_vector3_96` are the three 32-bit fields
of the bitstream at the bit offset. -/
theorem unpack_vector3_96_bit_offset_codes_run (vector_data : Buffer) (b : Nat)
    (hlen : (b + 64) / 8 + 8 ≤ vector_data.length) (hcursor : b + 64 < 2 ^ 64) :
    unpack_vector3_96_bit_offset_codes vector_data b =
      .ok (stream_bits vector_data b 32, stream_bits vector_data (b + 32) 32,
        stream_bits vector_data (b + 64) 32) := by
  have hwrap1 : (b + 32) % 2 ^ 64 = b + 32 := Nat.mod_eq_of_lt (by omega)
  have hwrap2 : (b + 32 + 32) % 2 ^ 64 = b + 64 := by
    rw [Nat.add_assoc]; exact Nat.mod_eq_of_lt hcursor
  obtain ⟨v1, hv1, hr1⟩ := @cursor_read vector_data b 32 (by omega) (by omega)
  obtain ⟨v2, hv2, hr2⟩ := @cursor_read vector_data (b + 32) 32 (by omega) (by omega)
  obtain ⟨v3, hv3, hr3⟩ := @cursor_read vector_data (b + 64) 32 hlen (by omega)
  simp only [unpack_vector3_96_bit_offset_codes, hv1, hwrap1, hv2, hwrap2, hv3, bind,
    Except.bind, pure, Except.pure, hr1, hr2, hr3]

/-! ## The 16-bit and 8-bit formats: running the packers -/

/-- A two-byte store inside the buffer, followed by the rest of the call. -/
theorem store_u16_bind_run {β : Type} (index value : Nat) (f : Unit → Exec β) (out : Buffer)
    (h : 2 * index + 1 < out.length) :
    (store_u16 index value >>= f) out =
      f () ((out.set (2 * index) (toByte value)).set (2 * index + 1) (toByte (value / 2 ^ 8))) := by
  simp [Exec.bind_run, store_u16, h]

/-- A two-byte store outside the buffer ends the call. -/
theorem store_u16_bind_fail {β : Type} (index value : Nat) (f : Unit → Exec β) (out : Buffer)
    (h : ¬ 2 * index + 1 < out.length) :
    (store_u16 index value >>= f) out = (.error .undefined, out) := by
  simp [Exec.bind_run, store_u16, h]

/-- A four-byte store inside the buffer, followed by the rest of the call. -/
theorem store_u32_bind_run {β : Type} (byte_offset value : Nat) (f : Unit → Exec β)
    (out : Buffer) (h : byte_offset + 3 < out.length) :
    (store_u32 byte_offset value >>= f) out =
      f () ((((out.set byte_offset (toByte value)).set (byte_offset + 1)
        (toByte (value / 2 ^ 8))).set (byte_offset + 2) (toByte (value / 2 ^ 16))).set
        (byte_offset + 3) (toByte (value / 2 ^ 24))) := by
  simp [Exec.bind_run, store_u32, h]

/-- A four-byte store outside the buffer ends the call. -/
theorem store_u32_bind_fail {β : Type} (byte_offset value : Nat) (f : Unit → Exec β)
    (out : Buffer) (h : ¬ byte_offset + 3 < out.length) :
    (store_u32 byte_offset value >>= f) out = (.error .undefined, out) := by
  simp [Exec.bind_run, store_u32, h]

/-- A buffer of at least three bytes is three bytes followed by the rest. -/
theorem buffer_three (out : Buffer) (h : 3 ≤ out.length) :
    ∃ a0 a1 a2 rest, out = a0 :: a1 :: a2 :: rest := by
  rcases out with _ | ⟨a0, _ | ⟨a1, _ | ⟨a2, rest⟩⟩⟩ <;>
    first
    | exact ⟨_, _, _, _, rfl⟩
    | (simp at h)

/-- A buffer of at least four bytes is four bytes followed by the rest. -/
theorem buffer_four (out : Buffer) (h : 4 ≤ out.length) :
    ∃ a0 a1 a2 a3 rest, out = a0 :: a1 :: a2 :: a3 :: rest := by
  rcases out with _ | ⟨a0, _ | ⟨a1, _ | ⟨a2, _ | ⟨a3, rest⟩⟩⟩⟩ <;>
    first
    | exact ⟨_, _, _, _, _, rfl⟩
    | (simp at h)

/-- A buffer of at least six bytes is six bytes followed by the rest. -/
theorem buffer_six (out : Buffer) (h : 6 ≤ out.length) :
    ∃ a0 a1 a2 a3 a4 a5 rest, out = a0 :: a1 :: a2 :: a3 :: a4 :: a5 :: rest := by
  rcases out with _ | ⟨a0, _ | ⟨a1, _ | ⟨a2, _ | ⟨a3, _ | ⟨a4, _ | ⟨a5, rest⟩⟩⟩⟩⟩⟩ <;>
    first
    | exact ⟨_, _, _, _, _, _, _, rfl⟩
    | (simp at h)

/-- A buffer of at least eight bytes is eight bytes followed by the rest. -/
theorem buffer_eight (out : Buffer) (h : 8 ≤ out.length) :
    ∃ a0 a1 a2 a3 a4 a5 a6 a7 rest,
      out = a0 :: a1 :: a2 :: a3 :: a4 :: a5 :: a6 :: a7 :: rest := by
  rcases out with _ | ⟨a0, _ | ⟨a1, _ | ⟨a2, _ | ⟨a3, _ | ⟨a4, _ | ⟨a5, _ | ⟨a6, _ |
    ⟨a7, rest⟩⟩⟩⟩⟩⟩⟩⟩ <;>
    first
    | exact ⟨_, _, _, _, _, _, _, _, _, rfl⟩
    | (simp at h)

/-- The run of `pack_vector4_64` on codes below `2 ^ 16`: it succeeds and
replaces the first eight bytes of the output by the four codes, each a
little-endian 16-bit unit. -/
theorem pack_vector4_64_run {F : Type} (sp : ScalarPacking F) (vector : Vector4_32 F)
    (is_unsigned : Bool) (X Y Z W : Nat) (out : Buffer)
    (hx : sp.pack_scalar is_unsigned vector.x 16 = .ok X)
    (hy : sp.pack_scalar is_unsigned vector.y 16 = .ok Y)
    (hz : sp.pack_scalar is_unsigned vector.z 16 = .ok Z)
    (hw : sp.pack_scalar is_unsigned vector.w 16 = .ok W)
    (hX : X < 2 ^ 16) (hY : Y < 2 ^ 16) (hZ : Z < 2 ^ 16) (hW : W < 2 ^ 16)
    (hout : 8 ≤ out.length) :
    pack_vector4_64 sp vector is_unsigned out =
      (.ok (), [toByte X, toByte (X / 2 ^ 8), toByte Y, toByte (Y / 2 ^ 8), toByte Z,
        toByte (Z / 2 ^ 8), toByte W, toByte (W / 2 ^ 8)] ++ out.drop 8) := by
  obtain ⟨a0, a1, a2, a3, a4, a5, a6, a7, rest, rfl⟩ := buffer_eight out hout
  unfold pack_vector4_64
  rw [vector_get_x, vector_get_y, vector_get_z, vector_get_w, hx, Exec.ok_bind_run, hy,
    Exec.ok_bind_run, hz, Exec.ok_bind_run, hw, Exec.ok_bind_run,
    safe_static_cast_ok hX, Exec.ok_bind_run, store_u16_bind_run _ _ _ _ (by simp),
    safe_static_cast_ok hY, Exec.ok_bind_run, store_u16_bind_run _ _ _ _ (by simp),
    safe_static_cast_ok hZ, Exec.ok_bind_run, store_u16_bind_run _ _ _ _ (by simp),
    safe_static_cast_ok hW, Exec.ok_bind_run]
  simp [store_u16]

/-- The run of `pack_vector3_48` on codes below `2 ^ 16`: it succeeds and
replaces the first six bytes of the output by the three codes, each a
little-endian 16-bit unit. -/
theorem pack_vector3_48_run {F : Type} (sp : ScalarPacking F) (vector : Vector4_32 F)
    (is_unsigned : Bool) (X Y Z : Nat) (out : Buffer)
    (hx : sp.pack_scalar is_unsigned vector.x 16 = .ok X)
    (hy : sp.pack_scalar is_unsigned vector.y 16 = .ok Y)
    (hz : sp.pack_scalar is_unsigned vector.z 16 = .ok Z)
    (hX : X < 2 ^ 16) (hY : Y < 2 ^ 16) (hZ : Z < 2 ^ 16) (hout : 6 ≤ out.length) :
    pack_vector3_48 sp vector is_unsigned out =
      (.ok (), [toByte X, toByte (X / 2 ^ 8), toByte Y, toByte (Y / 2 ^ 8), toByte Z,
        toByte (Z / 2 ^ 8)] ++ out.drop 6) := by
  obtain ⟨a0, a1, a2, a3, a4, a5, rest, rfl⟩ := buffer_six out hout
  unfold pack_vector3_48
  rw [vector_get_x, vector_get_y, vector_get_z, hx, Exec.ok_bind_run, hy, Exec.ok_bind_run, hz,
    Exec.ok_bind_run,
    safe_static_cast_ok hX, Exec.ok_bind_run, store_u16_bind_run _ _ _ _ (by simp),
    safe_static_cast_ok hY, Exec.ok_bind_run, store_u16_bind_run _ _ _ _ (by simp),
    safe_static_cast_ok hZ, Exec.ok_bind_run]
  simp [store_u16]

/-- The run of `pack_vector4_32` on codes below `2 ^ 8`: it succeeds and
replaces the first four bytes of the output by the four codes. -/
theorem pack_vector4_32_run {F : Type} (sp : ScalarPacking F) (vector : Vector4_32 F)
    (is_unsigned : Bool) (X Y Z W : Nat) (out : Buffer)
    (hx : sp.pack_scalar is_unsigned vector.x 8 = .ok X)
    (hy : sp.pack_scalar is_unsigned vector.y 8 = .ok Y)
    (hz : sp.pack_scalar is_unsigned vector.z 8 = .ok Z)
    (hw : sp.pack_scalar is_unsigned vector.w 8 = .ok W)
    (hX : X < 2 ^ 8) (hY : Y < 2 ^ 8) (hZ : Z < 2 ^ 8) (hW : W < 2 ^ 8)
    (hout : 4 ≤ out.length) :
    pack_vector4_32 sp vector is_unsigned out =
      (.ok (), [toByte X, toByte Y, toByte Z, toByte W] ++ out.drop 4) := by
  obtain ⟨a0, a1, a2, a3, rest, rfl⟩ := buffer_four out hout
  unfold pack_vector4_32
  rw [vector_get_x, vector_get_y, vector_get_z, vector_get_w, hx, Exec.ok_bind_run, hy,
    Exec.ok_bind_run, hz, Exec.ok_bind_run, hw, Exec.ok_bind_run,
    safe_static_cast_ok hX, Exec.ok_bind_run, store_u8_bind_run _ _ _ _ (by simp),
    safe_static_cast_ok hY, Exec.ok_bind_run, store_u8_bind_run _ _ _ _ (by simp),
    safe_static_cast_ok hZ, Exec.ok_bind_run, store_u8_bind_run _ _ _ _ (by simp),
    safe_static_cast_ok hW, Exec.ok_bind_run]
  simp [store_u8]

/-- The run of `pack_vector3_24` on codes below `2 ^ 8`: it succeeds and
replaces the first three bytes of the output by the three codes. -/
theorem pack_vector3_24_run {F : Type} (sp : ScalarPacking F) (vector : Vector4_32 F)
    (is_unsigned : Bool) (X Y Z : Nat) (out : Buffer)
    (hx : sp.pack_scalar is_unsigned vector.x 8 = .ok X)
    (hy : sp.pack_scalar is_unsigned vector.y 8 = .ok Y)
    (hz : sp.pack_scalar is_unsigned vector.z 8 = .ok Z)
    (hX : X < 2 ^ 8) (hY : Y < 2 ^ 8) (hZ : Z < 2 ^ 8) (hout : 3 ≤ out.length) :
    pack_vector3_24 sp vector is_unsigned out =
      (.ok (), [toByte X, toByte Y, toByte Z] ++ out.drop 3) := by
  obtain ⟨a0, a1, a2, rest, rfl⟩ := buffer_three out hout
  unfold pack_vector3_24
  rw [vector_get_x, vector_get_y, vector_get_z, hx, Exec.ok_bind_run, hy, Exec.ok_bind_run, hz,
    Exec.ok_bind_run,
    safe_static_cast_ok hX, Exec.ok_bind_run, store_u8_bind_run _ _ _ _ (by simp),
    safe_static_cast_ok hY, Exec.ok_bind_run, store_u8_bind_run _ _ _ _ (by simp),
    safe_static_cast_ok hZ, Exec.ok_bind_run]
  simp [store_u8]

/-! ## The 16-bit and 8-bit formats: reading the codes back -/

/-- The first byte of a buffer. -/
theorem load_u8_cons_zero (a : Byte) (data : Buffer) :
    load_u8 (a :: data) 0 = .ok a.val := by
  simp [load_u8]

/-- A byte past the first one. -/
theorem load_u8_cons_succ (a : Byte) (data : Buffer) (index : Nat) :
    load_u8 (a :: data) (index + 1) = load_u8 data index := by
  simp [load_u8]

/-- The first 16-bit unit of a buffer. -/
theorem load_u16_cons_zero (a b : Byte) (data : Buffer) :
    load_u16 (a :: b :: data) 0 = .ok (a.val + b.val * 2 ^ 8) := by
  simp only [load_u16, Nat.mul_zero, Nat.zero_add, load_u8_cons_zero]
  rw [show (1 : Nat) = 0 + 1 from rfl, load_u8_cons_succ, load_u8_cons_zero]
  rfl

/-- A 16-bit unit past the first one. -/
theorem load_u16_cons_succ (a b : Byte) (data : Buffer) (index : Nat) :
    load_u16 (a :: b :: data) (index + 1) = load_u16 data index := by
  simp only [load_u16, Nat.mul_add, Nat.mul_one]
  rw [show 2 * index + 2 = (2 * index + 1) + 1 from rfl, load_u8_cons_succ, load_u8_cons_succ,
    show 2 * index + 1 + 1 + 1 = (2 * index + 1 + 1) + 1 from rfl, load_u8_cons_succ,
    load_u8_cons_succ]

/-- The two bytes of a little-endian 16-bit unit give the unit back. -/
theorem unit_bytes {X : Nat} (hX : X < 2 ^ 16) :
    (toByte X).val + (toByte (X / 2 ^ 8)).val * 2 ^ 8 = X := by
  simp only [toByte_val]
  omega

/-- A byte below 256 gives itself back. -/
theorem byte_of_lt {X : Nat} (hX : X < 2 ^ 8) : (toByte X).val = X := by
  simp only [toByte_val]
  omega

/-- The codes `unpack_vector4_64` reads from four stored 16-bit units. -/
theorem unpack_vector4_64_codes_stored {X Y Z W : Nat} (rest : Buffer)
    (hX : X < 2 ^ 16) (hY : Y < 2 ^ 16) (hZ : Z < 2 ^ 16) (hW : W < 2 ^ 16) :
    unpack_vector4_64_codes ([toByte X, toByte (X / 2 ^ 8), toByte Y, toByte (Y / 2 ^ 8),
      toByte Z, toByte (Z / 2 ^ 8), toByte W, toByte (W / 2 ^ 8)] ++ rest) =
      .ok (X, Y, Z, W) := by
  simp only [unpack_vector4_64_codes, List.cons_append, List.nil_append]
  rw [show (3 : Nat) = 2 + 1 from rfl, show (2 : Nat) = 1 + 1 from rfl,
    show (1 : Nat) = 0 + 1 from rfl]
  simp only [load_u16_cons_succ, load_u16_cons_zero, unit_bytes hX, unit_bytes hY,
    unit_bytes hZ, unit_bytes hW, bind, Except.bind, pure, Except.pure]

/-- The codes `unpack_vector3_48` reads from three stored 16-bit units. -/
theorem unpack_vector3_48_codes_stored {X Y Z : Nat} (rest : Buffer)
    (hX : X < 2 ^ 16) (hY : Y < 2 ^ 16) (hZ : Z < 2 ^ 16) :
    unpack_vector3_48_codes ([toByte X, toByte (X / 2 ^ 8), toByte Y, toByte (Y / 2 ^ 8),
      toByte Z, toByte (Z / 2 ^ 8)] ++ rest) = .ok (X, Y, Z) := by
  simp only [unpack_vector3_48_codes, List.cons_append, List.nil_append]
  rw [show (2 : Nat) = 1 + 1 from rfl, show (1 : Nat) = 0 + 1 from rfl]
  simp only [load_u16_cons_succ, load_u16_cons_zero, unit_bytes hX, unit_bytes hY,
    unit_bytes hZ, bind, Except.bind, pure, Except.pure]

/-- The codes `unpack_vector4_32` reads from four stored bytes. -/
theorem unpack_vector4_32_codes_stored {X Y Z W : Nat} (rest : Buffer)
    (hX : X < 2 ^ 8) (hY : Y < 2 ^ 8) (hZ : Z < 2 ^ 8) (hW : W < 2 ^ 8) :
    unpack_vector4_32_codes ([toByte X, toByte Y, toByte Z, toByte W] ++ rest) =
      .ok (X, Y, Z, W) := by
  simp only [unpack_vector4_32_codes, List.cons_append, List.nil_append]
  rw [show (3 : Nat) = 2 + 1 from rfl, show (2 : Nat) = 1 + 1 from rfl,
    show (1 : Nat) = 0 + 1 from rfl]
  simp only [load_u8_cons_succ, load_u8_cons_zero, byte_of_lt hX, byte_of_lt hY,
    byte_of_lt hZ, byte_of_lt hW, bind, Except.bind, pure, Except.pure]

/-- The codes `unpack_vector3_24` reads from three stored bytes. -/
theorem unpack_vector3_24_codes_stored {X Y Z : Nat} (rest : Buffer)
    (hX : X < 2 ^ 8) (hY : Y < 2 ^ 8) (hZ : Z < 2 ^ 8) :
    unpack_vector3_24_codes ([toByte X, toByte Y, toByte Z] ++ rest) = .ok (X, Y, Z) := by
  simp only [unpack_vector3_24_codes, List.cons_append, List.nil_append]
  rw [show (2 : Nat) = 1 + 1 from rfl, show (1 : Nat) = 0 + 1 from rfl]
  simp only [load_u8_cons_succ, load_u8_cons_zero, byte_of_lt hX, byte_of_lt hY,
    byte_of_lt hZ, bind, Except.bind, pure, Except.pure]

/-! ## The scalar quantizer of the spec -/

/-- The largest code on `bits` bits, as a rational, is the natural number
`2 ^ bits - 1`. -/
theorem max_code_cast (bits : Nat) : ((2 ^ bits - 1 : Nat) : ℚ) = 2 ^ bits - 1 := by
  have h : (1 : Nat) ≤ 2 ^ bits := Nat.one_le_two_pow
  push_cast [h]
  ring

/-- The largest code on at least one bit is at least 1. -/
theorem one_le_max_code {bits : Nat} (h : 1 ≤ bits) : (1 : ℚ) ≤ 2 ^ bits - 1 := by
  have h2 : (2 : ℚ) ^ 1 ≤ 2 ^ bits := pow_le_pow_right₀ (by norm_num) h
  norm_num at h2
  linarith

/-- The value of `pack_scalar_unsigned` in its domain: a code of at most
`2 ^ num_bits - 1` within one half of `input * (2 ^ num_bits - 1)`. -/
theorem pack_scalar_unsigned_spec {input : ℚ} {num_bits : Nat} (hb1 : 1 ≤ num_bits)
    (hb32 : num_bits ≤ 32) (h0 : 0 ≤ input) (h1 : input ≤ 1) :
    ∃ code, pack_scalar_unsigned input num_bits = .ok code ∧ code < 2 ^ num_bits ∧
      (code : ℚ) ≤ input * (2 ^ num_bits - 1) + 1 / 2 ∧
      input * (2 ^ num_bits - 1) - 1 / 2 < (code : ℚ) := by
  have hm := one_le_max_code hb1
  have ht : (0 : ℚ) ≤ input * (2 ^ num_bits - 1) + 1 / 2 := by positivity
  have hfl : (0 : ℤ) ≤ ⌊input * (2 ^ num_bits - 1) + 1 / 2⌋ := Int.floor_nonneg.mpr ht
  have hcast : ((⌊input * (2 ^ num_bits - 1) + 1 / 2⌋.toNat : ℕ) : ℚ) =
      ((⌊input * (2 ^ num_bits - 1) + 1 / 2⌋ : ℤ) : ℚ) := by
    have := Int.toNat_of_nonneg hfl
    exact_mod_cast congrArg (fun z : ℤ => (z : ℚ)) this
  have hle := Int.floor_le (input * (2 ^ num_bits - 1) + 1 / 2)
  have hlt := Int.lt_floor_add_one (input * (2 ^ num_bits - 1) + 1 / 2)
  refine ⟨⌊input * (2 ^ num_bits - 1) + 1 / 2⌋.toNat, ?_, ?_, ?_, ?_⟩
  · simp only [pack_scalar_unsigned]
    rw [if_pos ⟨hb1, hb32, h0, h1⟩]
  · have hub : ((⌊input * (2 ^ num_bits - 1) + 1 / 2⌋.toNat : ℕ) : ℚ) < (2 ^ num_bits : ℕ) := by
      rw [hcast]
      push_cast
      nlinarith
    exact_mod_cast hub
  · rw [hcast]; exact hle
  · rw [hcast]; linarith

/-- The unsigned round trip of a scalar stays within one quantization step. -/
theorem unsigned_round_trip {input : ℚ} {num_bits : Nat} (hb1 : 1 ≤ num_bits)
    (hb32 : num_bits ≤ 32) (h0 : 0 ≤ input) (h1 : input ≤ 1) :
    ∃ code result, pack_scalar_unsigned input num_bits = .ok code ∧ code < 2 ^ num_bits ∧
      unpack_scalar_unsigned code num_bits = .ok result ∧
      |result - input| ≤ 1 / (2 ^ num_bits - 1) := by
  obtain ⟨code, hp, hc, hle, hlt⟩ := pack_scalar_unsigned_spec hb1 hb32 h0 h1
  have hm := one_le_max_code hb1
  have hmpos : (0 : ℚ) < 2 ^ num_bits - 1 := by linarith
  refine ⟨code, (code : ℚ) / (2 ^ num_bits - 1), hp, hc, ?_, ?_⟩
  · simp only [unpack_scalar_unsigned]
    rw [if_pos ⟨hb1, hb32⟩]
  · rw [abs_le]
    constructor
    · rw [le_sub_iff_add_le, le_div_iff₀ hmpos]
      have : (-(1 / (2 ^ num_bits - 1)) + input) * (2 ^ num_bits - 1) =
          input * (2 ^ num_bits - 1) - 1 := by
        field_simp
        ring
      rw [this]; linarith
    · rw [sub_le_iff_le_add, div_le_iff₀ hmpos]
      have : (1 / (2 ^ num_bits - 1) + input) * (2 ^ num_bits - 1) =
          input * (2 ^ num_bits - 1) + 1 := by
        field_simp
        ring
      rw [this]; linarith

/-- The signed round trip of a scalar stays within one quantization step. -/
theorem signed_round_trip {input : ℚ} {num_bits : Nat} (hb1 : 1 ≤ num_bits)
    (hb32 : num_bits ≤ 32) (h0 : -1 ≤ input) (h1 : input ≤ 1) :
    ∃ code result, pack_scalar_signed input num_bits = .ok code ∧ code < 2 ^ num_bits ∧
      unpack_scalar_signed code num_bits = .ok result ∧
      |result - input| ≤ 1 / (2 ^ num_bits - 1) := by
  obtain ⟨code, hp, hc, hle, hlt⟩ := @pack_scalar_unsigned_spec ((input + 1) / 2) num_bits hb1
    hb32 (by linarith) (by linarith)
  have hm := one_le_max_code hb1
  have hmpos : (0 : ℚ) < 2 ^ num_bits - 1 := by linarith
  refine ⟨code, (code : ℚ) / (2 ^ num_bits - 1) * 2 - 1, ?_, hc, ?_, ?_⟩
  · simp only [pack_scalar_signed]
    rw [if_pos ⟨h0, h1⟩, hp]
  · simp only [unpack_scalar_signed]
    rw [if_pos ⟨hb1, hb32⟩]
  · rw [abs_le]
    constructor
    · have h : (input * (2 ^ num_bits - 1) + (2 ^ num_bits - 1) - 1) / (2 ^ num_bits - 1) ≤
          (code : ℚ) / (2 ^ num_bits - 1) * 2 := by
        rw [div_mul_eq_mul_div, div_le_div_iff_of_pos_right hmpos]
        linarith
      have e : (input * (2 ^ num_bits - 1) + (2 ^ num_bits - 1) - 1) / (2 ^ num_bits - 1) =
          input + 1 - 1 / (2 ^ num_bits - 1) := by
        field_simp
        ring
      rw [e] at h
      linarith
    · have h : (code : ℚ) / (2 ^ num_bits - 1) * 2 ≤
          (input * (2 ^ num_bits - 1) + (2 ^ num_bits - 1) + 1) / (2 ^ num_bits - 1) := by
        rw [div_mul_eq_mul_div, div_le_div_iff_of_pos_right hmpos]
        linarith
      have e : (input * (2 ^ num_bits - 1) + (2 ^ num_bits - 1) + 1) / (2 ^ num_bits - 1) =
          input + 1 + 1 / (2 ^ num_bits - 1) := by
        field_simp
        ring
      rw [e] at h
      linarith

/-- The round trip of a scalar through the quantizer of the spec, for either
signedness: the code fits its width and the result is within one quantization
step of the input. -/
theorem scalar_round_trip (is_unsigned : Bool) {input : ℚ} {num_bits : Nat}
    (hb1 : 1 ≤ num_bits) (hb32 : num_bits ≤ 32) (hd : in_domain is_unsigned input) :
    ∃ code result, spec_quantizer.pack_scalar is_unsigned input num_bits = .ok code ∧
      code < 2 ^ num_bits ∧
      spec_quantizer.unpack_scalar is_unsigned code num_bits = .ok result ∧
      |result - input| ≤ 1 / (2 ^ num_bits - 1) := by
  cases is_unsigned with
  | true =>
    have h0 : (0 : ℚ) ≤ input := by simpa [in_domain] using hd.1
    simpa [ScalarPacking.pack_scalar, ScalarPacking.unpack_scalar, spec_quantizer] using
      unsigned_round_trip hb1 hb32 h0 hd.2
  | false =>
    have h0 : (-1 : ℚ) ≤ input := by simpa [in_domain] using hd.1
    simpa [ScalarPacking.pack_scalar, ScalarPacking.unpack_scalar, spec_quantizer] using
      signed_round_trip hb1 hb32 h0 hd.2

/-- The 24-bit specializations of the quantizer of the spec are the general
mapping at 24 bits. -/
theorem spec_quantizer_24 (is_unsigned : Bool) (input : ℚ) (code : Nat) :
    spec_quantizer.pack_scalar_24 is_unsigned input =
      spec_quantizer.pack_scalar is_unsigned input 24 ∧
    spec_quantizer.unpack_scalar_24 is_unsigned code =
      spec_quantizer.unpack_scalar is_unsigned code 24 := by
  cases is_unsigned <;> exact ⟨rfl, rfl⟩

/-- A way to compute `pack_scalar_unsigned`: the code is the integer with
`code ≤ input * (2 ^ num_bits - 1) + 1 / 2 < code + 1`. -/
theorem pack_scalar_unsigned_eval {input : ℚ} {num_bits code : Nat} (hb1 : 1 ≤ num_bits)
    (hb32 : num_bits ≤ 32) (h0 : 0 ≤ input) (h1 : input ≤ 1)
    (hlo : (code : ℚ) ≤ input * (2 ^ num_bits - 1) + 1 / 2)
    (hhi : input * (2 ^ num_bits - 1) + 1 / 2 < (code : ℚ) + 1) :
    pack_scalar_unsigned input num_bits = .ok code := by
  have hfl : ⌊input * (2 ^ num_bits - 1) + 1 / 2⌋ = (code : ℤ) := by
    rw [Int.floor_eq_iff]
    exact ⟨by exact_mod_cast hlo, by exact_mod_cast hhi⟩
  simp only [pack_scalar_unsigned]
  rw [if_pos ⟨hb1, hb32, h0, h1⟩, hfl, Int.toNat_ofNat]

/-- The boundary values of the unsigned mapping: 0 has the code 0 and 1 the
code `2 ^ num_bits - 1`. -/
theorem pack_scalar_unsigned_boundary {num_bits : Nat} (hb1 : 1 ≤ num_bits)
    (hb32 : num_bits ≤ 32) :
    pack_scalar_unsigned 0 num_bits = .ok 0 ∧
    pack_scalar_unsigned 1 num_bits = .ok (2 ^ num_bits - 1) := by
  constructor
  · exact pack_scalar_unsigned_eval hb1 hb32 le_rfl (by norm_num) (by norm_num) (by norm_num)
  · refine pack_scalar_unsigned_eval hb1 hb32 (by norm_num) le_rfl ?_ ?_
    · rw [max_code_cast]; linarith
    · rw [max_code_cast]; linarith

/-- The boundary values of the signed mapping: -1 has the code 0 and 1 the code
`2 ^ num_bits - 1`. -/
theorem pack_scalar_signed_boundary {num_bits : Nat} (hb1 : 1 ≤ num_bits)
    (hb32 : num_bits ≤ 32) :
    pack_scalar_signed (-1) num_bits = .ok 0 ∧
    pack_scalar_signed 1 num_bits = .ok (2 ^ num_bits - 1) := by
  have h := pack_scalar_unsigned_boundary hb1 hb32
  constructor
  · simp only [pack_scalar_signed]
    rw [if_pos ⟨le_rfl, by norm_num⟩, show ((-1 : ℚ) + 1) / 2 = 0 by norm_num, h.1]
  · simp only [pack_scalar_signed]
    rw [if_pos ⟨by norm_num, le_rfl⟩, show ((1 : ℚ) + 1) / 2 = 1 by norm_num, h.2]

/-- Every component of the normalized domain has a code that fits its width,
and the code of a boundary value is 0 or `2 ^ num_bits - 1`. -/
theorem scalar_boundary (is_unsigned : Bool) {value : ℚ} {num_bits : Nat}
    (hb1 : 1 ≤ num_bits) (hb32 : num_bits ≤ 32) (hd : in_domain is_unsigned value) :
    ∃ code, code < 2 ^ num_bits ∧ boundary_code is_unsigned value num_bits code := by
  obtain ⟨code, _, hp, hc, _, _⟩ := scalar_round_trip is_unsigned hb1 hb32 hd
  refine ⟨code, hc, hp, ?_, ?_⟩
  · intro hv
    subst hv
    cases is_unsigned with
    | true =>
      have h := (pack_scalar_unsigned_boundary hb1 hb32).1
      simp only [ScalarPacking.pack_scalar, spec_quantizer, domain_lower, if_true] at hp
      rw [h] at hp
      exact (Except.ok.inj hp).symm
    | false =>
      have h := (pack_scalar_signed_boundary hb1 hb32).1
      simp only [ScalarPacking.pack_scalar, spec_quantizer, domain_lower] at hp
      rw [if_neg (by simp), if_neg (by simp), h] at hp
      exact (Except.ok.inj hp).symm
  · intro hv
    subst hv
    cases is_unsigned with
    | true =>
      have h := (pack_scalar_unsigned_boundary hb1 hb32).2
      simp only [ScalarPacking.pack_scalar, spec_quantizer, if_true] at hp
      rw [h] at hp
      exact (Except.ok.inj hp).symm
    | false =>
      have h := (pack_scalar_signed_boundary hb1 hb32).2
      simp only [ScalarPacking.pack_scalar, spec_quantizer] at hp
      rw [if_neg (by simp), h] at hp
      exact (Except.ok.inj hp).symm

/-! ## The 32-bit and 72-bit triples: reading the codes back -/

/-- The codes `unpack_vector3_72` reads from nine stored bytes. -/
theorem unpack_vector3_72_codes_stored {X Y Z : Nat} (rest : Buffer)
    (hX : X < 2 ^ 24) (hY : Y < 2 ^ 24) (hZ : Z < 2 ^ 24) :
    unpack_vector3_72_codes ([toByte (X >>> 16), toByte ((X >>> 8) &&& 0xFF),
      toByte (X &&& 0xFF), toByte (Y >>> 16), toByte ((Y >>> 8) &&& 0xFF), toByte (Y &&& 0xFF),
      toByte (Z >>> 16), toByte ((Z >>> 8) &&& 0xFF), toByte (Z &&& 0xFF)] ++ rest) =
      .ok (X, Y, Z) := by
  obtain ⟨-, -, -, x0, x1, x2⟩ := code_bytes hX
  obtain ⟨-, -, -, y0, y1, y2⟩ := code_bytes hY
  obtain ⟨-, -, -, z0, z1, z2⟩ := code_bytes hZ
  rw [unpack_vector3_72_codes_run _ (by simp)]
  have e0 := stream_bits_3bytes ([toByte (X >>> 16), toByte ((X >>> 8) &&& 0xFF),
    toByte (X &&& 0xFF), toByte (Y >>> 16), toByte ((Y >>> 8) &&& 0xFF), toByte (Y &&& 0xFF),
    toByte (Z >>> 16), toByte ((Z >>> 8) &&& 0xFF), toByte (Z &&& 0xFF)] ++ rest) 0
  have e1 := stream_bits_3bytes ([toByte (X >>> 16), toByte ((X >>> 8) &&& 0xFF),
    toByte (X &&& 0xFF), toByte (Y >>> 16), toByte ((Y >>> 8) &&& 0xFF), toByte (Y &&& 0xFF),
    toByte (Z >>> 16), toByte ((Z >>> 8) &&& 0xFF), toByte (Z &&& 0xFF)] ++ rest) 3
  have e2 := stream_bits_3bytes ([toByte (X >>> 16), toByte ((X >>> 8) &&& 0xFF),
    toByte (X &&& 0xFF), toByte (Y >>> 16), toByte ((Y >>> 8) &&& 0xFF), toByte (Y &&& 0xFF),
    toByte (Z >>> 16), toByte ((Z >>> 8) &&& 0xFF), toByte (Z &&& 0xFF)] ++ rest) 6
  simp only [List.cons_append, List.nil_append, List.getD_cons_zero, List.getD_cons_succ,
    Nat.mul_zero, Nat.zero_add, Nat.reduceMul, Nat.reduceAdd, x0, x1, x2, y0, y1, y2, z0, z1,
    z2] at e0 e1 e2
  simp only [List.cons_append, List.nil_append]
  rw [e0, e1, e2]
  have ex : X / 2 ^ 16 * 2 ^ 16 + X / 2 ^ 8 % 256 * 2 ^ 8 + X % 256 = X := by omega
  have ey : Y / 2 ^ 16 * 2 ^ 16 + Y / 2 ^ 8 % 256 * 2 ^ 8 + Y % 256 = Y := by omega
  have ez : Z / 2 ^ 16 * 2 ^ 16 + Z / 2 ^ 8 % 256 * 2 ^ 8 + Z % 256 = Z := by omega
  rw [ex, ey, ez]

/-- The run of `pack_vector3_32` followed by the code extraction of
`unpack_vector3_32`: for widths of at least one bit each that sum to 32 and
codes in range, the packer succeeds and the codes read back are the packed
ones. -/
theorem pack_vector3_32_codes_back {F : Type} (sp : ScalarPacking F)
    (vector : Vector4_32 F) (is_unsigned : Bool) (XBits YBits ZBits X Y Z : Nat)
    (out : Buffer)
    (hXBits : 1 ≤ XBits) (hYBits : 1 ≤ YBits) (hZBits : 1 ≤ ZBits)
    (hsum : XBits + YBits + ZBits = 32)
    (hx : sp.pack_scalar is_unsigned vector.x XBits = .ok X)
    (hy : sp.pack_scalar is_unsigned vector.y YBits = .ok Y)
    (hz : sp.pack_scalar is_unsigned vector.z ZBits = .ok Z)
    (hX : X < 2 ^ XBits) (hY : Y < 2 ^ YBits) (hZ : Z < 2 ^ ZBits)
    (hout : 4 ≤ out.length) :
    (pack_vector3_32 sp vector XBits YBits ZBits is_unsigned out).1 = .ok () ∧
    unpack_vector3_32_codes XBits YBits ZBits
      (pack_vector3_32 sp vector XBits YBits ZBits is_unsigned out).2 = .ok (X, Y, Z) := by
  have hW : X * 2 ^ (YBits + ZBits) + Y * 2 ^ ZBits + Z < 2 ^ 32 := by
    rw [← hsum]; exact fields_lt hX hY hZ
  have hb := halves_bytes hW
  have hl := load_u16_stored out
    (toByte ((X * 2 ^ (YBits + ZBits) + Y * 2 ^ ZBits + Z) / 2 ^ 16))
    (toByte ((X * 2 ^ (YBits + ZBits) + Y * 2 ^ ZBits + Z) / 2 ^ 16 / 2 ^ 8))
    (toByte ((X * 2 ^ (YBits + ZBits) + Y * 2 ^ ZBits + Z) % 2 ^ 16))
    (toByte ((X * 2 ^ (YBits + ZBits) + Y * 2 ^ ZBits + Z) % 2 ^ 16 / 2 ^ 8)) hout
  rw [hb.1, hb.2] at hl
  rw [pack_vector3_32_run sp vector is_unsigned XBits YBits ZBits X Y Z out hsum hx hy hz hX hY
    hZ hout]
  refine ⟨rfl, ?_⟩
  rw [unpack_vector3_32_codes_of_units XBits YBits ZBits _ _ _ hXBits hYBits hZBits hsum hl.1
    hl.2 (by omega) (Nat.mod_lt _ (by norm_num))]
  have hjoin : (X * 2 ^ (YBits + ZBits) + Y * 2 ^ ZBits + Z) / 2 ^ 16 * 2 ^ 16 +
      (X * 2 ^ (YBits + ZBits) + Y * 2 ^ ZBits + Z) % 2 ^ 16 =
      X * 2 ^ (YBits + ZBits) + Y * 2 ^ ZBits + Z := Nat.div_add_mod' _ _
  rw [hjoin, compose_div X hY hZ, compose_mid X hY hZ, compose_low X hZ]

/-! ## Round trip and boundary values of the quantized formats, with the quantizer of
the spec -/

/-- Round trip of the 64-bit format: each component comes back within one
16-bit quantization step. -/
theorem vector4_64_round_trip (vector : Vector4_32 ℚ) (is_unsigned : Bool) (out : Buffer)
    (hdx : in_domain is_unsigned vector.x) (hdy : in_domain is_unsigned vector.y)
    (hdz : in_domain is_unsigned vector.z) (hdw : in_domain is_unsigned vector.w)
    (hout : 8 ≤ out.length) :
    ∃ result, (pack_vector4_64 spec_quantizer vector is_unsigned out).1 = .ok () ∧
      unpack_vector4_64 spec_quantizer (pack_vector4_64 spec_quantizer vector is_unsigned out).2 is_unsigned = .ok result ∧
      |result.x - vector.x| ≤ 1 / (2 ^ 16 - 1) ∧
      |result.y - vector.y| ≤ 1 / (2 ^ 16 - 1) ∧
      |result.z - vector.z| ≤ 1 / (2 ^ 16 - 1) ∧
      |result.w - vector.w| ≤ 1 / (2 ^ 16 - 1) := by
  obtain ⟨cx, x, px, hcx, ux, ex⟩ :=
    @scalar_round_trip is_unsigned _ 16 (by norm_num) (by norm_num) hdx
  obtain ⟨cy, y, py, hcy, uy, ey⟩ :=
    @scalar_round_trip is_unsigned _ 16 (by norm_num) (by norm_num) hdy
  obtain ⟨cz, z, pz, hcz, uz, ez⟩ :=
    @scalar_round_trip is_unsigned _ 16 (by norm_num) (by norm_num) hdz
  obtain ⟨cw, w, pw, hcw, uw, ew⟩ :=
    @scalar_round_trip is_unsigned _ 16 (by norm_num) (by norm_num) hdw
  refine ⟨⟨x, y, z, w⟩, ?_, ?_, ex, ey, ez, ew⟩
  · rw [pack_vector4_64_run _ _ _ _ _ _ _ _ px py pz pw hcx hcy hcz hcw hout]
  · rw [pack_vector4_64_run _ _ _ _ _ _ _ _ px py pz pw hcx hcy hcz hcw hout]
    simp only [unpack_vector4_64, unpack_vector4_64_codes_stored _ hcx hcy hcz hcw, ux, uy, uz, uw, bind,
      Except.bind, pure, Except.pure, vector_set4]

/-- Boundary values of the 64-bit format: each field holds the code of its own
component. -/
theorem vector4_64_boundary (vector : Vector4_32 ℚ) (is_unsigned : Bool) (out : Buffer)
    (hdx : in_domain is_unsigned vector.x) (hdy : in_domain is_unsigned vector.y)
    (hdz : in_domain is_unsigned vector.z) (hdw : in_domain is_unsigned vector.w)
    (hout : 8 ≤ out.length) :
    ∃ cx cy cz cw, (pack_vector4_64 spec_quantizer vector is_unsigned out).1 = .ok () ∧
      unpack_vector4_64_codes (pack_vector4_64 spec_quantizer vector is_unsigned out).2 = .ok (cx, cy, cz, cw) ∧
      boundary_code is_unsigned vector.x 16 cx ∧
      boundary_code is_unsigned vector.y 16 cy ∧
      boundary_code is_unsigned vector.z 16 cz ∧
      boundary_code is_unsigned vector.w 16 cw := by
  obtain ⟨cx, hcx, bx⟩ := @scalar_boundary is_unsigned _ 16 (by norm_num) (by norm_num) hdx
  obtain ⟨cy, hcy, bY⟩ := @scalar_boundary is_unsigned _ 16 (by norm_num) (by norm_num) hdy
  obtain ⟨cz, hcz, bz⟩ := @scalar_boundary is_unsigned _ 16 (by norm_num) (by norm_num) hdz
  obtain ⟨cw, hcw, bw⟩ := @scalar_boundary is_unsigned _ 16 (by norm_num) (by norm_num) hdw
  refine ⟨cx, cy, cz, cw, ?_, ?_, bx, bY, bz, bw⟩
  · rw [pack_vector4_64_run _ _ _ _ _ _ _ _ bx.1 bY.1 bz.1 bw.1 hcx hcy hcz hcw hout]
  · rw [pack_vector4_64_run _ _ _ _ _ _ _ _ bx.1 bY.1 bz.1 bw.1 hcx hcy hcz hcw hout]
    exact unpack_vector4_64_codes_stored _ hcx hcy hcz hcw

/-- Round trip of the 48-bit format: each component comes back within one
16-bit quantization step. -/
theorem vector3_48_round_trip (vector : Vector4_32 ℚ) (is_unsigned : Bool) (out : Buffer)
    (hdx : in_domain is_unsigned vector.x) (hdy : in_domain is_unsigned vector.y)
    (hdz : in_domain is_unsigned vector.z) (hout : 6 ≤ out.length) :
    ∃ x y z, (pack_vector3_48 spec_quantizer vector is_unsigned out).1 = .ok () ∧
      unpack_vector3_48 spec_quantizer (pack_vector3_48 spec_quantizer vector is_unsigned out).2 is_unsigned = .ok (x, y, z) ∧
      |x - vector.x| ≤ 1 / (2 ^ 16 - 1) ∧ |y - vector.y| ≤ 1 / (2 ^ 16 - 1) ∧
      |z - vector.z| ≤ 1 / (2 ^ 16 - 1) := by
  obtain ⟨cx, x, px, hcx, ux, ex⟩ :=
    @scalar_round_trip is_unsigned _ 16 (by norm_num) (by norm_num) hdx
  obtain ⟨cy, y, py, hcy, uy, ey⟩ :=
    @scalar_round_trip is_unsigned _ 16 (by norm_num) (by norm_num) hdy
  obtain ⟨cz, z, pz, hcz, uz, ez⟩ :=
    @scalar_round_trip is_unsigned _ 16 (by norm_num) (by norm_num) hdz
  refine ⟨x, y, z, ?_, ?_, ex, ey, ez⟩
  · rw [pack_vector3_48_run _ _ _ _ _ _ _ px py pz hcx hcy hcz hout]
  · rw [pack_vector3_48_run _ _ _ _ _ _ _ px py pz hcx hcy hcz hout]
    simp only [unpack_vector3_48, unpack_vector3_48_codes_stored _ hcx hcy hcz, ux, uy, uz, bind,
      Except.bind, pure, Except.pure, vector_set]

/-- Boundary values of the 48-bit format: each field holds the code of its own
component. -/
theorem vector3_48_boundary (vector : Vector4_32 ℚ) (is_unsigned : Bool) (out : Buffer)
    (hdx : in_domain is_unsigned vector.x) (hdy : in_domain is_unsigned vector.y)
    (hdz : in_domain is_unsigned vector.z) (hout : 6 ≤ out.length) :
    ∃ cx cy cz, (pack_vector3_48 spec_quantizer vector is_unsigned out).1 = .ok () ∧
      unpack_vector3_48_codes (pack_vector3_48 spec_quantizer vector is_unsigned out).2 = .ok (cx, cy, cz) ∧
      boundary_code is_unsigned vector.x 16 cx ∧
      boundary_code is_unsigned vector.y 16 cy ∧
      boundary_code is_unsigned vector.z 16 cz := by
  obtain ⟨cx, hcx, bx⟩ := @scalar_boundary is_unsigned _ 16 (by norm_num) (by norm_num) hdx
  obtain ⟨cy, hcy, bY⟩ := @scalar_boundary is_unsigned _ 16 (by norm_num) (by norm_num) hdy
  obtain ⟨cz, hcz, bz⟩ := @scalar_boundary is_unsigned _ 16 (by norm_num) (by norm_num) hdz
  refine ⟨cx, cy, cz, ?_, ?_, bx, bY, bz⟩
  · rw [pack_vector3_48_run _ _ _ _ _ _ _ bx.1 bY.1 bz.1 hcx hcy hcz hout]
  · rw [pack_vector3_48_run _ _ _ _ _ _ _ bx.1 bY.1 bz.1 hcx hcy hcz hout]
    exact unpack_vector3_48_codes_stored _ hcx hcy hcz

/-- Round trip of the 32-bit four-component format: each component comes back within one
8-bit quantization step. -/
theorem vector4_32_round_trip (vector : Vector4_32 ℚ) (is_unsigned : Bool) (out : Buffer)
    (hdx : in_domain is_unsigned vector.x) (hdy : in_domain is_unsigned vector.y)
    (hdz : in_domain is_unsigned vector.z) (hdw : in_domain is_unsigned vector.w)
    (hout : 4 ≤ out.length) :
    ∃ result, (pack_vector4_32 spec_quantizer vector is_unsigned out).1 = .ok () ∧
      unpack_vector4_32 spec_quantizer (pack_vector4_32 spec_quantizer vector is_unsigned out).2 is_unsigned = .ok result ∧
      |result.x - vector.x| ≤ 1 / (2 ^ 8 - 1) ∧
      |result.y - vector.y| ≤ 1 / (2 ^ 8 - 1) ∧
      |result.z - vector.z| ≤ 1 / (2 ^ 8 - 1) ∧
      |result.w - vector.w| ≤ 1 / (2 ^ 8 - 1) := by
  obtain ⟨cx, x, px, hcx, ux, ex⟩ :=
    @scalar_round_trip is_unsigned _ 8 (by norm_num) (by norm_num) hdx
  obtain ⟨cy, y, py, hcy, uy, ey⟩ :=
    @scalar_round_trip is_unsigned _ 8 (by norm_num) (by norm_num) hdy
  obtain ⟨cz, z, pz, hcz, uz, ez⟩ :=
    @scalar_round_trip is_unsigned _ 8 (by norm_num) (by norm_num) hdz
  obtain ⟨cw, w, pw, hcw, uw, ew⟩ :=
    @scalar_round_trip is_unsigned _ 8 (by norm_num) (by norm_num) hdw
  refine ⟨⟨x, y, z, w⟩, ?_, ?_, ex, ey, ez, ew⟩
  · rw [pack_vector4_32_run _ _ _ _ _ _ _ _ px py pz pw hcx hcy hcz hcw hout]
  · rw [pack_vector4_32_run _ _ _ _ _ _ _ _ px py pz pw hcx hcy hcz hcw hout]
    simp only [unpack_vector4_32, unpack_vector4_32_codes_stored _ hcx hcy hcz hcw, ux, uy, uz, uw, bind,
      Except.bind, pure, Except.pure, vector_set4]

/-- Boundary values of the 32-bit four-component format: each field holds the code of its own
component. -/
theorem vector4_32_boundary (vector : Vector4_32 ℚ) (is_unsigned : Bool) (out : Buffer)
    (hdx : in_domain is_unsigned vector.x) (hdy : in_domain is_unsigned vector.y)
    (hdz : in_domain is_unsigned vector.z) (hdw : in_domain is_unsigned vector.w)
    (hout : 4 ≤ out.length) :
    ∃ cx cy cz cw, (pack_vector4_32 spec_quantizer vector is_unsigned out).1 = .ok () ∧
      unpack_vector4_32_codes (pack_vector4_32 spec_quantizer vector is_unsigned out).2 = .ok (cx, cy, cz, cw) ∧
      boundary_code is_unsigned vector.x 8 cx ∧
      boundary_code is_unsigned vector.y 8 cy ∧
      boundary_code is_unsigned vector.z 8 cz ∧
      boundary_code is_unsigned vector.w 8 cw := by
  obtain ⟨cx, hcx, bx⟩ := @scalar_boundary is_unsigned _ 8 (by norm_num) (by norm_num) hdx
  obtain ⟨cy, hcy, bY⟩ := @scalar_boundary is_unsigned _ 8 (by norm_num) (by norm_num) hdy
  obtain ⟨cz, hcz, bz⟩ := @scalar_boundary is_unsigned _ 8 (by norm_num) (by norm_num) hdz
  obtain ⟨cw, hcw, bw⟩ := @scalar_boundary is_unsigned _ 8 (by norm_num) (by norm_num) hdw
  refine ⟨cx, cy, cz, cw, ?_, ?_, bx, bY, bz, bw⟩
  · rw [pack_vector4_32_run _ _ _ _ _ _ _ _ bx.1 bY.1 bz.1 bw.1 hcx hcy hcz hcw hout]
  · rw [pack_vector4_32_run _ _ _ _ _ _ _ _ bx.1 bY.1 bz.1 bw.1 hcx hcy hcz hcw hout]
    exact unpack_vector4_32_codes_stored _ hcx hcy hcz hcw

/-- Round trip of the 24-bit format: each component comes back within one
8-bit quantization step. -/
theorem vector3_24_round_trip (vector : Vector4_32 ℚ) (is_unsigned : Bool) (out : Buffer)
    (hdx : in_domain is_unsigned vector.x) (hdy : in_domain is_unsigned vector.y)
    (hdz : in_domain is_unsigned vector.z) (hout : 3 ≤ out.length) :
    ∃ x y z, (pack_vector3_24 spec_quantizer vector is_unsigned out).1 = .ok () ∧
      unpack_vector3_24 spec_quantizer (pack_vector3_24 spec_quantizer vector is_unsigned out).2 is_unsigned = .ok (x, y, z) ∧
      |x - vector.x| ≤ 1 / (2 ^ 8 - 1) ∧ |y - vector.y| ≤ 1 / (2 ^ 8 - 1) ∧
      |z - vector.z| ≤ 1 / (2 ^ 8 - 1) := by
  obtain ⟨cx, x, px, hcx, ux, ex⟩ :=
    @scalar_round_trip is_unsigned _ 8 (by norm_num) (by norm_num) hdx
  obtain ⟨cy, y, py, hcy, uy, ey⟩ :=
    @scalar_round_trip is_unsigned _ 8 (by norm_num) (by norm_num) hdy
  obtain ⟨cz, z, pz, hcz, uz, ez⟩ :=
    @scalar_round_trip is_unsigned _ 8 (by norm_num) (by norm_num) hdz
  refine ⟨x, y, z, ?_, ?_, ex, ey, ez⟩
  · rw [pack_vector3_24_run _ _ _ _ _ _ _ px py pz hcx hcy hcz hout]
  · rw [pack_vector3_24_run _ _ _ _ _ _ _ px py pz hcx hcy hcz hout]
    simp only [unpack_vector3_24, unpack_vector3_24_codes_stored _ hcx hcy hcz, ux, uy, uz, bind,
      Except.bind, pure, Except.pure, vector_set]

/-- Boundary values of the 24-bit format: each field holds the code of its own
component. -/
theorem vector3_24_boundary (vector : Vector4_32 ℚ) (is_unsigned : Bool) (out : Buffer)
    (hdx : in_domain is_unsigned vector.x) (hdy : in_domain is_unsigned vector.y)
    (hdz : in_domain is_unsigned vector.z) (hout : 3 ≤ out.length) :
    ∃ cx cy cz, (pack_vector3_24 spec_quantizer vector is_unsigned out).1 = .ok () ∧
      unpack_vector3_24_codes (pack_vector3_24 spec_quantizer vector is_unsigned out).2 = .ok (cx, cy, cz) ∧
      boundary_code is_unsigned vector.x 8 cx ∧
      boundary_code is_unsigned vector.y 8 cy ∧
      boundary_code is_unsigned vector.z 8 cz := by
  obtain ⟨cx, hcx, bx⟩ := @scalar_boundary is_unsigned _ 8 (by norm_num) (by norm_num) hdx
  obtain ⟨cy, hcy, bY⟩ := @scalar_boundary is_unsigned _ 8 (by norm_num) (by norm_num) hdy
  obtain ⟨cz, hcz, bz⟩ := @scalar_boundary is_unsigned _ 8 (by norm_num) (by norm_num) hdz
  refine ⟨cx, cy, cz, ?_, ?_, bx, bY, bz⟩
  · rw [pack_vector3_24_run _ _ _ _ _ _ _ bx.1 bY.1 bz.1 hcx hcy hcz hout]
  · rw [pack_vector3_24_run _ _ _ _ _ _ _ bx.1 bY.1 bz.1 hcx hcy hcz hout]
    exact unpack_vector3_24_codes_stored _ hcx hcy hcz

/-- Round trip of the 72-bit format: each component comes back within one
24-bit quantization step. -/
theorem vector3_72_round_trip (vector : Vector4_32 ℚ) (is_unsigned : Bool) (out : Buffer)
    (hdx : in_domain is_unsigned vector.x) (hdy : in_domain is_unsigned vector.y)
    (hdz : in_domain is_unsigned vector.z) (hout : 9 ≤ out.length) :
    ∃ x y z, (pack_vector3_72 spec_quantizer vector is_unsigned out).1 = .ok () ∧
      unpack_vector3_72 spec_quantizer is_unsigned
        (pack_vector3_72 spec_quantizer vector is_unsigned out).2 = .ok (x, y, z) ∧
      |x - vector.x| ≤ 1 / (2 ^ 24 - 1) ∧ |y - vector.y| ≤ 1 / (2 ^ 24 - 1) ∧
      |z - vector.z| ≤ 1 / (2 ^ 24 - 1) := by
  obtain ⟨cx, x, px, hcx, ux, ex⟩ :=
    @scalar_round_trip is_unsigned _ 24 (by norm_num) (by norm_num) hdx
  obtain ⟨cy, y, py, hcy, uy, ey⟩ :=
    @scalar_round_trip is_unsigned _ 24 (by norm_num) (by norm_num) hdy
  obtain ⟨cz, z, pz, hcz, uz, ez⟩ :=
    @scalar_round_trip is_unsigned _ 24 (by norm_num) (by norm_num) hdz
  rw [← (spec_quantizer_24 is_unsigned vector.x cx).1] at px
  rw [← (spec_quantizer_24 is_unsigned vector.y cy).1] at py
  rw [← (spec_quantizer_24 is_unsigned vector.z cz).1] at pz
  rw [← (spec_quantizer_24 is_unsigned vector.x cx).2] at ux
  rw [← (spec_quantizer_24 is_unsigned vector.y cy).2] at uy
  rw [← (spec_quantizer_24 is_unsigned vector.z cz).2] at uz
  refine ⟨x, y, z, ?_, ?_, ex, ey, ez⟩
  · rw [pack_vector3_72_run _ _ _ _ _ _ _ px py pz hcx hcy hcz hout]
  · rw [pack_vector3_72_run _ _ _ _ _ _ _ px py pz hcx hcy hcz hout]
    simp only [unpack_vector3_72, unpack_vector3_72_codes_stored _ hcx hcy hcz, ux, uy, uz, bind,
      Except.bind, pure, Except.pure, vector_set]

/-- Boundary values of the 72-bit format: each field holds the code of its own
component. -/
theorem vector3_72_boundary (vector : Vector4_32 ℚ) (is_unsigned : Bool) (out : Buffer)
    (hdx : in_domain is_unsigned vector.x) (hdy : in_domain is_unsigned vector.y)
    (hdz : in_domain is_unsigned vector.z) (hout : 9 ≤ out.length) :
    ∃ cx cy cz, (pack_vector3_72 spec_quantizer vector is_unsigned out).1 = .ok () ∧
      unpack_vector3_72_codes (pack_vector3_72 spec_quantizer vector is_unsigned out).2 =
        .ok (cx, cy, cz) ∧
      boundary_code is_unsigned vector.x 24 cx ∧
      boundary_code is_unsigned vector.y 24 cy ∧
      boundary_code is_unsigned vector.z 24 cz := by
  obtain ⟨cx, hcx, bx⟩ := @scalar_boundary is_unsigned _ 24 (by norm_num) (by norm_num) hdx
  obtain ⟨cy, hcy, bY⟩ := @scalar_boundary is_unsigned _ 24 (by norm_num) (by norm_num) hdy
  obtain ⟨cz, hcz, bz⟩ := @scalar_boundary is_unsigned _ 24 (by norm_num) (by norm_num) hdz
  have px := bx.1
  have py := bY.1
  have pz := bz.1
  rw [← (spec_quantizer_24 is_unsigned vector.x cx).1] at px
  rw [← (spec_quantizer_24 is_unsigned vector.y cy).1] at py
  rw [← (spec_quantizer_24 is_unsigned vector.z cz).1] at pz
  refine ⟨cx, cy, cz, ?_, ?_, bx, bY, bz⟩
  · rw [pack_vector3_72_run _ _ _ _ _ _ _ px py pz hcx hcy hcz hout]
  · rw [pack_vector3_72_run _ _ _ _ _ _ _ px py pz hcx hcy hcz hout]
    exact unpack_vector3_72_codes_stored _ hcx hcy hcz

/-- Round trip of the 32-bit triple, for widths of at least one bit each that
sum to 32: each component comes back within one quantization step of its own
width. -/
theorem vector3_32_round_trip (vector : Vector4_32 ℚ) (XBits YBits ZBits : Nat)
    (is_unsigned : Bool) (out : Buffer)
    (hXBits : 1 ≤ XBits) (hYBits : 1 ≤ YBits) (hZBits : 1 ≤ ZBits)
    (hsum : XBits + YBits + ZBits = 32)
    (hdx : in_domain is_unsigned vector.x) (hdy : in_domain is_unsigned vector.y)
    (hdz : in_domain is_unsigned vector.z) (hout : 4 ≤ out.length) :
    ∃ x y z,
      (pack_vector3_32 spec_quantizer vector XBits YBits ZBits is_unsigned out).1 = .ok () ∧
      unpack_vector3_32 spec_quantizer XBits YBits ZBits is_unsigned
        (pack_vector3_32 spec_quantizer vector XBits YBits ZBits is_unsigned out).2 =
        .ok (x, y, z) ∧
      |x - vector.x| ≤ 1 / (2 ^ XBits - 1) ∧ |y - vector.y| ≤ 1 / (2 ^ YBits - 1) ∧
      |z - vector.z| ≤ 1 / (2 ^ ZBits - 1) := by
  obtain ⟨cx, x, px, hcx, ux, ex⟩ :=
    @scalar_round_trip is_unsigned _ XBits hXBits (by omega) hdx
  obtain ⟨cy, y, py, hcy, uy, ey⟩ :=
    @scalar_round_trip is_unsigned _ YBits hYBits (by omega) hdy
  obtain ⟨cz, z, pz, hcz, uz, ez⟩ :=
    @scalar_round_trip is_unsigned _ ZBits hZBits (by omega) hdz
  obtain ⟨hp, hu⟩ := pack_vector3_32_codes_back spec_quantizer vector is_unsigned XBits YBits
    ZBits cx cy cz out hXBits hYBits hZBits hsum px py pz hcx hcy hcz hout
  refine ⟨x, y, z, hp, ?_, ex, ey, ez⟩
  simp only [unpack_vector3_32, hu, ux, uy, uz, bind, Except.bind, pure, Except.pure,
    vector_set]

/-- Boundary values of the 32-bit triple, for widths of at least one bit each
that sum to 32: each field holds the code of its own component. -/
theorem vector3_32_boundary (vector : Vector4_32 ℚ) (XBits YBits ZBits : Nat)
    (is_unsigned : Bool) (out : Buffer)
    (hXBits : 1 ≤ XBits) (hYBits : 1 ≤ YBits) (hZBits : 1 ≤ ZBits)
    (hsum : XBits + YBits + ZBits = 32)
    (hdx : in_domain is_unsigned vector.x) (hdy : in_domain is_unsigned vector.y)
    (hdz : in_domain is_unsigned vector.z) (hout : 4 ≤ out.length) :
    ∃ cx cy cz,
      (pack_vector3_32 spec_quantizer vector XBits YBits ZBits is_unsigned out).1 = .ok () ∧
      unpack_vector3_32_codes XBits YBits ZBits
        (pack_vector3_32 spec_quantizer vector XBits YBits ZBits is_unsigned out).2 =
        .ok (cx, cy, cz) ∧
      boundary_code is_unsigned vector.x XBits cx ∧
      boundary_code is_unsigned vector.y YBits cy ∧
      boundary_code is_unsigned vector.z ZBits cz := by
  obtain ⟨cx, hcx, bx⟩ := @scalar_boundary is_unsigned _ XBits hXBits (by omega) hdx
  obtain ⟨cy, hcy, bY⟩ := @scalar_boundary is_unsigned _ YBits hYBits (by omega) hdy
  obtain ⟨cz, hcz, bz⟩ := @scalar_boundary is_unsigned _ ZBits hZBits (by omega) hdz
  obtain ⟨hp, hu⟩ := pack_vector3_32_codes_back spec_quantizer vector is_unsigned XBits YBits
    ZBits cx cy cz out hXBits hYBits hZBits hsum bx.1 bY.1 bz.1 hcx hcy hcz hout
  exact ⟨cx, cy, cz, hp, hu, bx, bY, bz⟩

/-- The codes of the worked example of the spec: with the signed mapping on 8
bits, 0.5 has the code 191, -0.5 the code 64 and 0.25 the code 159. -/
theorem worked_example_codes :
    spec_quantizer.pack_scalar false (1 / 2) 8 = .ok 191 ∧
    spec_quantizer.pack_scalar false (-1 / 2) 8 = .ok 64 ∧
    spec_quantizer.pack_scalar false (1 / 4) 8 = .ok 159 := by
  refine ⟨?_, ?_, ?_⟩
  · simp only [ScalarPacking.pack_scalar, spec_quantizer, pack_scalar_signed]
    rw [if_neg (by simp), if_pos (by norm_num)]
    exact pack_scalar_unsigned_eval (by norm_num) (by norm_num) (by norm_num) (by norm_num)
      (by norm_num) (by norm_num)
  · simp only [ScalarPacking.pack_scalar, spec_quantizer, pack_scalar_signed]
    rw [if_neg (by simp), if_pos (by norm_num)]
    exact pack_scalar_unsigned_eval (by norm_num) (by norm_num) (by norm_num) (by norm_num)
      (by norm_num) (by norm_num)
  · simp only [ScalarPacking.pack_scalar, spec_quantizer, pack_scalar_signed]
    rw [if_neg (by simp), if_pos (by norm_num)]
    exact pack_scalar_unsigned_eval (by norm_num) (by norm_num) (by norm_num) (by norm_num)
      (by norm_num) (by norm_num)

/-- The bytes of the worked example of the spec: the signed 24-bit triple of
`(0.5, -0.5, 0.25)`. -/
theorem worked_example_bytes (w : ℚ) :
    pack_vector3_24 spec_quantizer ⟨1 / 2, -1 / 2, 1 / 4, w⟩ false [0, 0, 0] =
      (.ok (), [191, 64, 159]) := by
  obtain ⟨hx, hy, hz⟩ := worked_example_codes
  rw [pack_vector3_24_run spec_quantizer ⟨1 / 2, -1 / 2, 1 / 4, w⟩ false 191 64 159 [0, 0, 0]
    hx hy hz (by norm_num) (by norm_num) (by norm_num) (by simp)]
  rfl

/-- The worked example of the spec unpacked: the bytes 191, 64, 159 read as a
signed 24-bit triple. -/
theorem worked_example_unpacked :
    unpack_vector3_24 spec_quantizer [191, 64, 159] false =
      .ok (127 / 255, -127 / 255, 63 / 255) := by
  have hx : spec_quantizer.unpack_scalar false 191 8 = .ok (127 / 255) := by
    simp only [ScalarPacking.unpack_scalar, spec_quantizer, unpack_scalar_signed]
    rw [if_neg (by simp), if_pos (by norm_num)]
    norm_num
  have hy : spec_quantizer.unpack_scalar false 64 8 = .ok (-127 / 255) := by
    simp only [ScalarPacking.unpack_scalar, spec_quantizer, unpack_scalar_signed]
    rw [if_neg (by simp), if_pos (by norm_num)]
    norm_num
  have hz : spec_quantizer.unpack_scalar false 159 8 = .ok (63 / 255) := by
    simp only [ScalarPacking.unpack_scalar, spec_quantizer, unpack_scalar_signed]
    rw [if_neg (by simp), if_pos (by norm_num)]
    norm_num
  have hc : unpack_vector3_24_codes [191, 64, 159] = .ok (191, 64, 159) :=
    @unpack_vector3_24_codes_stored 191 64 159 [] (by norm_num) (by norm_num) (by norm_num)
  simp only [unpack_vector3_24, hc, hx, hy, hz, bind, Except.bind, pure, Except.pure,
    vector_set]

/-! ## The lossless formats: running the copies -/

/-- A buffer of at least twelve bytes is twelve bytes followed by the rest. -/
theorem buffer_twelve (out : Buffer) (h : 12 ≤ out.length) :
    ∃ a0 a1 a2 a3 a4 a5 a6 a7 a8 a9 a10 a11 rest,
      out = a0 :: a1 :: a2 :: a3 :: a4 :: a5 :: a6 :: a7 :: a8 :: a9 :: a10 :: a11 :: rest := by
  obtain ⟨a0, a1, a2, a3, a4, a5, a6, a7, r1, rfl⟩ := buffer_eight out (by omega)
  obtain ⟨a8, a9, a10, a11, rest, rfl⟩ := buffer_four r1 (by simp at h; omega)
  exact ⟨_, _, _, _, _, _, _, _, _, _, _, _, _, rfl⟩

/-- A buffer of at least sixteen bytes is sixteen bytes followed by the rest. -/
theorem buffer_sixteen (out : Buffer) (h : 16 ≤ out.length) :
    ∃ a0 a1 a2 a3 a4 a5 a6 a7 a8 a9 a10 a11 a12 a13 a14 a15 rest,
      out = a0 :: a1 :: a2 :: a3 :: a4 :: a5 :: a6 :: a7 :: a8 :: a9 :: a10 :: a11 :: a12 ::
        a13 :: a14 :: a15 :: rest := by
  obtain ⟨a0, a1, a2, a3, a4, a5, a6, a7, r1, rfl⟩ := buffer_eight out (by omega)
  obtain ⟨a8, a9, a10, a11, a12, a13, a14, a15, rest, rfl⟩ :=
    buffer_eight r1 (by simp at h; omega)
  exact ⟨_, _, _, _, _, _, _, _, _, _, _, _, _, _, _, _, _, rfl⟩

/-- The run of `vector_unaligned_write`: it replaces the first 16 bytes of the
output by the four patterns. -/
theorem vector_unaligned_write_run (input : Vector4_32 Nat) (out : Buffer)
    (hout : 16 ≤ out.length) :
    vector_unaligned_write input out =
      (.ok (), pattern_bytes input.x ++ pattern_bytes input.y ++ pattern_bytes input.z ++
        pattern_bytes input.w ++ out.drop 16) := by
  obtain ⟨a0, a1, a2, a3, a4, a5, a6, a7, a8, a9, a10, a11, a12, a13, a14, a15, rest, rfl⟩ :=
    buffer_sixteen out hout
  unfold vector_unaligned_write
  rw [store_u32_bind_run _ _ _ _ (by simp), store_u32_bind_run _ _ _ _ (by simp),
    store_u32_bind_run _ _ _ _ (by simp)]
  simp [store_u32, pattern_bytes]

/-- The run of `vector_unaligned_write3`: it replaces the first 12 bytes of the
output by the three patterns. -/
theorem vector_unaligned_write3_run (input : Vector4_32 Nat) (out : Buffer)
    (hout : 12 ≤ out.length) :
    vector_unaligned_write3 input out =
      (.ok (), pattern_bytes input.x ++ pattern_bytes input.y ++ pattern_bytes input.z ++
        out.drop 12) := by
  obtain ⟨a0, a1, a2, a3, a4, a5, a6, a7, a8, a9, a10, a11, rest, rfl⟩ :=
    buffer_twelve out hout
  unfold vector_unaligned_write3
  rw [store_u32_bind_run _ _ _ _ (by simp), store_u32_bind_run _ _ _ _ (by simp)]
  simp [store_u32, pattern_bytes]

/-- A 32-bit pattern read back from its four stored bytes. -/
theorem pattern_bytes_value {value : Nat} (h : value < 2 ^ 32) :
    (toByte value).val + (toByte (value / 2 ^ 8)).val * 2 ^ 8 +
      (toByte (value / 2 ^ 16)).val * 2 ^ 16 + (toByte (value / 2 ^ 24)).val * 2 ^ 24 =
      value := by
  simp only [toByte_val]
  omega

/-- The patterns `vector_unaligned_load` reads from four stored patterns. -/
theorem vector_unaligned_load_stored (x y z w : Nat) (rest : Buffer)
    (hx : x < 2 ^ 32) (hy : y < 2 ^ 32) (hz : z < 2 ^ 32) (hw : w < 2 ^ 32) :
    vector_unaligned_load (pattern_bytes x ++ pattern_bytes y ++ pattern_bytes z ++
      pattern_bytes w ++ rest) = .ok ⟨x, y, z, w⟩ := by
  simp only [vector_unaligned_load, pattern_bytes, List.cons_append, List.nil_append,
    List.append_assoc]
  rw [load_u32_ok (by simp), load_u32_ok (by simp), load_u32_ok (by simp),
    load_u32_ok (by simp)]
  simp only [List.getD_cons_zero, List.getD_cons_succ, Nat.zero_add, Nat.reduceAdd,
    pattern_bytes_value hx, pattern_bytes_value hy, pattern_bytes_value hz,
    pattern_bytes_value hw, bind, Except.bind, pure, Except.pure, vector_set4]

/-- The patterns `vector_unaligned_load3` reads from three stored patterns. -/
theorem vector_unaligned_load3_stored (x y z : Nat) (rest : Buffer)
    (hx : x < 2 ^ 32) (hy : y < 2 ^ 32) (hz : z < 2 ^ 32) :
    vector_unaligned_load3 (pattern_bytes x ++ pattern_bytes y ++ pattern_bytes z ++ rest) =
      .ok (x, y, z) := by
  simp only [vector_unaligned_load3, pattern_bytes, List.cons_append, List.nil_append,
    List.append_assoc]
  rw [load_u32_ok (by simp), load_u32_ok (by simp), load_u32_ok (by simp)]
  simp only [List.getD_cons_zero, List.getD_cons_succ, Nat.zero_add, Nat.reduceAdd,
    pattern_bytes_value hx, pattern_bytes_value hy, pattern_bytes_value hz, bind, Except.bind,
    pure, Except.pure, vector_set]

/-! ## The bytes a packer needs -/

/-- The run of `pack_vector3_32` up to its stores: for widths that sum to 32
and codes in range, what is left of the call is the two 16-bit stores. -/
theorem pack_vector3_32_stores {F : Type} (sp : ScalarPacking F) (vector : Vector4_32 F)
    (is_unsigned : Bool) (XBits YBits ZBits X Y Z : Nat) (out : Buffer)
    (hsum : XBits + YBits + ZBits = 32)
    (hx : sp.pack_scalar is_unsigned vector.x XBits = .ok X)
    (hy : sp.pack_scalar is_unsigned vector.y YBits = .ok Y)
    (hz : sp.pack_scalar is_unsigned vector.z ZBits = .ok Z)
    (hX : X < 2 ^ XBits) (hY : Y < 2 ^ YBits) (hZ : Z < 2 ^ ZBits) :
    pack_vector3_32 sp vector XBits YBits ZBits is_unsigned out =
      (store_u16 0 ((X * 2 ^ (YBits + ZBits) + Y * 2 ^ ZBits + Z) / 2 ^ 16) >>= fun _ =>
        store_u16 1 ((X * 2 ^ (YBits + ZBits) + Y * 2 ^ ZBits + Z) % 2 ^ 16)) out := by
  have hW : X * 2 ^ (YBits + ZBits) + Y * 2 ^ ZBits + Z < 2 ^ 32 := by
    rw [← hsum]; exact fields_lt hX hY hZ
  have hYZ : Y * 2 ^ ZBits + Z < 2 ^ (YBits + ZBits) := fields2_lt hY hZ
  have hle : (2 : Nat) ^ (YBits + ZBits) ≤ 2 ^ 32 := Nat.pow_le_pow_right (by norm_num) (by omega)
  have hxs : X * 2 ^ (YBits + ZBits) % 2 ^ 64 = X * 2 ^ (YBits + ZBits) :=
    Nat.mod_eq_of_lt (by omega)
  have hys : Y * 2 ^ ZBits % 2 ^ 64 = Y * 2 ^ ZBits := Nat.mod_eq_of_lt (by omega)
  have hor : X * 2 ^ (YBits + ZBits) ||| Y * 2 ^ ZBits ||| Z =
      X * 2 ^ (YBits + ZBits) + Y * 2 ^ ZBits + Z := by
    have := compose_or_eq X hY hZ
    rwa [Nat.shiftLeft_eq, Nat.shiftLeft_eq] at this
  have h1 : shl_u64 X ((YBits : Int) + (ZBits : Int)) = .ok (X * 2 ^ (YBits + ZBits)) := by
    have := @shl_u64_ok X (YBits + ZBits) (by omega)
    rw [hxs] at this; rw [← this]; push_cast; rfl
  have h2 : shl_u64 Y (ZBits : Int) = .ok (Y * 2 ^ ZBits) := by
    have := @shl_u64_ok Y ZBits (by omega)
    rwa [hys] at this
  have h3 : (X * 2 ^ (YBits + ZBits) + Y * 2 ^ ZBits + Z) / 2 ^ 16 < 2 ^ 16 := by omega
  have h4 : (X * 2 ^ (YBits + ZBits) + Y * 2 ^ ZBits + Z) % 2 ^ 16 < 2 ^ 16 :=
    Nat.mod_lt _ (by norm_num)
  have hand : (X * 2 ^ (YBits + ZBits) + Y * 2 ^ ZBits + Z) &&& 65535 =
      (X * 2 ^ (YBits + ZBits) + Y * 2 ^ ZBits + Z) % 2 ^ 16 :=
    Nat.and_pow_two_sub_one_eq_mod _ 16
  have he : ACL_ENSURE (XBits + YBits + ZBits == 32) = .ok () := by simp [ACL_ENSURE, hsum]
  unfold pack_vector3_32
  simp only [Exec.bind_run, Exec.monadLift_run, he, vector_get_x, vector_get_y,
    vector_get_z, hx, hy, hz, h1, h2, hor, safe_static_cast_ok hW, Nat.shiftRight_eq_div_pow,
    safe_static_cast_ok h3, hand, safe_static_cast_ok h4]

/-- On a buffer of fewer than four bytes `pack_vector3_32` runs out of the
buffer. -/
theorem pack_vector3_32_short {F : Type} (sp : ScalarPacking F) (vector : Vector4_32 F)
    (is_unsigned : Bool) (XBits YBits ZBits X Y Z : Nat) (out : Buffer)
    (hsum : XBits + YBits + ZBits = 32)
    (hx : sp.pack_scalar is_unsigned vector.x XBits = .ok X)
    (hy : sp.pack_scalar is_unsigned vector.y YBits = .ok Y)
    (hz : sp.pack_scalar is_unsigned vector.z ZBits = .ok Z)
    (hX : X < 2 ^ XBits) (hY : Y < 2 ^ YBits) (hZ : Z < 2 ^ ZBits)
    (hout : out.length < 4) :
    (pack_vector3_32 sp vector XBits YBits ZBits is_unsigned out).1 = .error .undefined := by
  rw [pack_vector3_32_stores sp vector is_unsigned XBits YBits ZBits X Y Z out hsum hx hy hz hX
    hY hZ]
  by_cases h0 : 2 * 0 + 1 < out.length
  · rw [store_u16_bind_run _ _ _ _ h0]
    simp only [store_u16, List.length_set]
    rw [if_neg (by omega)]
  · rw [store_u16_bind_fail _ _ _ _ h0]

/-- On a buffer of fewer than six bytes `pack_vector3_48` runs out of the
buffer. -/
theorem pack_vector3_48_short {F : Type} (sp : ScalarPacking F) (vector : Vector4_32 F)
    (is_unsigned : Bool) (X Y Z : Nat) (out : Buffer)
    (hx : sp.pack_scalar is_unsigned vector.x 16 = .ok X)
    (hy : sp.pack_scalar is_unsigned vector.y 16 = .ok Y)
    (hz : sp.pack_scalar is_unsigned vector.z 16 = .ok Z)
    (hX : X < 2 ^ 16) (hY : Y < 2 ^ 16) (hZ : Z < 2 ^ 16) (hout : out.length < 6) :
    (pack_vector3_48 sp vector is_unsigned out).1 = .error .undefined := by
  unfold pack_vector3_48
  rw [vector_get_x, vector_get_y, vector_get_z, hx, Exec.ok_bind_run, hy, Exec.ok_bind_run, hz,
    Exec.ok_bind_run, safe_static_cast_ok hX, Exec.ok_bind_run]
  by_cases h0 : 2 * 0 + 1 < out.length
  · rw [store_u16_bind_run _ _ _ _ h0, safe_static_cast_ok hY, Exec.ok_bind_run]
    by_cases h1 : 2 * 1 + 1 < out.length
    · rw [store_u16_bind_run _ _ _ _ (by simpa using h1), safe_static_cast_ok hZ,
        Exec.ok_bind_run]
      simp only [store_u16, List.length_set]
      rw [if_neg (by omega)]
    · rw [store_u16_bind_fail _ _ _ _ (by simpa using h1)]
  · rw [store_u16_bind_fail _ _ _ _ h0]

/-- On a buffer of fewer than twelve bytes `vector_unaligned_write3` runs out
of the buffer. -/
theorem vector_unaligned_write3_short (input : Vector4_32 Nat) (out : Buffer)
    (hout : out.length < 12) :
    (vector_unaligned_write3 input out).1 = .error .undefined := by
  unfold vector_unaligned_write3
  by_cases h0 : 0 + 3 < out.length
  · rw [store_u32_bind_run _ _ _ _ h0]
    by_cases h1 : 4 + 3 < out.length
    · rw [store_u32_bind_run _ _ _ _ (by simpa using h1)]
      simp only [store_u32, List.length_set]
      rw [if_neg (by omega)]
    · rw [store_u32_bind_fail _ _ _ _ (by simpa using h1)]
  · rw [store_u32_bind_fail _ _ _ _ h0]

/-- The boundary example of the 72-bit format: unsigned `(0, 1, 0)` is stored
as `00 00 00 FF FF FF 00 00 00`. -/
theorem boundary_example_72 (w : ℚ) (out : Buffer) (hout : out.length = 9) :
    pack_vector3_72 spec_quantizer ⟨0, 1, 0, w⟩ true out =
      (.ok (), [0, 0, 0, 255, 255, 255, 0, 0, 0]) := by
  have h := @pack_scalar_unsigned_boundary 24 (by norm_num) (by norm_num)
  have h0 : spec_quantizer.pack_scalar_24 true 0 = .ok 0 := h.1
  have h1 : spec_quantizer.pack_scalar_24 true 1 = .ok (2 ^ 24 - 1) := h.2
  rw [pack_vector3_72_run spec_quantizer ⟨0, 1, 0, w⟩ true 0 (2 ^ 24 - 1) 0 out h0 h1 h0
    (by norm_num) (by norm_num) (by norm_num) (by omega),
    List.drop_of_length_le (by omega)]
  rfl

/-! ## The checked casts of the fixed-width packers -/

/-- A byte store never ends in a precondition violation. -/
theorem store_u8_not_precondition (index value : Nat) (out : Buffer) :
    (store_u8 index value out).1 ≠ .error .precondition := by
  unfold store_u8
  split <;> simp

/-- A two-byte store never ends in a precondition violation. -/
theorem store_u16_not_precondition (index value : Nat) (out : Buffer) :
    (store_u16 index value out).1 ≠ .error .precondition := by
  unfold store_u16
  split <;> simp

/-- Sequencing keeps a call free of precondition violations. -/
theorem Exec.bind_not_precondition {α β : Type} (x : Exec α) (f : α → Exec β) (out : Buffer)
    (hx : (x out).1 ≠ .error .precondition)
    (hf : ∀ a out', (f a out').1 ≠ .error .precondition) :
    ((x >>= f) out).1 ≠ .error .precondition := by
  rw [Exec.bind_run]
  rcases h : x out with ⟨r, out'⟩
  rw [h] at hx
  cases r with
  | ok a => exact hf a out'
  | error e => simpa using hx

/-- A store of a byte that fits, followed by the rest of the call, is free of
precondition violations when the rest is. -/
theorem store_u8_bind_not_precondition {β : Type} (index value : Nat) (f : Unit → Exec β)
    (out : Buffer) (hf : ∀ out', (f () out').1 ≠ .error .precondition) :
    ((store_u8 index value >>= f) out).1 ≠ .error .precondition :=
  Exec.bind_not_precondition _ _ _ (store_u8_not_precondition _ _ _) (fun _ out' => hf out')

/-- A store of a 16-bit unit, followed by the rest of the call, is free of
precondition violations when the rest is. -/
theorem store_u16_bind_not_precondition {β : Type} (index value : Nat) (f : Unit → Exec β)
    (out : Buffer) (hf : ∀ out', (f () out').1 ≠ .error .precondition) :
    ((store_u16 index value >>= f) out).1 ≠ .error .precondition :=
  Exec.bind_not_precondition _ _ _ (store_u16_not_precondition _ _ _) (fun _ out' => hf out')

/-- No checked cast of `pack_vector4_64` fails on codes below `2 ^ 16`, on any
output buffer. -/
theorem pack_vector4_64_not_precondition {F : Type} (sp : ScalarPacking F)
    (vector : Vector4_32 F) (is_unsigned : Bool) (X Y Z W : Nat) (out : Buffer)
    (hx : sp.pack_scalar is_unsigned vector.x 16 = .ok X)
    (hy : sp.pack_scalar is_unsigned vector.y 16 = .ok Y)
    (hz : sp.pack_scalar is_unsigned vector.z 16 = .ok Z)
    (hw : sp.pack_scalar is_unsigned vector.w 16 = .ok W)
    (hX : X < 2 ^ 16) (hY : Y < 2 ^ 16) (hZ : Z < 2 ^ 16) (hW : W < 2 ^ 16) :
    (pack_vector4_64 sp vector is_unsigned out).1 ≠ .error .precondition := by
  unfold pack_vector4_64
  rw [vector_get_x, vector_get_y, vector_get_z, vector_get_w, hx, Exec.ok_bind_run, hy,
    Exec.ok_bind_run, hz, Exec.ok_bind_run, hw, Exec.ok_bind_run,
    safe_static_cast_ok hX, Exec.ok_bind_run]
  refine store_u16_bind_not_precondition _ _ _ _ (fun out1 => ?_)
  rw [safe_static_cast_ok hY, Exec.ok_bind_run]
  refine store_u16_bind_not_precondition _ _ _ _ (fun out2 => ?_)
  rw [safe_static_cast_ok hZ, Exec.ok_bind_run]
  refine store_u16_bind_not_precondition _ _ _ _ (fun out3 => ?_)
  rw [safe_static_cast_ok hW, Exec.ok_bind_run]
  exact store_u16_not_precondition _ _ _

/-- No checked cast of `pack_vector3_48` fails on codes below `2 ^ 16`, on any
output buffer. -/
theorem pack_vector3_48_not_precondition {F : Type} (sp : ScalarPacking F)
    (vector : Vector4_32 F) (is_unsigned : Bool) (X Y Z : Nat) (out : Buffer)
    (hx : sp.pack_scalar is_unsigned vector.x 16 = .ok X)
    (hy : sp.pack_scalar is_unsigned vector.y 16 = .ok Y)
    (hz : sp.pack_scalar is_unsigned vector.z 16 = .ok Z)
    (hX : X < 2 ^ 16) (hY : Y < 2 ^ 16) (hZ : Z < 2 ^ 16) :
    (pack_vector3_48 sp vector is_unsigned out).1 ≠ .error .precondition := by
  unfold pack_vector3_48
  rw [vector_get_x, vector_get_y, vector_get_z, hx, Exec.ok_bind_run, hy,
    Exec.ok_bind_run, hz, Exec.ok_bind_run, safe_static_cast_ok hX, Exec.ok_bind_run]
  refine store_u16_bind_not_precondition _ _ _ _ (fun out1 => ?_)
  rw [safe_static_cast_ok hY, Exec.ok_bind_run]
  refine store_u16_bind_not_precondition _ _ _ _ (fun out2 => ?_)
  rw [safe_static_cast_ok hZ, Exec.ok_bind_run]
  exact store_u16_not_precondition _ _ _

/-- No checked cast of `pack_vector4_32` fails on codes below `2 ^ 8`, on any
output buffer. -/
theorem pack_vector4_32_not_precondition {F : Type} (sp : ScalarPacking F)
    (vector : Vector4_32 F) (is_unsigned : Bool) (X Y Z W : Nat) (out : Buffer)
    (hx : sp.pack_scalar is_unsigned vector.x 8 = .ok X)
    (hy : sp.pack_scalar is_unsigned vector.y 8 = .ok Y)
    (hz : sp.pack_scalar is_unsigned vector.z 8 = .ok Z)
    (hw : sp.pack_scalar is_unsigned vector.w 8 = .ok W)
    (hX : X < 2 ^ 8) (hY : Y < 2 ^ 8) (hZ : Z < 2 ^ 8) (hW : W < 2 ^ 8) :
    (pack_vector4_32 sp vector is_unsigned out).1 ≠ .error .precondition := by
  unfold pack_vector4_32
  rw [vector_get_x, vector_get_y, vector_get_z, vector_get_w, hx, Exec.ok_bind_run, hy,
    Exec.ok_bind_run, hz, Exec.ok_bind_run, hw, Exec.ok_bind_run,
    safe_static_cast_ok hX, Exec.ok_bind_run]
  refine store_u8_bind_not_precondition _ _ _ _ (fun out1 => ?_)
  rw [safe_static_cast_ok hY, Exec.ok_bind_run]
  refine store_u8_bind_not_precondition _ _ _ _ (fun out2 => ?_)
  rw [safe_static_cast_ok hZ, Exec.ok_bind_run]
  refine store_u8_bind_not_precondition _ _ _ _ (fun out3 => ?_)
  rw [safe_static_cast_ok hW, Exec.ok_bind_run]
  exact store_u8_not_precondition _ _ _

/-- No checked cast of `pack_vector3_24` fails on codes below `2 ^ 8`, on any
output buffer. -/
theorem pack_vector3_24_not_precondition {F : Type} (sp : ScalarPacking F)
    (vector : Vector4_32 F) (is_unsigned : Bool) (X Y Z : Nat) (out : Buffer)
    (hx : sp.pack_scalar is_unsigned vector.x 8 = .ok X)
    (hy : sp.pack_scalar is_unsigned vector.y 8 = .ok Y)
    (hz : sp.pack_scalar is_unsigned vector.z 8 = .ok Z)
    (hX : X < 2 ^ 8) (hY : Y < 2 ^ 8) (hZ : Z < 2 ^ 8) :
    (pack_vector3_24 sp vector is_unsigned out).1 ≠ .error .precondition := by
  unfold pack_vector3_24
  rw [vector_get_x, vector_get_y, vector_get_z, hx, Exec.ok_bind_run, hy,
    Exec.ok_bind_run, hz, Exec.ok_bind_run, safe_static_cast_ok hX, Exec.ok_bind_run]
  refine store_u8_bind_not_precondition _ _ _ _ (fun out1 => ?_)
  rw [safe_static_cast_ok hY, Exec.ok_bind_run]
  refine store_u8_bind_not_precondition _ _ _ _ (fun out2 => ?_)
  rw [safe_static_cast_ok hZ, Exec.ok_bind_run]
  exact store_u8_not_precondition _ _ _

/-- No checked cast of `pack_vector3_72` fails on codes below `2 ^ 24`, on any
output buffer. -/
theorem pack_vector3_72_not_precondition {F : Type} (sp : ScalarPacking F)
    (vector : Vector4_32 F) (is_unsigned : Bool) (X Y Z : Nat) (out : Buffer)
    (hx : sp.pack_scalar_24 is_unsigned vector.x = .ok X)
    (hy : sp.pack_scalar_24 is_unsigned vector.y = .ok Y)
    (hz : sp.pack_scalar_24 is_unsigned vector.z = .ok Z)
    (hX : X < 2 ^ 24) (hY : Y < 2 ^ 24) (hZ : Z < 2 ^ 24) :
    (pack_vector3_72 sp vector is_unsigned out).1 ≠ .error .precondition := by
  obtain ⟨x0, x1, x2, -, -, -⟩ := code_bytes hX
  obtain ⟨y0, y1, y2, -, -, -⟩ := code_bytes hY
  obtain ⟨z0, z1, z2, -, -, -⟩ := code_bytes hZ
  unfold pack_vector3_72
  rw [vector_get_x, vector_get_y, vector_get_z, hx, Exec.ok_bind_run, hy,
    Exec.ok_bind_run, hz, Exec.ok_bind_run, safe_static_cast_ok x0, Exec.ok_bind_run]
  refine store_u8_bind_not_precondition _ _ _ _ (fun out1 => ?_)
  rw [safe_static_cast_ok x1, Exec.ok_bind_run]
  refine store_u8_bind_not_precondition _ _ _ _ (fun out2 => ?_)
  rw [safe_static_cast_ok x2, Exec.ok_bind_run]
  refine store_u8_bind_not_precondition _ _ _ _ (fun out3 => ?_)
  rw [safe_static_cast_ok y0, Exec.ok_bind_run]
  refine store_u8_bind_not_precondition _ _ _ _ (fun out4 => ?_)
  rw [safe_static_cast_ok y1, Exec.ok_bind_run]
  refine store_u8_bind_not_precondition _ _ _ _ (fun out5 => ?_)
  rw [safe_static_cast_ok y2, Exec.ok_bind_run]
  refine store_u8_bind_not_precondition _ _ _ _ (fun out6 => ?_)
  rw [safe_static_cast_ok z0, Exec.ok_bind_run]
  refine store_u8_bind_not_precondition _ _ _ _ (fun out7 => ?_)
  rw [safe_static_cast_ok z1, Exec.ok_bind_run]
  refine store_u8_bind_not_precondition _ _ _ _ (fun out8 => ?_)
  rw [safe_static_cast_ok z2, Exec.ok_bind_run]
  exact store_u8_not_precondition _ _ _

/-- No checked cast of `pack_vector3_32` fails on codes in range, for widths
that sum to 32, on any output buffer. -/
theorem pack_vector3_32_not_precondition {F : Type} (sp : ScalarPacking F)
    (vector : Vector4_32 F) (is_unsigned : Bool) (XBits YBits ZBits X Y Z : Nat) (out : Buffer)
    (hsum : XBits + YBits + ZBits = 32)
    (hx : sp.pack_scalar is_unsigned vector.x XBits = .ok X)
    (hy : sp.pack_scalar is_unsigned vector.y YBits = .ok Y)
    (hz : sp.pack_scalar is_unsigned vector.z ZBits = .ok Z)
    (hX : X < 2 ^ XBits) (hY : Y < 2 ^ YBits) (hZ : Z < 2 ^ ZBits) :
    (pack_vector3_32 sp vector XBits YBits ZBits is_unsigned out).1 ≠ .error .precondition := by
  rw [pack_vector3_32_stores sp vector is_unsigned XBits YBits ZBits X Y Z out hsum hx hy hz hX
    hY hZ]
  exact store_u16_bind_not_precondition _ _ _ _ (fun out1 => store_u16_not_precondition _ _ _)

/-- A code at most `2 ^ bits - 1` is below `2 ^ bits`. -/
theorem code_lt_of_le_max {bits code : Nat} (h : code ≤ 2 ^ bits - 1) : code < 2 ^ bits := by
  have := @Nat.one_le_two_pow bits
  omega

/-- Under the range guarantee no checked cast of `pack_vector4_64` fails: the
call never ends in a precondition violation, and it succeeds on a buffer of at
least eight bytes. -/
theorem pack_vector4_64_casts_fit {F : Type} (sp : ScalarPacking F) (vector : Vector4_32 F)
    (is_unsigned : Bool) (X Y Z W : Nat) (out : Buffer)
    (hx : sp.pack_scalar is_unsigned vector.x 16 = .ok X)
    (hy : sp.pack_scalar is_unsigned vector.y 16 = .ok Y)
    (hz : sp.pack_scalar is_unsigned vector.z 16 = .ok Z)
    (hw : sp.pack_scalar is_unsigned vector.w 16 = .ok W)
    (hX : X ≤ 2 ^ 16 - 1) (hY : Y ≤ 2 ^ 16 - 1) (hZ : Z ≤ 2 ^ 16 - 1) (hW : W ≤ 2 ^ 16 - 1) :
    (pack_vector4_64 sp vector is_unsigned out).1 ≠ .error .precondition ∧
    (8 ≤ out.length → (pack_vector4_64 sp vector is_unsigned out).1 = .ok ()) :=
  ⟨pack_vector4_64_not_precondition sp vector is_unsigned X Y Z W out hx hy hz hw
      (code_lt_of_le_max hX) (code_lt_of_le_max hY) (code_lt_of_le_max hZ) (code_lt_of_le_max hW),
    fun hout => by
      rw [pack_vector4_64_run sp vector is_unsigned X Y Z W out hx hy hz hw (code_lt_of_le_max hX)
        (code_lt_of_le_max hY) (code_lt_of_le_max hZ) (code_lt_of_le_max hW) hout]⟩

/-- Under the range guarantee no checked cast of `pack_vector3_48` fails. -/
theorem pack_vector3_48_casts_fit {F : Type} (sp : ScalarPacking F) (vector : Vector4_32 F)
    (is_unsigned : Bool) (X Y Z : Nat) (out : Buffer)
    (hx : sp.pack_scalar is_unsigned vector.x 16 = .ok X)
    (hy : sp.pack_scalar is_unsigned vector.y 16 = .ok Y)
    (hz : sp.pack_scalar is_unsigned vector.z 16 = .ok Z)
    (hX : X ≤ 2 ^ 16 - 1) (hY : Y ≤ 2 ^ 16 - 1) (hZ : Z ≤ 2 ^ 16 - 1) :
    (pack_vector3_48 sp vector is_unsigned out).1 ≠ .error .precondition ∧
    (6 ≤ out.length → (pack_vector3_48 sp vector is_unsigned out).1 = .ok ()) :=
  ⟨pack_vector3_48_not_precondition sp vector is_unsigned X Y Z out hx hy hz
      (code_lt_of_le_max hX) (code_lt_of_le_max hY) (code_lt_of_le_max hZ),
    fun hout => by
      rw [pack_vector3_48_run sp vector is_unsigned X Y Z out hx hy hz (code_lt_of_le_max hX)
        (code_lt_of_le_max hY) (code_lt_of_le_max hZ) hout]⟩

/-- Under the range guarantee no checked cast of `pack_vector4_32` fails. -/
theorem pack_vector4_32_casts_fit {F : Type} (sp : ScalarPacking F) (vector : Vector4_32 F)
    (is_unsigned : Bool) (X Y Z W : Nat) (out : Buffer)
    (hx : sp.pack_scalar is_unsigned vector.x 8 = .ok X)
    (hy : sp.pack_scalar is_unsigned vector.y 8 = .ok Y)
    (hz : sp.pack_scalar is_unsigned vector.z 8 = .ok Z)
    (hw : sp.pack_scalar is_unsigned vector.w 8 = .ok W)
    (hX : X ≤ 2 ^ 8 - 1) (hY : Y ≤ 2 ^ 8 - 1) (hZ : Z ≤ 2 ^ 8 - 1) (hW : W ≤ 2 ^ 8 - 1) :
    (pack_vector4_32 sp vector is_unsigned out).1 ≠ .error .precondition ∧
    (4 ≤ out.length → (pack_vector4_32 sp vector is_unsigned out).1 = .ok ()) :=
  ⟨pack_vector4_32_not_precondition sp vector is_unsigned X Y Z W out hx hy hz hw
      (code_lt_of_le_max hX) (code_lt_of_le_max hY) (code_lt_of_le_max hZ) (code_lt_of_le_max hW),
    fun hout => by
      rw [pack_vector4_32_run sp vector is_unsigned X Y Z W out hx hy hz hw (code_lt_of_le_max hX)
        (code_lt_of_le_max hY) (code_lt_of_le_max hZ) (code_lt_of_le_max hW) hout]⟩

/-- Under the range guarantee no checked cast of `pack_vector3_24` fails. -/
theorem pack_vector3_24_casts_fit {F : Type} (sp : ScalarPacking F) (vector : Vector4_32 F)
    (is_unsigned : Bool) (X Y Z : Nat) (out : Buffer)
    (hx : sp.pack_scalar is_unsigned vector.x 8 = .ok X)
    (hy : sp.pack_scalar is_unsigned vector.y 8 = .ok Y)
    (hz : sp.pack_scalar is_unsigned vector.z 8 = .ok Z)
    (hX : X ≤ 2 ^ 8 - 1) (hY : Y ≤ 2 ^ 8 - 1) (hZ : Z ≤ 2 ^ 8 - 1) :
    (pack_vector3_24 sp vector is_unsigned out).1 ≠ .error .precondition ∧
    (3 ≤ out.length → (pack_vector3_24 sp vector is_unsigned out).1 = .ok ()) :=
  ⟨pack_vector3_24_not_precondition sp vector is_unsigned X Y Z out hx hy hz
      (code_lt_of_le_max hX) (code_lt_of_le_max hY) (code_lt_of_le_max hZ),
    fun hout => by
      rw [pack_vector3_24_run sp vector is_unsigned X Y Z out hx hy hz (code_lt_of_le_max hX)
        (code_lt_of_le_max hY) (code_lt_of_le_max hZ) hout]⟩

/-- Under the range guarantee no checked cast of `pack_vector3_72` fails. -/
theorem pack_vector3_72_casts_fit {F : Type} (sp : ScalarPacking F) (vector : Vector4_32 F)
    (is_unsigned : Bool) (X Y Z : Nat) (out : Buffer)
    (hx : sp.pack_scalar_24 is_unsigned vector.x = .ok X)
    (hy : sp.pack_scalar_24 is_unsigned vector.y = .ok Y)
    (hz : sp.pack_scalar_24 is_unsigned vector.z = .ok Z)
    (hX : X ≤ 2 ^ 24 - 1) (hY : Y ≤ 2 ^ 24 - 1) (hZ : Z ≤ 2 ^ 24 - 1) :
    (pack_vector3_72 sp vector is_unsigned out).1 ≠ .error .precondition ∧
    (9 ≤ out.length → (pack_vector3_72 sp vector is_unsigned out).1 = .ok ()) :=
  ⟨pack_vector3_72_not_precondition sp vector is_unsigned X Y Z out hx hy hz
      (code_lt_of_le_max hX) (code_lt_of_le_max hY) (code_lt_of_le_max hZ),
    fun hout => by
      rw [pack_vector3_72_run sp vector is_unsigned X Y Z out hx hy hz (code_lt_of_le_max hX)
        (code_lt_of_le_max hY) (code_lt_of_le_max hZ) hout]⟩

/-- Under the range guarantee, for widths that sum to 32, no checked cast of
`pack_vector3_32` fails. -/
theorem pack_vector3_32_casts_fit {F : Type} (sp : ScalarPacking F) (vector : Vector4_32 F)
    (is_unsigned : Bool) (XBits YBits ZBits X Y Z : Nat) (out : Buffer)
    (hsum : XBits + YBits + ZBits = 32)
    (hx : sp.pack_scalar is_unsigned vector.x XBits = .ok X)
    (hy : sp.pack_scalar is_unsigned vector.y YBits = .ok Y)
    (hz : sp.pack_scalar is_unsigned vector.z ZBits = .ok Z)
    (hX : X ≤ 2 ^ XBits - 1) (hY : Y ≤ 2 ^ YBits - 1) (hZ : Z ≤ 2 ^ ZBits - 1) :
    (pack_vector3_32 sp vector XBits YBits ZBits is_unsigned out).1 ≠ .error .precondition ∧
    (4 ≤ out.length →
      (pack_vector3_32 sp vector XBits YBits ZBits is_unsigned out).1 = .ok ()) :=
  ⟨pack_vector3_32_not_precondition sp vector is_unsigned XBits YBits ZBits X Y Z out hsum hx hy
      hz (code_lt_of_le_max hX) (code_lt_of_le_max hY) (code_lt_of_le_max hZ),
    fun hout => by
      rw [pack_vector3_32_run sp vector is_unsigned XBits YBits ZBits X Y Z out hsum hx hy hz
        (code_lt_of_le_max hX) (code_lt_of_le_max hY) (code_lt_of_le_max hZ) hout]⟩

/-- The quantizer of the spec keeps its range guarantee on the normalized
domain: the code of a component fits its width. -/
theorem spec_quantizer_code_fits (is_unsigned : Bool) {value : ℚ} {num_bits : Nat}
    (hb1 : 1 ≤ num_bits) (hb32 : num_bits ≤ 32) (hd : in_domain is_unsigned value) :
    ∃ code, spec_quantizer.pack_scalar is_unsigned value num_bits = .ok code ∧
      code ≤ 2 ^ num_bits - 1 := by
  obtain ⟨code, hc, hb⟩ := scalar_boundary is_unsigned hb1 hb32 hd
  exact ⟨code, hb.1, by omega⟩

/-- The 24-bit quantizer of the spec keeps its range guarantee on the
normalized domain. -/
theorem spec_quantizer_code_fits_24 (is_unsigned : Bool) {value : ℚ}
    (hd : in_domain is_unsigned value) :
    ∃ code, spec_quantizer.pack_scalar_24 is_unsigned value = .ok code ∧ code ≤ 2 ^ 24 - 1 := by
  obtain ⟨code, hp, hc⟩ := @spec_quantizer_code_fits is_unsigned value 24 (by norm_num)
    (by norm_num) hd
  exact ⟨code, by rw [(spec_quantizer_24 is_unsigned value code).1]; exact hp, hc⟩

/-- On a vector of the normalized domain `pack_vector4_64` never fails a
checked cast, and succeeds on a buffer of at least eight bytes. -/
theorem pack_vector4_64_in_domain (vector : Vector4_32 ℚ) (is_unsigned : Bool) (out : Buffer)
    (hdx : in_domain is_unsigned vector.x) (hdy : in_domain is_unsigned vector.y)
    (hdz : in_domain is_unsigned vector.z) (hdw : in_domain is_unsigned vector.w) :
    (pack_vector4_64 spec_quantizer vector is_unsigned out).1 ≠ .error .precondition ∧
    (8 ≤ out.length → (pack_vector4_64 spec_quantizer vector is_unsigned out).1 = .ok ()) := by
  obtain ⟨X, hx, hX⟩ := @spec_quantizer_code_fits is_unsigned _ 16 (by norm_num) (by norm_num) hdx
  obtain ⟨Y, hy, hY⟩ := @spec_quantizer_code_fits is_unsigned _ 16 (by norm_num) (by norm_num) hdy
  obtain ⟨Z, hz, hZ⟩ := @spec_quantizer_code_fits is_unsigned _ 16 (by norm_num) (by norm_num) hdz
  obtain ⟨W, hw, hW⟩ := @spec_quantizer_code_fits is_unsigned _ 16 (by norm_num) (by norm_num) hdw
  exact pack_vector4_64_casts_fit spec_quantizer vector is_unsigned X Y Z W out hx hy hz hw hX hY
    hZ hW

/-- On a vector of the normalized domain `pack_vector3_48` never fails a
checked cast, and succeeds on a buffer of at least six bytes. -/
theorem pack_vector3_48_in_domain (vector : Vector4_32 ℚ) (is_unsigned : Bool) (out : Buffer)
    (hdx : in_domain is_unsigned vector.x) (hdy : in_domain is_unsigned vector.y)
    (hdz : in_domain is_unsigned vector.z) :
    (pack_vector3_48 spec_quantizer vector is_unsigned out).1 ≠ .error .precondition ∧
    (6 ≤ out.length → (pack_vector3_48 spec_quantizer vector is_unsigned out).1 = .ok ()) := by
  obtain ⟨X, hx, hX⟩ := @spec_quantizer_code_fits is_unsigned _ 16 (by norm_num) (by norm_num) hdx
  obtain ⟨Y, hy, hY⟩ := @spec_quantizer_code_fits is_unsigned _ 16 (by norm_num) (by norm_num) hdy
  obtain ⟨Z, hz, hZ⟩ := @spec_quantizer_code_fits is_unsigned _ 16 (by norm_num) (by norm_num) hdz
  exact pack_vector3_48_casts_fit spec_quantizer vector is_unsigned X Y Z out hx hy hz hX hY hZ

/-- On a vector of the normalized domain `pack_vector4_32` never fails a
checked cast, and succeeds on a buffer of at least four bytes. -/
theorem pack_vector4_32_in_domain (vector : Vector4_32 ℚ) (is_unsigned : Bool) (out : Buffer)
    (hdx : in_domain is_unsigned vector.x) (hdy : in_domain is_unsigned vector.y)
    (hdz : in_domain is_unsigned vector.z) (hdw : in_domain is_unsigned vector.w) :
    (pack_vector4_32 spec_quantizer vector is_unsigned out).1 ≠ .error .precondition ∧
    (4 ≤ out.length → (pack_vector4_32 spec_quantizer vector is_unsigned out).1 = .ok ()) := by
  obtain ⟨X, hx, hX⟩ := @spec_quantizer_code_fits is_unsigned _ 8 (by norm_num) (by norm_num) hdx
  obtain ⟨Y, hy, hY⟩ := @spec_quantizer_code_fits is_unsigned _ 8 (by norm_num) (by norm_num) hdy
  obtain ⟨Z, hz, hZ⟩ := @spec_quantizer_code_fits is_unsigned _ 8 (by norm_num) (by norm_num) hdz
  obtain ⟨W, hw, hW⟩ := @spec_quantizer_code_fits is_unsigned _ 8 (by norm_num) (by norm_num) hdw
  exact pack_vector4_32_casts_fit spec_quantizer vector is_unsigned X Y Z W out hx hy hz hw hX hY
    hZ hW

/-- On a vector of the normalized domain `pack_vector3_24` never fails a
checked cast, and succeeds on a buffer of at least three bytes. -/
theorem pack_vector3_24_in_domain (vector : Vector4_32 ℚ) (is_unsigned : Bool) (out : Buffer)
    (hdx : in_domain is_unsigned vector.x) (hdy : in_domain is_unsigned vector.y)
    (hdz : in_domain is_unsigned vector.z) :
    (pack_vector3_24 spec_quantizer vector is_unsigned out).1 ≠ .error .precondition ∧
    (3 ≤ out.length → (pack_vector3_24 spec_quantizer vector is_unsigned out).1 = .ok ()) := by
  obtain ⟨X, hx, hX⟩ := @spec_quantizer_code_fits is_unsigned _ 8 (by norm_num) (by norm_num) hdx
  obtain ⟨Y, hy, hY⟩ := @spec_quantizer_code_fits is_unsigned _ 8 (by norm_num) (by norm_num) hdy
  obtain ⟨Z, hz, hZ⟩ := @spec_quantizer_code_fits is_unsigned _ 8 (by norm_num) (by norm_num) hdz
  exact pack_vector3_24_casts_fit spec_quantizer vector is_unsigned X Y Z out hx hy hz hX hY hZ

/-- On a vector of the normalized domain `pack_vector3_72` never fails a
checked cast, and succeeds on a buffer of at least nine bytes. -/
theorem pack_vector3_72_in_domain (vector : Vector4_32 ℚ) (is_unsigned : Bool) (out : Buffer)
    (hdx : in_domain is_unsigned vector.x) (hdy : in_domain is_unsigned vector.y)
    (hdz : in_domain is_unsigned vector.z) :
    (pack_vector3_72 spec_quantizer vector is_unsigned out).1 ≠ .error .precondition ∧
    (9 ≤ out.length → (pack_vector3_72 spec_quantizer vector is_unsigned out).1 = .ok ()) := by
  obtain ⟨X, hx, hX⟩ := spec_quantizer_code_fits_24 is_unsigned hdx
  obtain ⟨Y, hy, hY⟩ := spec_quantizer_code_fits_24 is_unsigned hdy
  obtain ⟨Z, hz, hZ⟩ := spec_quantizer_code_fits_24 is_unsigned hdz
  exact pack_vector3_72_casts_fit spec_quantizer vector is_unsigned X Y Z out hx hy hz hX hY hZ

/-- On a vector of the normalized domain, for widths of at least one bit that
sum to 32, `pack_vector3_32` never fails a checked cast, and succeeds on a
buffer of at least four bytes. -/
theorem pack_vector3_32_in_domain (vector : Vector4_32 ℚ) (XBits YBits ZBits : Nat)
    (is_unsigned : Bool) (out : Buffer)
    (hXBits : 1 ≤ XBits) (hYBits : 1 ≤ YBits) (hZBits : 1 ≤ ZBits)
    (hsum : XBits + YBits + ZBits = 32)
    (hdx : in_domain is_unsigned vector.x) (hdy : in_domain is_unsigned vector.y)
    (hdz : in_domain is_unsigned vector.z) :
    (pack_vector3_32 spec_quantizer vector XBits YBits ZBits is_unsigned out).1 ≠
      .error .precondition ∧
    (4 ≤ out.length →
      (pack_vector3_32 spec_quantizer vector XBits YBits ZBits is_unsigned out).1 = .ok ()) := by
  obtain ⟨X, hx, hX⟩ := @spec_quantizer_code_fits is_unsigned _ XBits hXBits (by omega) hdx
  obtain ⟨Y, hy, hY⟩ := @spec_quantizer_code_fits is_unsigned _ YBits hYBits (by omega) hdy
  obtain ⟨Z, hz, hZ⟩ := @spec_quantizer_code_fits is_unsigned _ ZBits hZBits (by omega) hdz
  exact pack_vector3_32_casts_fit spec_quantizer vector is_unsigned XBits YBits ZBits X Y Z out
    hsum hx hy hz hX hY hZ

/-- The range guarantee is what keeps the casts safe: on the code `2 ^ 16` the
checked cast of `pack_vector4_64` to 16 bits fails, and on the code `2 ^ 24`
the cast of `code >> 16` to 8 bits in `pack_vector3_72` fails; nothing is
written. -/
theorem casts_fail_out_of_range :
    pack_vector4_64 code_quantizer ⟨2 ^ 16, 0, 0, 0⟩ true [0, 0, 0, 0, 0, 0, 0, 0] =
      (.error .precondition, [0, 0, 0, 0, 0, 0, 0, 0]) ∧
    pack_vector3_72 code_quantizer ⟨2 ^ 24, 0, 0, 0⟩ true [0, 0, 0, 0, 0, 0, 0, 0, 0] =
      (.error .precondition, [0, 0, 0, 0, 0, 0, 0, 0, 0]) :=
  ⟨rfl, rfl⟩

/-! ## The width check of the 32-bit triple, on the functions -/

/-- A byte load ends with a byte or runs out of the buffer. -/
theorem load_u8_cases (data : Buffer) (index : Nat) :
    (∃ v, load_u8 data index = .ok v ∧ v < 2 ^ 8) ∨ load_u8 data index = .error .undefined := by
  unfold load_u8
  cases h : data[index]? with
  | none => exact Or.inr rfl
  | some b => exact Or.inl ⟨b.val, rfl, b.isLt⟩

/-- A load of a 16-bit unit ends with a value below `2 ^ 16` or runs out of the
buffer. -/
theorem load_u16_cases (data : Buffer) (index : Nat) :
    (∃ v, load_u16 data index = .ok v ∧ v < 2 ^ 16) ∨
      load_u16 data index = .error .undefined := by
  unfold load_u16
  rcases load_u8_cases data (2 * index) with ⟨b0, h0, hb0⟩ | h0
  · rcases load_u8_cases data (2 * index + 1) with ⟨b1, h1, hb1⟩ | h1
    · refine Or.inl ⟨b0 + b1 * 2 ^ 8, ?_, by omega⟩
      rw [h0, h1]; rfl
    · right; rw [h0, h1]; rfl
  · right; rw [h0]; rfl

/-- A right shift of a 32-bit value has a result or is undefined. -/
theorem shr_u32_cases (value : Nat) (count : Int) :
    (∃ v, shr_u32 value count = .ok v) ∨ shr_u32 value count = .error .undefined := by
  unfold shr_u32
  split
  · exact Or.inl ⟨_, rfl⟩
  · exact Or.inr rfl

/-- A subtraction of `int` has a result or is undefined. -/
theorem sub_int_cases (a b : Int) :
    (∃ v, sub_int a b = .ok v) ∨ sub_int a b = .error .undefined := by
  unfold sub_int
  split
  · exact Or.inl ⟨_, rfl⟩
  · exact Or.inr rfl

/-- The mask `(1 << bits) - 1` has a value or is undefined. -/
theorem int_mask_cases (bits : Nat) :
    (∃ v, int_mask bits = .ok v) ∨ int_mask bits = .error .undefined := by
  unfold int_mask shl_int
  split
  · exact sub_int_cases _ _
  · exact Or.inr rfl

/-- When the widths sum to 32 the code extraction of `unpack_vector3_32` passes
its width check: on no buffer does it end in a precondition violation. -/
theorem unpack_vector3_32_codes_not_precondition (XBits YBits ZBits : Nat)
    (vector_data : Buffer) (hsum : XBits + YBits + ZBits = 32) :
    unpack_vector3_32_codes XBits YBits ZBits vector_data ≠ .error .precondition := by
  unfold unpack_vector3_32_codes
  have hcheck : ACL_ENSURE (XBits + YBits + ZBits == 32) = .ok () := by simp [ACL_ENSURE, hsum]
  rw [hcheck]
  simp only [bind, Except.bind]
  rcases load_u16_cases vector_data 0 with ⟨high, h0, hhigh⟩ | h0
  · rw [h0]
    simp only [safe_static_cast_ok (show high < 2 ^ 32 by omega)]
    rcases load_u16_cases vector_data 1 with ⟨low, h1, hlow⟩ | h1
    · rw [h1]
      simp only [safe_static_cast_ok (show low < 2 ^ 32 by omega)]
      rcases shr_u32_cases ((high <<< 16) % 2 ^ 32 ||| low) ((YBits : Int) + (ZBits : Int))
        with ⟨x32, hx⟩ | hx
      · rw [hx]
        simp only []
        rcases shr_u32_cases ((high <<< 16) % 2 ^ 32 ||| low) (ZBits : Int) with ⟨ys, hy⟩ | hy
        · rw [hy]
          simp only []
          rcases int_mask_cases YBits with ⟨my, hmy⟩ | hmy
          · rw [hmy]
            simp only []
            rcases int_mask_cases ZBits with ⟨mz, hmz⟩ | hmz
            · rw [hmz]
              simp [pure, Except.pure]
            · rw [hmz]; simp
          · rw [hmy]; simp
        · rw [hy]; simp
      · rw [hx]; simp
    · rw [h1]; simp
  · rw [h0]; simp

/-- When the widths are at least one bit each and sum to 32 and the buffer
holds the two 16-bit units, the code extraction of `unpack_vector3_32`
succeeds. -/
theorem unpack_vector3_32_codes_succeeds (XBits YBits ZBits : Nat) (vector_data : Buffer)
    (hXBits : 1 ≤ XBits) (hYBits : 1 ≤ YBits) (hZBits : 1 ≤ ZBits)
    (hsum : XBits + YBits + ZBits = 32) (hdata : 4 ≤ vector_data.length) :
    ∃ x32 y32 z32, unpack_vector3_32_codes XBits YBits ZBits vector_data =
      .ok (x32, y32, z32) := by
  obtain ⟨a0, a1, a2, a3, rest, rfl⟩ := buffer_four vector_data hdata
  have h0 : load_u16 (a0 :: a1 :: a2 :: a3 :: rest) 0 = .ok (a0.val + a1.val * 2 ^ 8) :=
    load_u16_cons_zero _ _ _
  have h1 : load_u16 (a0 :: a1 :: a2 :: a3 :: rest) 1 = .ok (a2.val + a3.val * 2 ^ 8) := by
    rw [show (1 : Nat) = 0 + 1 from rfl, load_u16_cons_succ, load_u16_cons_zero]
  have b0 := a0.isLt
  have b1 := a1.isLt
  have b2 := a2.isLt
  have b3 := a3.isLt
  exact ⟨_, _, _, unpack_vector3_32_codes_of_units XBits YBits ZBits _ _ _ hXBits hYBits hZBits
    hsum h0 h1 (by omega) (by omega)⟩

/-- The unpacker `unpack_vector3_32` on codes the quantizer decodes. -/
theorem unpack_vector3_32_of_codes {F : Type} (sp : ScalarPacking F) (XBits YBits ZBits : Nat)
    (is_unsigned : Bool) (vector_data : Buffer) (x32 y32 z32 : Nat) (x y z : F)
    (hcodes : unpack_vector3_32_codes XBits YBits ZBits vector_data = .ok (x32, y32, z32))
    (hx : sp.unpack_scalar is_unsigned x32 XBits = .ok x)
    (hy : sp.unpack_scalar is_unsigned y32 YBits = .ok y)
    (hz : sp.unpack_scalar is_unsigned z32 ZBits = .ok z) :
    unpack_vector3_32 sp XBits YBits ZBits is_unsigned vector_data = .ok (x, y, z) := by
  simp only [unpack_vector3_32, hcodes, hx, hy, hz, bind, Except.bind, pure, Except.pure,
    vector_set]

/-! ## The bytes the fixed triple packers write -/

/-- The run of `pack_vector3_32` on codes in range, as the four bytes written:
the two halves of the composed word, each a little-endian 16-bit unit, in
front of the rest of the buffer. -/
theorem pack_vector3_32_written {F : Type} (sp : ScalarPacking F) (vector : Vector4_32 F)
    (is_unsigned : Bool) (XBits YBits ZBits X Y Z : Nat) (out : Buffer)
    (hsum : XBits + YBits + ZBits = 32)
    (hx : sp.pack_scalar is_unsigned vector.x XBits = .ok X)
    (hy : sp.pack_scalar is_unsigned vector.y YBits = .ok Y)
    (hz : sp.pack_scalar is_unsigned vector.z ZBits = .ok Z)
    (hX : X < 2 ^ XBits) (hY : Y < 2 ^ YBits) (hZ : Z < 2 ^ ZBits)
    (hout : 4 ≤ out.length) :
    pack_vector3_32 sp vector XBits YBits ZBits is_unsigned out =
      (.ok (), [toByte ((X * 2 ^ (YBits + ZBits) + Y * 2 ^ ZBits + Z) / 2 ^ 16),
        toByte ((X * 2 ^ (YBits + ZBits) + Y * 2 ^ ZBits + Z) / 2 ^ 16 / 2 ^ 8),
        toByte ((X * 2 ^ (YBits + ZBits) + Y * 2 ^ ZBits + Z) % 2 ^ 16),
        toByte ((X * 2 ^ (YBits + ZBits) + Y * 2 ^ ZBits + Z) % 2 ^ 16 / 2 ^ 8)] ++
        out.drop 4) := by
  rw [pack_vector3_32_run sp vector is_unsigned XBits YBits ZBits X Y Z out hsum hx hy hz hX hY
    hZ hout]
  obtain ⟨a0, a1, a2, a3, rest, rfl⟩ := buffer_four out hout
  rfl

/-! ## The claims -/

/-- C1: round trip of the 32-bit triple on codes.  For widths of at least one
bit each that sum to 32 and codes in range, `pack_vector3_32` succeeds and the
codes `x32`, `y32`, `z32` that `unpack_vector3_32` extracts from the bytes it
wrote are the packed codes. -/
theorem pack_unpack_vector3_32_codes {F : Type} (sp : ScalarPacking F)
    (vector : Vector4_32 F) (is_unsigned : Bool) (XBits YBits ZBits X Y Z : Nat)
    (out : Buffer)
    (hXBits : 1 ≤ XBits) (hYBits : 1 ≤ YBits) (hZBits : 1 ≤ ZBits)
    (hsum : XBits + YBits + ZBits = 32)
    (hx : sp.pack_scalar is_unsigned vector.x XBits = .ok X)
    (hy : sp.pack_scalar is_unsigned vector.y YBits = .ok Y)
    (hz : sp.pack_scalar is_unsigned vector.z ZBits = .ok Z)
    (hX : X < 2 ^ XBits) (hY : Y < 2 ^ YBits) (hZ : Z < 2 ^ ZBits)
    (hout : 4 ≤ out.length) :
    (pack_vector3_32 sp vector XBits YBits ZBits is_unsigned out).1 = .ok () ∧
    unpack_vector3_32_codes XBits YBits ZBits
      (pack_vector3_32 sp vector XBits YBits ZBits is_unsigned out).2 = .ok (X, Y, Z) := by
  have hW : X * 2 ^ (YBits + ZBits) + Y * 2 ^ ZBits + Z < 2 ^ 32 := by
    rw [← hsum]; exact fields_lt hX hY hZ
  have hb := halves_bytes hW
  have hl := load_u16_stored out
    (toByte ((X * 2 ^ (YBits + ZBits) + Y * 2 ^ ZBits + Z) / 2 ^ 16))
    (toByte ((X * 2 ^ (YBits + ZBits) + Y * 2 ^ ZBits + Z) / 2 ^ 16 / 2 ^ 8))
    (toByte ((X * 2 ^ (YBits + ZBits) + Y * 2 ^ ZBits + Z) % 2 ^ 16))
    (toByte ((X * 2 ^ (YBits + ZBits) + Y * 2 ^ ZBits + Z) % 2 ^ 16 / 2 ^ 8)) hout
  rw [hb.1, hb.2] at hl
  rw [pack_vector3_32_run sp vector is_unsigned XBits YBits ZBits X Y Z out hsum hx hy hz hX hY
    hZ hout]
  refine ⟨rfl, ?_⟩
  rw [unpack_vector3_32_codes_of_units XBits YBits ZBits _ _ _ hXBits hYBits hZBits hsum hl.1
    hl.2 (by omega) (Nat.mod_lt _ (by norm_num))]
  have hjoin : (X * 2 ^ (YBits + ZBits) + Y * 2 ^ ZBits + Z) / 2 ^ 16 * 2 ^ 16 +
      (X * 2 ^ (YBits + ZBits) + Y * 2 ^ ZBits + Z) % 2 ^ 16 =
      X * 2 ^ (YBits + ZBits) + Y * 2 ^ ZBits + Z := Nat.div_add_mod' _ _
  rw [hjoin, compose_div X hY hZ, compose_mid X hY hZ, compose_low X hZ]

/-- Witness of `pack_unpack_vector3_32_codes`: the codes 5, 6, 7 on widths 11,
11, 10. -/
theorem pack_unpack_vector3_32_codes_witness :
    unpack_vector3_32_codes 11 11 10
      (pack_vector3_32 code_quantizer ⟨5, 6, 7, 0⟩ 11 11 10 true [0, 0, 0, 0]).2 =
      .ok (5, 6, 7) :=
  (pack_unpack_vector3_32_codes code_quantizer ⟨5, 6, 7, 0⟩ true 11 11 10 5 6 7 [0, 0, 0, 0]
    (by decide) (by decide) (by decide) (by decide) rfl rfl rfl (by decide) (by decide)
    (by decide) (by decide)).2

/-- C2, as amended: round trip of the variable-width layout on codes.  For
`YBits` and `ZBits` of at most 30 (and `XBits` of any width within the sum),
widths that sum to at most 64 and codes in range, `pack_vector3_n` succeeds and
the codes `x64`, `y64`, `z64` that the non-streaming `unpack_vector3_n`
extracts from the 64-bit word it wrote are the packed codes. -/
theorem pack_unpack_vector3_n_codes {F : Type} (sp : ScalarPacking F)
    (vector : Vector4_32 F) (is_unsigned : Bool) (XBits YBits ZBits X Y Z : Nat)
    (out : Buffer)
    (hYBits : YBits ≤ 30) (hZBits : ZBits ≤ 30) (hsum : XBits + YBits + ZBits ≤ 64)
    (hx : sp.pack_scalar is_unsigned vector.x XBits = .ok X)
    (hy : sp.pack_scalar is_unsigned vector.y YBits = .ok Y)
    (hz : sp.pack_scalar is_unsigned vector.z ZBits = .ok Z)
    (hX : X < 2 ^ XBits) (hY : Y < 2 ^ YBits) (hZ : Z < 2 ^ ZBits)
    (hout : 8 ≤ out.length) :
    (pack_vector3_n sp vector XBits YBits ZBits is_unsigned out).1 = .ok () ∧
    unpack_vector3_n_codes YBits ZBits
      (pack_vector3_n sp vector XBits YBits ZBits is_unsigned out).2 = .ok (X, Y, Z) := by
  have hW : X * 2 ^ (YBits + ZBits) + Y * 2 ^ ZBits + Z < 2 ^ 64 :=
    lt_of_lt_of_le (fields_lt hX hY hZ) (Nat.pow_le_pow_right (by norm_num) hsum)
  have hZ64 : Z < 2 ^ 64 := by omega
  have hxs : X * 2 ^ (YBits + ZBits) % 2 ^ 64 = X * 2 ^ (YBits + ZBits) :=
    Nat.mod_eq_of_lt (by omega)
  have hys : Y * 2 ^ ZBits % 2 ^ 64 = Y * 2 ^ ZBits := Nat.mod_eq_of_lt (by omega)
  have hor : X * 2 ^ (YBits + ZBits) ||| Y * 2 ^ ZBits ||| Z =
      X * 2 ^ (YBits + ZBits) + Y * 2 ^ ZBits + Z := by
    have := compose_or_eq X hY hZ
    rwa [Nat.shiftLeft_eq, Nat.shiftLeft_eq] at this
  rw [pack_vector3_n_run sp vector is_unsigned XBits YBits ZBits X Y Z out hx hy hz (by omega)
    hZ64 hout, hxs, hys, hor]
  refine ⟨rfl, ?_⟩
  rw [unpack_vector3_n_codes_of_word YBits ZBits _ _ hYBits hZBits
    (load_u64_stored out _ hout hW), compose_div X hY hZ, compose_mid X hY hZ,
    compose_low X hZ]

/-- Witness of `pack_unpack_vector3_n_codes`: the codes 5, 6, 7 on widths 19,
19, 19. -/
theorem pack_unpack_vector3_n_codes_witness :
    unpack_vector3_n_codes 19 19
      (pack_vector3_n code_quantizer ⟨5, 6, 7, 0⟩ 19 19 19 true [0, 0, 0, 0, 0, 0, 0, 0]).2 =
      .ok (5, 6, 7) :=
  (pack_unpack_vector3_n_codes code_quantizer ⟨5, 6, 7, 0⟩ true 19 19 19 5 6 7
    [0, 0, 0, 0, 0, 0, 0, 0] (by decide) (by decide) (by decide) rfl rfl rfl (by decide)
    (by decide) (by decide) (by decide)).2

/-- C2, counterexample: with the widths 1, 32, 1 (each in `[1, 32]`, sum 34) and
the codes 1, `2 ^ 32 - 1`, 1, `pack_vector3_n` writes the word `2 ^ 34 - 1`, and
the non-streaming `unpack_vector3_n` does not extract the codes from it: the
mask `(1 << 32) - 1` is computed in `int`, where the shift has no defined
result.  The same holds for a width of 31, where `(1 << 31) - 1` overflows. -/
theorem pack_unpack_vector3_n_codes_width_32 :
    pack_vector3_n code_quantizer ⟨1, 4294967295, 1, 0⟩ 1 32 1 true [0, 0, 0, 0, 0, 0, 0, 0] =
      (.ok (), [255, 255, 255, 255, 3, 0, 0, 0]) ∧
    unpack_vector3_n_codes 32 1 [255, 255, 255, 255, 3, 0, 0, 0] = .error .undefined ∧
    unpack_vector3_n_codes 32 1 [255, 255, 255, 255, 3, 0, 0, 0] ≠ .ok (1, 4294967295, 1) ∧
    unpack_vector3_n_codes 31 1 [255, 255, 255, 255, 3, 0, 0, 0] = .error .undefined := by
  refine ⟨rfl, rfl, ?_, rfl⟩
  intro h
  have h1 : unpack_vector3_n_codes 32 1 [255, 255, 255, 255, 3, 0, 0, 0] =
      .error .undefined := rfl
  rw [h1] at h
  simp at h

/-- C3: the streaming variable-width unpacker reads the bitstream.  For widths
with `XBits` at least 1, `YBits` and `ZBits` at most 30 and a sum of at most
64, a bit offset `b` with `XBits + YBits + b % 8 ≤ 64`, and a buffer that holds
the 8-byte loads (at byte `b / 8`, and at byte `(b + XBits + YBits) / 8` when
the field straddles the first word), the cursor advancing by `XBits + YBits`
within 64 bits, the codes `x64`, `y64`, `z64` are the unsigned integers formed
by the bits `[b, b + XBits)`, `[b + XBits, b + XBits + YBits)` and
`[b + XBits + YBits, b + XBits + YBits + ZBits)` of the buffer read as a
big-endian bitstream, in the single-load case and in the straddling case. -/
theorem unpack_vector3_n_bit_offset_codes_eq_stream (XBits YBits ZBits : Nat)
    (vector_data : Buffer) (b : Nat)
    (hXBits : 1 ≤ XBits) (hYBits : YBits ≤ 30) (hZBits : ZBits ≤ 30)
    (hsum : XBits + YBits + ZBits ≤ 64) (hxy : XBits + YBits + b % 8 ≤ 64)
    (hlen : b / 8 + 8 ≤ vector_data.length)
    (hlen2 : 64 < XBits + YBits + ZBits + b % 8 →
      (b + (XBits + YBits)) / 8 + 8 ≤ vector_data.length)
    (hcursor : b + (XBits + YBits) < 2 ^ 64) :
    unpack_vector3_n_bit_offset_codes XBits YBits ZBits vector_data b =
      .ok (stream_bits vector_data b XBits, stream_bits vector_data (b + XBits) YBits,
        stream_bits vector_data (b + XBits + YBits) ZBits) := by
  have hn : (XBits + YBits + ZBits) % 2 ^ 8 = XBits + YBits + ZBits :=
    Nat.mod_eq_of_lt (by omega)
  have hcond : (XBits + YBits + ZBits + b % 8) % 2 ^ 64 = XBits + YBits + ZBits + b % 8 :=
    Nat.mod_eq_of_lt (by omega)
  obtain ⟨v1, hv1, hsw1⟩ := load_u64_byte_swap hlen
  have hb : 8 * (b / 8) + b % 8 = b := Nat.div_add_mod b 8
  -- the first word, shifted left, as `T`
  have hfx := cursor_field (b % 8) XBits hsw1 (by omega)
  have hfxy := cursor_field (b % 8) (XBits + YBits) hsw1 (by omega)
  rw [hb] at hfx hfxy
  have hsh := @shr_u64_compl ((byte_swap v1 <<< (b % 8)) % 2 ^ 64) (XBits + YBits + ZBits)
    (by omega) hsum
  have hcast : ((XBits + YBits + ZBits : Nat) : Int) = (XBits : Int) + YBits + ZBits := by
    push_cast; rfl
  have hsYZ : ∀ w, shr_u64 w ((YBits : Int) + (ZBits : Int)) = .ok (w / 2 ^ (YBits + ZBits)) := by
    intro w
    have := @shr_u64_ok w (YBits + ZBits) (by omega)
    rw [← this]; push_cast; rfl
  have hsZ : ∀ w, shr_u64 w (ZBits : Int) = .ok (w / 2 ^ ZBits) := fun w =>
    @shr_u64_ok w ZBits (by omega)
  -- x64 and y64
  have hx : (byte_swap v1 <<< (b % 8)) % 2 ^ 64 / 2 ^ (64 - (XBits + YBits + ZBits)) /
      2 ^ (YBits + ZBits) = stream_bits vector_data b XBits := by
    rw [Nat.div_div_eq_div_mul, ← pow_add,
      show 64 - (XBits + YBits + ZBits) + (YBits + ZBits) = 64 - XBits by omega, hfx]
  have hy : (byte_swap v1 <<< (b % 8)) % 2 ^ 64 / 2 ^ (64 - (XBits + YBits + ZBits)) /
      2 ^ ZBits % 2 ^ YBits = stream_bits vector_data (b + XBits) YBits := by
    rw [Nat.div_div_eq_div_mul, ← pow_add,
      show 64 - (XBits + YBits + ZBits) + ZBits = 64 - (XBits + YBits) by omega, hfxy,
      stream_bits_add, Nat.mul_comm, Nat.mul_add_mod,
      Nat.mod_eq_of_lt (stream_bits_lt _ _ _)]
  simp only [unpack_vector3_n_bit_offset_codes, hn, hcond, hv1, ← hcast, hsh, hsYZ, hsZ,
    int_mask_ok hYBits, int_mask_ok hZBits, to_u64_mask hYBits, to_u64_mask hZBits,
    Nat.and_pow_two_sub_one_eq_mod, bind, Except.bind, pure, Except.pure, hx, hy]
  by_cases hst : 64 < XBits + YBits + ZBits + b % 8
  · -- the field straddles the first word: `z64` comes from a second load
    have hl2 := hlen2 hst
    have hwrap : (b + (XBits + YBits)) % 2 ^ 64 = b + (XBits + YBits) :=
      Nat.mod_eq_of_lt hcursor
    obtain ⟨v2, hv2, hsw2⟩ := load_u64_byte_swap hl2
    have hfz := cursor_field ((b + (XBits + YBits)) % 8) ZBits hsw2 (by omega)
    rw [Nat.div_add_mod] at hfz
    have hshz := @shr_u64_compl
      ((byte_swap v2 <<< ((b + (XBits + YBits)) % 8)) % 2 ^ 64) ZBits (by omega) (by omega)
    rw [if_pos hst]
    simp only [hwrap, hv2, hshz, hfz, Nat.add_assoc]
  · -- a single load holds the three fields
    have hfxyz := cursor_field (b % 8) (XBits + YBits + ZBits) hsw1 (by omega)
    rw [hb] at hfxyz
    rw [if_neg hst, hfxyz, stream_bits_add vector_data b (XBits + YBits) ZBits, Nat.mul_comm,
      Nat.mul_add_mod, Nat.mod_eq_of_lt (stream_bits_lt _ _ _), Nat.add_assoc]

/-- Witness of `unpack_vector3_n_bit_offset_codes_eq_stream`: widths 28, 28, 8
at bit offset 7, where the third field straddles the first word. -/
theorem unpack_vector3_n_bit_offset_codes_eq_stream_witness :
    unpack_vector3_n_bit_offset_codes 28 28 8
      [0x12, 0x34, 0x56, 0x78, 0x9A, 0xBC, 0xDE, 0xF0, 0x11, 0x22, 0x33, 0x44, 0x55, 0x66,
        0x77, 0x88] 7 =
      .ok (stream_bits [0x12, 0x34, 0x56, 0x78, 0x9A, 0xBC, 0xDE, 0xF0, 0x11, 0x22, 0x33, 0x44,
          0x55, 0x66, 0x77, 0x88] 7 28,
        stream_bits [0x12, 0x34, 0x56, 0x78, 0x9A, 0xBC, 0xDE, 0xF0, 0x11, 0x22, 0x33, 0x44,
          0x55, 0x66, 0x77, 0x88] (7 + 28) 28,
        stream_bits [0x12, 0x34, 0x56, 0x78, 0x9A, 0xBC, 0xDE, 0xF0, 0x11, 0x22, 0x33, 0x44,
          0x55, 0x66, 0x77, 0x88] (7 + 28 + 28) 8) :=
  unpack_vector3_n_bit_offset_codes_eq_stream 28 28 8 _ 7 (by decide) (by decide) (by decide)
    (by decide) (by decide) (by decide) (by decide) (by decide)

/-- C4: the streaming 72-bit unpacker reads the bitstream.  At every bit offset
`b`, byte-aligned or not, that the cursor can advance by 48 within 64 bits,
and for a buffer that holds the two 8-byte loads (at bytes `b / 8` and
`(b + 48) / 8`), the codes `x64`, `y64`, `z64` are the 24-bit unsigned integers
formed by the bits `[b, b + 24)`, `[b + 24, b + 48)` and `[b + 48, b + 72)` of
the buffer read as a big-endian bitstream. -/
theorem unpack_vector3_72_bit_offset_codes_eq_stream (vector_data : Buffer) (b : Nat)
    (hlen : (b + 48) / 8 + 8 ≤ vector_data.length) (hcursor : b + 48 < 2 ^ 64) :
    unpack_vector3_72_bit_offset_codes vector_data b =
      .ok (stream_bits vector_data b 24, stream_bits vector_data (b + 24) 24,
        stream_bits vector_data (b + 48) 24) :=
  unpack_vector3_72_bit_offset_codes_run vector_data b hlen hcursor

/-- Witness of `unpack_vector3_72_bit_offset_codes_eq_stream`: the offset 5 of
a buffer of 16 bytes. -/
theorem unpack_vector3_72_bit_offset_codes_eq_stream_witness :
    unpack_vector3_72_bit_offset_codes
      [0x12, 0x34, 0x56, 0x78, 0x9A, 0xBC, 0xDE, 0xF0, 0x11, 0x22, 0x33, 0x44, 0x55, 0x66,
        0x77, 0x88] 5 =
      .ok (stream_bits [0x12, 0x34, 0x56, 0x78, 0x9A, 0xBC, 0xDE, 0xF0, 0x11, 0x22, 0x33, 0x44,
          0x55, 0x66, 0x77, 0x88] 5 24,
        stream_bits [0x12, 0x34, 0x56, 0x78, 0x9A, 0xBC, 0xDE, 0xF0, 0x11, 0x22, 0x33, 0x44,
          0x55, 0x66, 0x77, 0x88] (5 + 24) 24,
        stream_bits [0x12, 0x34, 0x56, 0x78, 0x9A, 0xBC, 0xDE, 0xF0, 0x11, 0x22, 0x33, 0x44,
          0x55, 0x66, 0x77, 0x88] (5 + 48) 24) :=
  unpack_vector3_72_bit_offset_codes_eq_stream _ 5 (by decide) (by decide)

/-- C5: bit-cursor consistency of the 72-bit format.  For every quantizer,
every signedness flag and every buffer that holds the bytes the 8-byte loads
touch (14 bytes), the streaming `unpack_vector3_72` at bit offset 0 returns
what the non-streaming `unpack_vector3_72` returns on the same bytes. -/
theorem unpack_vector3_72_bit_offset_zero {F : Type} (sp : ScalarPacking F)
    (is_unsigned : Bool) (vector_data : Buffer) (hlen : 14 ≤ vector_data.length) :
    unpack_vector3_72_bit_offset sp is_unsigned vector_data 0 =
      unpack_vector3_72 sp is_unsigned vector_data := by
  have h1 := unpack_vector3_72_bit_offset_codes_run vector_data 0 (by omega) (by norm_num)
  have h2 := unpack_vector3_72_codes_run vector_data (by omega)
  simp only [Nat.zero_add] at h1
  simp only [unpack_vector3_72_bit_offset, unpack_vector3_72, h1, h2]

/-- Witness of `unpack_vector3_72_bit_offset_zero`: a buffer of 14 bytes. -/
theorem unpack_vector3_72_bit_offset_zero_witness :
    unpack_vector3_72_bit_offset code_quantizer false
      [0x12, 0x34, 0x56, 0x78, 0x9A, 0xBC, 0xDE, 0xF0, 0x11, 0x22, 0x33, 0x44, 0x55, 0x66] 0 =
    unpack_vector3_72 code_quantizer false
      [0x12, 0x34, 0x56, 0x78, 0x9A, 0xBC, 0xDE, 0xF0, 0x11, 0x22, 0x33, 0x44, 0x55, 0x66] :=
  unpack_vector3_72_bit_offset_zero code_quantizer false _ (by decide)

/-- C6, as amended: at bit offset 0 the streaming `unpack_vector3_96` reads each
component in big-endian byte order while the non-streaming one reads it in
native byte order.  For every buffer that holds the bytes the 8-byte loads
touch (16 bytes), both succeed and each component the streaming overload
returns is the byte-swapped pattern of the component the non-streaming one
returns. -/
theorem unpack_vector3_96_bit_offset_zero_byte_swapped (vector_data : Buffer)
    (hlen : 16 ≤ vector_data.length) :
    ∃ x y z, unpack_vector3_96 vector_data = .ok (x, y, z) ∧
      unpack_vector3_96_bit_offset vector_data 0 =
        .ok (byte_swap_u32 x, byte_swap_u32 y, byte_swap_u32 z) := by
  have hs := unpack_vector3_96_bit_offset_codes_run vector_data 0 (by omega) (by norm_num)
  have hx := stream_bits_lt vector_data 0 32
  have hy := stream_bits_lt vector_data 32 32
  have hz := stream_bits_lt vector_data 64 32
  obtain ⟨x, lx, ex⟩ := @load_u32_byte_swap vector_data 0 (by omega)
  obtain ⟨y, ly, ey⟩ := @load_u32_byte_swap vector_data 4 (by omega)
  obtain ⟨z, lz, ez⟩ := @load_u32_byte_swap vector_data 8 (by omega)
  simp only [Nat.zero_add, Nat.mul_zero, Nat.reduceMul] at hs ex ey ez
  refine ⟨x, y, z, ?_, ?_⟩
  · simp only [unpack_vector3_96, vector_unaligned_load3, lx, ly, lz, bind, Except.bind, pure,
      Except.pure, vector_set]
  · simp only [unpack_vector3_96_bit_offset, hs, scalar_unaligned_load, vector_set,
      Nat.mod_eq_of_lt hx, Nat.mod_eq_of_lt hy, Nat.mod_eq_of_lt hz, bind, Except.bind, pure,
      Except.pure, ex, ey, ez]

/-- Witness of `unpack_vector3_96_bit_offset_zero_byte_swapped`: a buffer of 16
bytes. -/
theorem unpack_vector3_96_bit_offset_zero_byte_swapped_witness :
    ∃ x y z, unpack_vector3_96
        [0, 0, 0x80, 0x3F, 1, 2, 3, 4, 5, 6, 7, 8, 0, 0, 0, 0] = .ok (x, y, z) ∧
      unpack_vector3_96_bit_offset
        [0, 0, 0x80, 0x3F, 1, 2, 3, 4, 5, 6, 7, 8, 0, 0, 0, 0] 0 =
        .ok (byte_swap_u32 x, byte_swap_u32 y, byte_swap_u32 z) :=
  unpack_vector3_96_bit_offset_zero_byte_swapped _ (by decide)

/-- C6, counterexample: on the 16 bytes that start with `00 00 80 3F`, the
native pattern of the float 1.0, the non-streaming `unpack_vector3_96` returns
the pattern `0x3F800000` for x while the streaming one at bit offset 0 returns
`0x0000803F`: the two do not return the same components. -/
theorem unpack_vector3_96_bit_offset_zero_differs :
    unpack_vector3_96 [0, 0, 0x80, 0x3F, 0, 0, 0, 0, 0, 0, 0, 0, 0, 0, 0, 0] =
      .ok (0x3F800000, 0, 0) ∧
    unpack_vector3_96_bit_offset [0, 0, 0x80, 0x3F, 0, 0, 0, 0, 0, 0, 0, 0, 0, 0, 0, 0] 0 =
      .ok (0x0000803F, 0, 0) ∧
    unpack_vector3_96_bit_offset [0, 0, 0x80, 0x3F, 0, 0, 0, 0, 0, 0, 0, 0, 0, 0, 0, 0] 0 ≠
      unpack_vector3_96 [0, 0, 0x80, 0x3F, 0, 0, 0, 0, 0, 0, 0, 0, 0, 0, 0, 0] := by
  refine ⟨rfl, rfl, ?_⟩
  intro h
  have h1 : unpack_vector3_96_bit_offset
      [0, 0, 0x80, 0x3F, 0, 0, 0, 0, 0, 0, 0, 0, 0, 0, 0, 0] 0 = .ok (0x0000803F, 0, 0) := rfl
  have h2 : unpack_vector3_96 [0, 0, 0x80, 0x3F, 0, 0, 0, 0, 0, 0, 0, 0, 0, 0, 0, 0] =
      .ok (0x3F800000, 0, 0) := rfl
  rw [h1, h2] at h
  simp at h

/-- C7: the 72-bit triple on codes.  For codes below `2 ^ 24`, `pack_vector3_72`
succeeds and writes exactly nine bytes (the buffer keeps its length and its
bytes from the tenth on), component `i` occupies the bytes `3i`, `3i + 1`,
`3i + 2` most significant byte first, and the codes `x32`, `y32`, `z32` that the
non-streaming `unpack_vector3_72` rebuilds from the result are the packed
codes. -/
theorem pack_unpack_vector3_72_codes {F : Type} (sp : ScalarPacking F)
    (vector : Vector4_32 F) (is_unsigned : Bool) (X Y Z : Nat) (out : Buffer)
    (hx : sp.pack_scalar_24 is_unsigned vector.x = .ok X)
    (hy : sp.pack_scalar_24 is_unsigned vector.y = .ok Y)
    (hz : sp.pack_scalar_24 is_unsigned vector.z = .ok Z)
    (hX : X < 2 ^ 24) (hY : Y < 2 ^ 24) (hZ : Z < 2 ^ 24) (hout : 9 ≤ out.length) :
    (pack_vector3_72 sp vector is_unsigned out).1 = .ok () ∧
    ((pack_vector3_72 sp vector is_unsigned out).2.take 9).map Fin.val =
      [X / 2 ^ 16, X / 2 ^ 8 % 256, X % 256, Y / 2 ^ 16, Y / 2 ^ 8 % 256, Y % 256,
        Z / 2 ^ 16, Z / 2 ^ 8 % 256, Z % 256] ∧
    (pack_vector3_72 sp vector is_unsigned out).2.drop 9 = out.drop 9 ∧
    (pack_vector3_72 sp vector is_unsigned out).2.length = out.length ∧
    unpack_vector3_72_codes (pack_vector3_72 sp vector is_unsigned out).2 = .ok (X, Y, Z) := by
  obtain ⟨-, -, -, x0, x1, x2⟩ := code_bytes hX
  obtain ⟨-, -, -, y0, y1, y2⟩ := code_bytes hY
  obtain ⟨-, -, -, z0, z1, z2⟩ := code_bytes hZ
  rw [pack_vector3_72_run sp vector is_unsigned X Y Z out hx hy hz hX hY hZ hout]
  refine ⟨rfl, ?_, ?_, ?_, ?_⟩
  · simp [x0, x1, x2, y0, y1, y2, z0, z1, z2]
  · simp
  · simp; omega
  · rw [unpack_vector3_72_codes_run _ (by simp)]
    have e0 := stream_bits_3bytes ([toByte (X >>> 16), toByte ((X >>> 8) &&& 0xFF),
      toByte (X &&& 0xFF), toByte (Y >>> 16), toByte ((Y >>> 8) &&& 0xFF), toByte (Y &&& 0xFF),
      toByte (Z >>> 16), toByte ((Z >>> 8) &&& 0xFF), toByte (Z &&& 0xFF)] ++ out.drop 9) 0
    have e1 := stream_bits_3bytes ([toByte (X >>> 16), toByte ((X >>> 8) &&& 0xFF),
      toByte (X &&& 0xFF), toByte (Y >>> 16), toByte ((Y >>> 8) &&& 0xFF), toByte (Y &&& 0xFF),
      toByte (Z >>> 16), toByte ((Z >>> 8) &&& 0xFF), toByte (Z &&& 0xFF)] ++ out.drop 9) 3
    have e2 := stream_bits_3bytes ([toByte (X >>> 16), toByte ((X >>> 8) &&& 0xFF),
      toByte (X &&& 0xFF), toByte (Y >>> 16), toByte ((Y >>> 8) &&& 0xFF), toByte (Y &&& 0xFF),
      toByte (Z >>> 16), toByte ((Z >>> 8) &&& 0xFF), toByte (Z &&& 0xFF)] ++ out.drop 9) 6
    simp only [List.cons_append, List.nil_append, List.getD_cons_zero, List.getD_cons_succ,
      Nat.mul_zero, Nat.zero_add, Nat.reduceMul, Nat.reduceAdd, x0, x1, x2, y0, y1, y2, z0, z1,
      z2] at e0 e1 e2
    simp only [List.cons_append, List.nil_append]
    rw [e0, e1, e2]
    have ex : X / 2 ^ 16 * 2 ^ 16 + X / 2 ^ 8 % 256 * 2 ^ 8 + X % 256 = X := by omega
    have ey : Y / 2 ^ 16 * 2 ^ 16 + Y / 2 ^ 8 % 256 * 2 ^ 8 + Y % 256 = Y := by omega
    have ez : Z / 2 ^ 16 * 2 ^ 16 + Z / 2 ^ 8 % 256 * 2 ^ 8 + Z % 256 = Z := by omega
    rw [ex, ey, ez]

/-- Witness of `pack_unpack_vector3_72_codes`: three 24-bit codes packed into a
buffer of ten bytes. -/
theorem pack_unpack_vector3_72_codes_witness :
    unpack_vector3_72_codes (pack_vector3_72 code_quantizer ⟨0x123456, 0xABCDEF, 0x010203, 0⟩
      true [0, 0, 0, 0, 0, 0, 0, 0, 0, 7]).2 = .ok (0x123456, 0xABCDEF, 0x010203) :=
  (pack_unpack_vector3_72_codes code_quantizer ⟨0x123456, 0xABCDEF, 0x010203, 0⟩ true 0x123456
    0xABCDEF 0x010203 [0, 0, 0, 0, 0, 0, 0, 0, 0, 7] rfl rfl rfl (by decide) (by decide)
    (by decide) (by decide)).2.2.2.2

/-- C8: the width sum of the 32-bit triple is enforced.  When the widths do not
sum to 32 (the sum is taken without wrap-around), `pack_vector3_32` fails with a
precondition violation and leaves the output buffer as it was, and
`unpack_vector3_32` fails with a precondition violation.  When they sum to 32
the check does not fail: `pack_vector3_32`, on codes of the quantizer that fit
their widths, never ends in a precondition violation and succeeds on a buffer
of at least four bytes; the code extraction of `unpack_vector3_32` never ends
in a precondition violation, and for widths of at least one bit on a buffer of
at least four bytes it succeeds and `unpack_vector3_32` returns what the
quantizer decodes from its codes. -/
theorem vector3_32_width_sum_enforced {F : Type} (sp : ScalarPacking F)
    (vector : Vector4_32 F) (is_unsigned : Bool) (XBits YBits ZBits : Nat)
    (buffer : Buffer) :
    (XBits + YBits + ZBits ≠ 32 →
      pack_vector3_32 sp vector XBits YBits ZBits is_unsigned buffer =
        (.error .precondition, buffer) ∧
      unpack_vector3_32 sp XBits YBits ZBits is_unsigned buffer = .error .precondition) ∧
    (XBits + YBits + ZBits = 32 →
      (∀ X Y Z : Nat,
        sp.pack_scalar is_unsigned vector.x XBits = .ok X →
        sp.pack_scalar is_unsigned vector.y YBits = .ok Y →
        sp.pack_scalar is_unsigned vector.z ZBits = .ok Z →
        X < 2 ^ XBits → Y < 2 ^ YBits → Z < 2 ^ ZBits →
        (pack_vector3_32 sp vector XBits YBits ZBits is_unsigned buffer).1 ≠
          .error .precondition ∧
        (4 ≤ buffer.length →
          (pack_vector3_32 sp vector XBits YBits ZBits is_unsigned buffer).1 = .ok ())) ∧
      unpack_vector3_32_codes XBits YBits ZBits buffer ≠ .error .precondition ∧
      (1 ≤ XBits → 1 ≤ YBits → 1 ≤ ZBits → 4 ≤ buffer.length →
        ∃ x32 y32 z32,
          unpack_vector3_32_codes XBits YBits ZBits buffer = .ok (x32, y32, z32) ∧
          ∀ x y z : F,
            sp.unpack_scalar is_unsigned x32 XBits = .ok x →
            sp.unpack_scalar is_unsigned y32 YBits = .ok y →
            sp.unpack_scalar is_unsigned z32 ZBits = .ok z →
            unpack_vector3_32 sp XBits YBits ZBits is_unsigned buffer = .ok (x, y, z))) := by
  constructor
  · intro h
    constructor
    · simp [pack_vector3_32, Exec.bind_run, Exec.monadLift_run, ACL_ENSURE, h]
    · simp [unpack_vector3_32, unpack_vector3_32_codes, ACL_ENSURE, h, bind, Except.bind]
  · intro hsum
    refine ⟨?_, unpack_vector3_32_codes_not_precondition XBits YBits ZBits buffer hsum, ?_⟩
    · intro X Y Z hx hy hz hX hY hZ
      refine ⟨pack_vector3_32_not_precondition sp vector is_unsigned XBits YBits ZBits X Y Z
        buffer hsum hx hy hz hX hY hZ, fun hout => ?_⟩
      rw [pack_vector3_32_run sp vector is_unsigned XBits YBits ZBits X Y Z buffer hsum hx hy hz
        hX hY hZ hout]
    · intro hXBits hYBits hZBits hdata
      obtain ⟨x32, y32, z32, hcodes⟩ := unpack_vector3_32_codes_succeeds XBits YBits ZBits
        buffer hXBits hYBits hZBits hsum hdata
      exact ⟨x32, y32, z32, hcodes, fun x y z hx hy hz =>
        unpack_vector3_32_of_codes sp XBits YBits ZBits is_unsigned buffer x32 y32 z32 x y z
          hcodes hx hy hz⟩

/-- Witness of `vector3_32_width_sum_enforced`: the widths 10, 10, 11 of sum
31 are rejected, and with the widths 11, 11, 10 of sum 32 the packer succeeds
and the unpacker returns a triple. -/
theorem vector3_32_width_sum_enforced_witness :
    (pack_vector3_32 code_quantizer ⟨5, 6, 7, 0⟩ 10 10 11 true [1, 2, 3, 4] =
        (.error .precondition, [1, 2, 3, 4]) ∧
      unpack_vector3_32 code_quantizer 10 10 11 true [1, 2, 3, 4] = .error .precondition) ∧
    ((pack_vector3_32 code_quantizer ⟨5, 6, 7, 0⟩ 11 11 10 true [1, 2, 3, 4]).1 ≠
        .error .precondition ∧
      (4 ≤ [(1 : Byte), 2, 3, 4].length →
        (pack_vector3_32 code_quantizer ⟨5, 6, 7, 0⟩ 11 11 10 true [1, 2, 3, 4]).1 =
          .ok ())) ∧
    (∃ x32 y32 z32,
      unpack_vector3_32_codes 11 11 10 [1, 2, 3, 4] = .ok (x32, y32, z32) ∧
      ∀ x y z : Nat,
        code_quantizer.unpack_scalar true x32 11 = .ok x →
        code_quantizer.unpack_scalar true y32 11 = .ok y →
        code_quantizer.unpack_scalar true z32 10 = .ok z →
        unpack_vector3_32 code_quantizer 11 11 10 true [1, 2, 3, 4] = .ok (x, y, z)) :=
  ⟨(vector3_32_width_sum_enforced code_quantizer ⟨5, 6, 7, 0⟩ true 10 10 11 [1, 2, 3, 4]).1
      (by decide),
    ((vector3_32_width_sum_enforced code_quantizer ⟨5, 6, 7, 0⟩ true 11 11 10
      [1, 2, 3, 4]).2 (by decide)).1 5 6 7 rfl rfl rfl (by decide) (by decide) (by decide),
    ((vector3_32_width_sum_enforced code_quantizer ⟨5, 6, 7, 0⟩ true 11 11 10
      [1, 2, 3, 4]).2 (by decide)).2.2 (by decide) (by decide) (by decide) (by decide)⟩

/-- C9, as amended: `pack_vector3_n` and the non-streaming `unpack_vector3_n`
do not check the sum of the widths, and a sum above 64 is no precondition
violation for them.  Whatever the sum, for `YBits` and `ZBits` of at most 30:
`pack_vector3_n` succeeds when the quantizer gives its codes and the buffer
holds 8 bytes; and on every buffer of at least 8 bytes the code extraction of
`unpack_vector3_n` succeeds, with the fields of the 64-bit word the buffer
starts with. -/
theorem vector3_n_width_sum_unchecked {F : Type} (sp : ScalarPacking F)
    (vector : Vector4_32 F) (is_unsigned : Bool) (XBits YBits ZBits X Y Z : Nat)
    (out vector_data : Buffer)
    (hYBits : YBits ≤ 30) (hZBits : ZBits ≤ 30)
    (hx : sp.pack_scalar is_unsigned vector.x XBits = .ok X)
    (hy : sp.pack_scalar is_unsigned vector.y YBits = .ok Y)
    (hz : sp.pack_scalar is_unsigned vector.z ZBits = .ok Z)
    (hZ : Z < 2 ^ 64) (hout : 8 ≤ out.length) (hdata : 8 ≤ vector_data.length) :
    (pack_vector3_n sp vector XBits YBits ZBits is_unsigned out).1 = .ok () ∧
    ∃ word, load_u64 vector_data 0 = .ok word ∧
      unpack_vector3_n_codes YBits ZBits vector_data =
        .ok (word / 2 ^ (YBits + ZBits), word / 2 ^ ZBits % 2 ^ YBits, word % 2 ^ ZBits) := by
  rw [pack_vector3_n_run sp vector is_unsigned XBits YBits ZBits X Y Z out hx hy hz (by omega)
    hZ hout]
  refine ⟨rfl, _, load_u64_ok (by omega), ?_⟩
  exact unpack_vector3_n_codes_of_word YBits ZBits _ _ hYBits hZBits (load_u64_ok (by omega))

/-- Witness of `vector3_n_width_sum_unchecked`: the widths 30, 30, 5 of sum
65. -/
theorem vector3_n_width_sum_unchecked_witness :
    (pack_vector3_n code_quantizer ⟨536870912, 1, 1, 0⟩ 30 30 5 true
      [0, 0, 0, 0, 0, 0, 0, 0]).1 = .ok () :=
  (vector3_n_width_sum_unchecked code_quantizer ⟨536870912, 1, 1, 0⟩ true 30 30 5 536870912 1 1
    [0, 0, 0, 0, 0, 0, 0, 0] [33, 0, 0, 0, 0, 0, 0, 0] (by decide) (by decide) rfl rfl rfl
    (by decide) (by decide) (by decide)).1

/-- C9, counterexample: with the widths 30, 30, 5 of sum 65 and the codes
`2 ^ 29`, 1, 1 (each in range), `pack_vector3_n` does not fail: it stores the
composed integer truncated to 64 bits, the code of x lost; and the
non-streaming `unpack_vector3_n` does not fail on the result either, it returns
the codes 0, 1, 1. -/
theorem vector3_n_width_sum_65_not_rejected :
    pack_vector3_n code_quantizer ⟨536870912, 1, 1, 0⟩ 30 30 5 true [0, 0, 0, 0, 0, 0, 0, 0] =
      (.ok (), [33, 0, 0, 0, 0, 0, 0, 0]) ∧
    unpack_vector3_n code_quantizer 30 30 5 true [33, 0, 0, 0, 0, 0, 0, 0] = .ok (0, 1, 1) :=
  ⟨rfl, rfl⟩

/-- C10: layout of the 32-bit triple.  For widths that sum to 32 (in particular
widths of at least one bit each) and codes in range, `pack_vector3_32` succeeds, the word
`W = (X << (YBits + ZBits)) | (Y << ZBits) | Z` fits 32 bits, the first 16-bit
unit of the output holds `W >> 16`, the second holds `W & 0xFFFF`, and nothing
but these two units (the first four bytes) is written. -/
theorem pack_vector3_32_layout {F : Type} (sp : ScalarPacking F) (vector : Vector4_32 F)
    (is_unsigned : Bool) (XBits YBits ZBits X Y Z : Nat) (out : Buffer)
    (hsum : XBits + YBits + ZBits = 32)
    (hx : sp.pack_scalar is_unsigned vector.x XBits = .ok X)
    (hy : sp.pack_scalar is_unsigned vector.y YBits = .ok Y)
    (hz : sp.pack_scalar is_unsigned vector.z ZBits = .ok Z)
    (hX : X < 2 ^ XBits) (hY : Y < 2 ^ YBits) (hZ : Z < 2 ^ ZBits)
    (hout : 4 ≤ out.length) :
    (X <<< (YBits + ZBits)) ||| (Y <<< ZBits) ||| Z < 2 ^ 32 ∧
    (pack_vector3_32 sp vector XBits YBits ZBits is_unsigned out).1 = .ok () ∧
    load_u16 (pack_vector3_32 sp vector XBits YBits ZBits is_unsigned out).2 0 =
      .ok (((X <<< (YBits + ZBits)) ||| (Y <<< ZBits) ||| Z) >>> 16) ∧
    load_u16 (pack_vector3_32 sp vector XBits YBits ZBits is_unsigned out).2 1 =
      .ok (((X <<< (YBits + ZBits)) ||| (Y <<< ZBits) ||| Z) &&& 0xFFFF) ∧
    (pack_vector3_32 sp vector XBits YBits ZBits is_unsigned out).2.length = out.length ∧
    ∀ i, 4 ≤ i →
      (pack_vector3_32 sp vector XBits YBits ZBits is_unsigned out).2[i]? = out[i]? := by
  have hW : X * 2 ^ (YBits + ZBits) + Y * 2 ^ ZBits + Z < 2 ^ 32 := by
    rw [← hsum]; exact fields_lt hX hY hZ
  have hb := halves_bytes hW
  have hl := load_u16_stored out
    (toByte ((X * 2 ^ (YBits + ZBits) + Y * 2 ^ ZBits + Z) / 2 ^ 16))
    (toByte ((X * 2 ^ (YBits + ZBits) + Y * 2 ^ ZBits + Z) / 2 ^ 16 / 2 ^ 8))
    (toByte ((X * 2 ^ (YBits + ZBits) + Y * 2 ^ ZBits + Z) % 2 ^ 16))
    (toByte ((X * 2 ^ (YBits + ZBits) + Y * 2 ^ ZBits + Z) % 2 ^ 16 / 2 ^ 8)) hout
  rw [hb.1, hb.2] at hl
  rw [pack_vector3_32_run sp vector is_unsigned XBits YBits ZBits X Y Z out hsum hx hy hz hX hY
    hZ hout, compose_or_eq X hY hZ, Nat.shiftRight_eq_div_pow,
    show (65535 : Nat) = 2 ^ 16 - 1 by norm_num, Nat.and_pow_two_sub_one_eq_mod]
  refine ⟨hW, rfl, hl.1, hl.2, by simp, ?_⟩
  intro i hi
  simp only [List.getElem?_set]
  rw [if_neg (by omega), if_neg (by omega), if_neg (by omega), if_neg (by omega)]

/-- Witness of `pack_vector3_32_layout`: the codes 5, 6, 7 on widths 11, 11,
10. -/
theorem pack_vector3_32_layout_witness :
    load_u16 (pack_vector3_32 code_quantizer ⟨5, 6, 7, 0⟩ 11 11 10 true [0, 0, 0, 0, 9]).2 0 =
      .ok ((((5 : Nat) <<< (11 + 10)) ||| ((6 : Nat) <<< 10) ||| 7) >>> 16) :=
  (pack_vector3_32_layout code_quantizer ⟨5, 6, 7, 0⟩ true 11 11 10 5 6 7 [0, 0, 0, 0, 9]
    (by decide) rfl rfl rfl (by decide) (by decide)
    (by decide) (by decide)).2.2.1

/-- C11: round-trip error of the quantized fixed formats, in exact arithmetic
with the scalar quantizer of the spec.  For `pack_vector4_64`, `pack_vector3_48`,
`pack_vector4_32`, `pack_vector3_24`, `pack_vector3_72` and `pack_vector3_32`
(widths of at least one bit each that sum to 32), for both signedness settings
and every vector whose packed components lie in the normalized domain, the
packer succeeds, the unpacker succeeds on what it wrote, and every packed
component of the result is within `1 / (2 ^ bits - 1)` of the component of the
input, `bits` being the width of the component. -/
theorem quantized_round_trip_error :
    (∀ (vector : Vector4_32 ℚ) (is_unsigned : Bool) (out : Buffer),
      in_domain is_unsigned vector.x → in_domain is_unsigned vector.y →
      in_domain is_unsigned vector.z → in_domain is_unsigned vector.w → 8 ≤ out.length →
      ∃ result, (pack_vector4_64 spec_quantizer vector is_unsigned out).1 = .ok () ∧
        unpack_vector4_64 spec_quantizer
          (pack_vector4_64 spec_quantizer vector is_unsigned out).2 is_unsigned = .ok result ∧
        |result.x - vector.x| ≤ 1 / (2 ^ 16 - 1) ∧ |result.y - vector.y| ≤ 1 / (2 ^ 16 - 1) ∧
        |result.z - vector.z| ≤ 1 / (2 ^ 16 - 1) ∧ |result.w - vector.w| ≤ 1 / (2 ^ 16 - 1)) ∧
    (∀ (vector : Vector4_32 ℚ) (is_unsigned : Bool) (out : Buffer),
      in_domain is_unsigned vector.x → in_domain is_unsigned vector.y →
      in_domain is_unsigned vector.z → 6 ≤ out.length →
      ∃ x y z, (pack_vector3_48 spec_quantizer vector is_unsigned out).1 = .ok () ∧
        unpack_vector3_48 spec_quantizer
          (pack_vector3_48 spec_quantizer vector is_unsigned out).2 is_unsigned =
          .ok (x, y, z) ∧
        |x - vector.x| ≤ 1 / (2 ^ 16 - 1) ∧ |y - vector.y| ≤ 1 / (2 ^ 16 - 1) ∧
        |z - vector.z| ≤ 1 / (2 ^ 16 - 1)) ∧
    (∀ (vector : Vector4_32 ℚ) (is_unsigned : Bool) (out : Buffer),
      in_domain is_unsigned vector.x → in_domain is_unsigned vector.y →
      in_domain is_unsigned vector.z → in_domain is_unsigned vector.w → 4 ≤ out.length →
      ∃ result, (pack_vector4_32 spec_quantizer vector is_unsigned out).1 = .ok () ∧
        unpack_vector4_32 spec_quantizer
          (pack_vector4_32 spec_quantizer vector is_unsigned out).2 is_unsigned = .ok result ∧
        |result.x - vector.x| ≤ 1 / (2 ^ 8 - 1) ∧ |result.y - vector.y| ≤ 1 / (2 ^ 8 - 1) ∧
        |result.z - vector.z| ≤ 1 / (2 ^ 8 - 1) ∧ |result.w - vector.w| ≤ 1 / (2 ^ 8 - 1)) ∧
    (∀ (vector : Vector4_32 ℚ) (is_unsigned : Bool) (out : Buffer),
      in_domain is_unsigned vector.x → in_domain is_unsigned vector.y →
      in_domain is_unsigned vector.z → 3 ≤ out.length →
      ∃ x y z, (pack_vector3_24 spec_quantizer vector is_unsigned out).1 = .ok () ∧
        unpack_vector3_24 spec_quantizer
          (pack_vector3_24 spec_quantizer vector is_unsigned out).2 is_unsigned =
          .ok (x, y, z) ∧
        |x - vector.x| ≤ 1 / (2 ^ 8 - 1) ∧ |y - vector.y| ≤ 1 / (2 ^ 8 - 1) ∧
        |z - vector.z| ≤ 1 / (2 ^ 8 - 1)) ∧
    (∀ (vector : Vector4_32 ℚ) (is_unsigned : Bool) (out : Buffer),
      in_domain is_unsigned vector.x → in_domain is_unsigned vector.y →
      in_domain is_unsigned vector.z → 9 ≤ out.length →
      ∃ x y z, (pack_vector3_72 spec_quantizer vector is_unsigned out).1 = .ok () ∧
        unpack_vector3_72 spec_quantizer is_unsigned
          (pack_vector3_72 spec_quantizer vector is_unsigned out).2 = .ok (x, y, z) ∧
        |x - vector.x| ≤ 1 / (2 ^ 24 - 1) ∧ |y - vector.y| ≤ 1 / (2 ^ 24 - 1) ∧
        |z - vector.z| ≤ 1 / (2 ^ 24 - 1)) ∧
    (∀ (vector : Vector4_32 ℚ) (XBits YBits ZBits : Nat) (is_unsigned : Bool) (out : Buffer),
      1 ≤ XBits → 1 ≤ YBits → 1 ≤ ZBits → XBits + YBits + ZBits = 32 →
      in_domain is_unsigned vector.x → in_domain is_unsigned vector.y →
      in_domain is_unsigned vector.z → 4 ≤ out.length →
      ∃ x y z,
        (pack_vector3_32 spec_quantizer vector XBits YBits ZBits is_unsigned out).1 = .ok () ∧
        unpack_vector3_32 spec_quantizer XBits YBits ZBits is_unsigned
          (pack_vector3_32 spec_quantizer vector XBits YBits ZBits is_unsigned out).2 =
          .ok (x, y, z) ∧
        |x - vector.x| ≤ 1 / (2 ^ XBits - 1) ∧ |y - vector.y| ≤ 1 / (2 ^ YBits - 1) ∧
        |z - vector.z| ≤ 1 / (2 ^ ZBits - 1)) :=
  ⟨vector4_64_round_trip, vector3_48_round_trip, vector4_32_round_trip, vector3_24_round_trip,
    vector3_72_round_trip, vector3_32_round_trip⟩

/-- Witness of `quantized_round_trip_error`: the signed 24-bit triple of
`(0.5, -0.5, 0.25)`. -/
theorem quantized_round_trip_error_witness :
    ∃ x y z, (pack_vector3_24 spec_quantizer ⟨1 / 2, -1 / 2, 1 / 4, 0⟩ false [0, 0, 0]).1 =
        .ok () ∧
      unpack_vector3_24 spec_quantizer
        (pack_vector3_24 spec_quantizer ⟨1 / 2, -1 / 2, 1 / 4, 0⟩ false [0, 0, 0]).2 false =
        .ok (x, y, z) ∧
      |x - 1 / 2| ≤ 1 / (2 ^ 8 - 1) ∧ |y - -1 / 2| ≤ 1 / (2 ^ 8 - 1) ∧
      |z - 1 / 4| ≤ 1 / (2 ^ 8 - 1) :=
  quantized_round_trip_error.2.2.2.1 ⟨1 / 2, -1 / 2, 1 / 4, 0⟩ false [0, 0, 0]
    (by norm_num [in_domain]) (by norm_num [in_domain]) (by norm_num [in_domain]) (by decide)

/-- C12, as amended: the worked example of the spec.  Packing
`(0.5, -0.5, 0.25)` with `pack_vector3_24` in signed mode, the quantizer mapping
each component by `(v + 1) / 2 * 255` rounded to the nearest integer, writes
the bytes 191, 64, 159 (the code of y is 64: 63.75 rounds to 64), and
`unpack_vector3_24` on those bytes returns `(127/255, -127/255, 63/255)`, each
component within `1/255` of the original. -/
theorem worked_example_24 :
    pack_vector3_24 spec_quantizer ⟨1 / 2, -1 / 2, 1 / 4, 0⟩ false [0, 0, 0] =
      (.ok (), [191, 64, 159]) ∧
    unpack_vector3_24 spec_quantizer [191, 64, 159] false =
      .ok (127 / 255, -127 / 255, 63 / 255) ∧
    |(127 / 255 : ℚ) - 1 / 2| ≤ 1 / 255 ∧ |(-127 / 255 : ℚ) - -1 / 2| ≤ 1 / 255 ∧
    |(63 / 255 : ℚ) - 1 / 4| ≤ 1 / 255 := by
  refine ⟨worked_example_bytes 0, worked_example_unpacked, ?_, ?_, ?_⟩ <;>
    · rw [abs_le]; constructor <;> norm_num

/-- C12, counterexample: the bytes `pack_vector3_24` writes for
`(0.5, -0.5, 0.25)` in signed mode are not 191, 63, 159: the byte of y is
64.  The bytes 191, 63, 159 unpack to y = -129/255, which is further than
`1/255` from -0.5. -/
theorem worked_example_24_not_63 :
    (pack_vector3_24 spec_quantizer ⟨1 / 2, -1 / 2, 1 / 4, 0⟩ false [0, 0, 0]).2 ≠
      [191, 63, 159] ∧
    unpack_vector3_24 spec_quantizer [191, 63, 159] false =
      .ok (127 / 255, -129 / 255, 63 / 255) ∧
    ¬ |(-129 / 255 : ℚ) - -1 / 2| ≤ 1 / 255 := by
  refine ⟨?_, ?_, ?_⟩
  · rw [worked_example_bytes 0]
    decide
  · have hx : spec_quantizer.unpack_scalar false 191 8 = .ok (127 / 255) := by
      simp only [ScalarPacking.unpack_scalar, spec_quantizer, unpack_scalar_signed]
      rw [if_neg (by simp), if_pos (by norm_num)]
      norm_num
    have hy : spec_quantizer.unpack_scalar false 63 8 = .ok (-129 / 255) := by
      simp only [ScalarPacking.unpack_scalar, spec_quantizer, unpack_scalar_signed]
      rw [if_neg (by simp), if_pos (by norm_num)]
      norm_num
    have hz : spec_quantizer.unpack_scalar false 159 8 = .ok (63 / 255) := by
      simp only [ScalarPacking.unpack_scalar, spec_quantizer, unpack_scalar_signed]
      rw [if_neg (by simp), if_pos (by norm_num)]
      norm_num
    have hc : unpack_vector3_24_codes [191, 63, 159] = .ok (191, 63, 159) :=
      @unpack_vector3_24_codes_stored 191 63 159 [] (by norm_num) (by norm_num) (by norm_num)
    simp only [unpack_vector3_24, hc, hx, hy, hz, bind, Except.bind, pure, Except.pure,
      vector_set]
  · rw [abs_le]
    norm_num

/-- C13: boundary values.  With the scalar quantizer of the spec, for each of
`pack_vector4_64`, `pack_vector3_48`, `pack_vector4_32`, `pack_vector3_24`,
`pack_vector3_72` and `pack_vector3_32` (widths of at least one bit each that
sum to 32), both signedness settings and every vector of the normalized
domain, the packer succeeds and the field of each component, read back from
the output, holds the code of that component alone; that code is 0 when the
component is the lower end of the domain (0 unsigned, -1 signed) and
`2 ^ bits - 1` when the component is 1.  In particular `pack_vector3_72`
unsigned on `(0, 1, 0)` writes the bytes `00 00 00 FF FF FF 00 00 00`. -/
theorem boundary_values :
    (∀ (vector : Vector4_32 ℚ) (is_unsigned : Bool) (out : Buffer),
      in_domain is_unsigned vector.x → in_domain is_unsigned vector.y →
      in_domain is_unsigned vector.z → in_domain is_unsigned vector.w → 8 ≤ out.length →
      ∃ cx cy cz cw, (pack_vector4_64 spec_quantizer vector is_unsigned out).1 = .ok () ∧
        unpack_vector4_64_codes (pack_vector4_64 spec_quantizer vector is_unsigned out).2 =
          .ok (cx, cy, cz, cw) ∧
        boundary_code is_unsigned vector.x 16 cx ∧ boundary_code is_unsigned vector.y 16 cy ∧
        boundary_code is_unsigned vector.z 16 cz ∧ boundary_code is_unsigned vector.w 16 cw) ∧
    (∀ (vector : Vector4_32 ℚ) (is_unsigned : Bool) (out : Buffer),
      in_domain is_unsigned vector.x → in_domain is_unsigned vector.y →
      in_domain is_unsigned vector.z → 6 ≤ out.length →
      ∃ cx cy cz, (pack_vector3_48 spec_quantizer vector is_unsigned out).1 = .ok () ∧
        unpack_vector3_48_codes (pack_vector3_48 spec_quantizer vector is_unsigned out).2 =
          .ok (cx, cy, cz) ∧
        boundary_code is_unsigned vector.x 16 cx ∧ boundary_code is_unsigned vector.y 16 cy ∧
        boundary_code is_unsigned vector.z 16 cz) ∧
    (∀ (vector : Vector4_32 ℚ) (is_unsigned : Bool) (out : Buffer),
      in_domain is_unsigned vector.x → in_domain is_unsigned vector.y →
      in_domain is_unsigned vector.z → in_domain is_unsigned vector.w → 4 ≤ out.length →
      ∃ cx cy cz cw, (pack_vector4_32 spec_quantizer vector is_unsigned out).1 = .ok () ∧
        unpack_vector4_32_codes (pack_vector4_32 spec_quantizer vector is_unsigned out).2 =
          .ok (cx, cy, cz, cw) ∧
        boundary_code is_unsigned vector.x 8 cx ∧ boundary_code is_unsigned vector.y 8 cy ∧
        boundary_code is_unsigned vector.z 8 cz ∧ boundary_code is_unsigned vector.w 8 cw) ∧
    (∀ (vector : Vector4_32 ℚ) (is_unsigned : Bool) (out : Buffer),
      in_domain is_unsigned vector.x → in_domain is_unsigned vector.y →
      in_domain is_unsigned vector.z → 3 ≤ out.length →
      ∃ cx cy cz, (pack_vector3_24 spec_quantizer vector is_unsigned out).1 = .ok () ∧
        unpack_vector3_24_codes (pack_vector3_24 spec_quantizer vector is_unsigned out).2 =
          .ok (cx, cy, cz) ∧
        boundary_code is_unsigned vector.x 8 cx ∧ boundary_code is_unsigned vector.y 8 cy ∧
        boundary_code is_unsigned vector.z 8 cz) ∧
    (∀ (vector : Vector4_32 ℚ) (is_unsigned : Bool) (out : Buffer),
      in_domain is_unsigned vector.x → in_domain is_unsigned vector.y →
      in_domain is_unsigned vector.z → 9 ≤ out.length →
      ∃ cx cy cz, (pack_vector3_72 spec_quantizer vector is_unsigned out).1 = .ok () ∧
        unpack_vector3_72_codes (pack_vector3_72 spec_quantizer vector is_unsigned out).2 =
          .ok (cx, cy, cz) ∧
        boundary_code is_unsigned vector.x 24 cx ∧ boundary_code is_unsigned vector.y 24 cy ∧
        boundary_code is_unsigned vector.z 24 cz) ∧
    (∀ (vector : Vector4_32 ℚ) (XBits YBits ZBits : Nat) (is_unsigned : Bool) (out : Buffer),
      1 ≤ XBits → 1 ≤ YBits → 1 ≤ ZBits → XBits + YBits + ZBits = 32 →
      in_domain is_unsigned vector.x → in_domain is_unsigned vector.y →
      in_domain is_unsigned vector.z → 4 ≤ out.length →
      ∃ cx cy cz,
        (pack_vector3_32 spec_quantizer vector XBits YBits ZBits is_unsigned out).1 = .ok () ∧
        unpack_vector3_32_codes XBits YBits ZBits
          (pack_vector3_32 spec_quantizer vector XBits YBits ZBits is_unsigned out).2 =
          .ok (cx, cy, cz) ∧
        boundary_code is_unsigned vector.x XBits cx ∧
        boundary_code is_unsigned vector.y YBits cy ∧
        boundary_code is_unsigned vector.z ZBits cz) ∧
    (∀ (w : ℚ) (out : Buffer), out.length = 9 →
      pack_vector3_72 spec_quantizer ⟨0, 1, 0, w⟩ true out =
        (.ok (), [0, 0, 0, 255, 255, 255, 0, 0, 0])) :=
  ⟨vector4_64_boundary, vector3_48_boundary, vector4_32_boundary, vector3_24_boundary,
    vector3_72_boundary, vector3_32_boundary, boundary_example_72⟩

/-- Witness of `boundary_values`: `pack_vector3_72` unsigned on `(0, 1, 0)`. -/
theorem boundary_values_witness :
    (∃ cx cy cz, (pack_vector3_72 spec_quantizer ⟨0, 1, 0, 0⟩ true
          [7, 7, 7, 7, 7, 7, 7, 7, 7]).1 = .ok () ∧
        unpack_vector3_72_codes (pack_vector3_72 spec_quantizer ⟨0, 1, 0, 0⟩ true
          [7, 7, 7, 7, 7, 7, 7, 7, 7]).2 = .ok (cx, cy, cz) ∧
        boundary_code true 0 24 cx ∧ boundary_code true 1 24 cy ∧ boundary_code true 0 24 cz) ∧
    pack_vector3_72 spec_quantizer ⟨0, 1, 0, 0⟩ true [7, 7, 7, 7, 7, 7, 7, 7, 7] =
      (.ok (), [0, 0, 0, 255, 255, 255, 0, 0, 0]) :=
  ⟨boundary_values.2.2.2.2.1 ⟨0, 1, 0, 0⟩ true [7, 7, 7, 7, 7, 7, 7, 7, 7]
      (by norm_num [in_domain]) (by norm_num [in_domain]) (by norm_num [in_domain])
      (by decide),
    boundary_values.2.2.2.2.2.2 0 [7, 7, 7, 7, 7, 7, 7, 7, 7] rfl⟩

/-- C14: the format size table.  `get_packed_vector_size` returns 12 for
`Vector3_96`, 6 for `Vector3_48` and 4 for `Vector3_32`, and each is the number
of bytes the packer of the format writes.  `pack_vector3_96` succeeds exactly
on an output of at least 12 bytes and replaces its first 12 bytes by the three
floats, four bytes each; `pack_vector3_48` succeeds exactly on an output of at
least 6 bytes and replaces its first 6 bytes by the three 16-bit units of the
codes; `pack_vector3_32` succeeds exactly on an output of at least 4 bytes and
replaces its first 4 bytes by the two 16-bit units of the composed word.  The
bytes written do not depend on what the output held, the length of the output
is kept and every byte after the written ones is as it was. -/
theorem get_packed_vector_size_table :
    get_packed_vector_size .Vector3_96 = .ok 12 ∧
    get_packed_vector_size .Vector3_48 = .ok 6 ∧
    get_packed_vector_size .Vector3_32 = .ok 4 ∧
    (∀ (vector : Vector4_32 Nat) (out : Buffer),
      ((pack_vector3_96 vector out).1 = .ok () ↔ 12 ≤ out.length) ∧
      (pattern_bytes vector.x ++ pattern_bytes vector.y ++ pattern_bytes vector.z).length = 12 ∧
      (12 ≤ out.length →
        pack_vector3_96 vector out =
          (.ok (), pattern_bytes vector.x ++ pattern_bytes vector.y ++ pattern_bytes vector.z ++
            out.drop 12) ∧
        (pack_vector3_96 vector out).2.length = out.length ∧
        (pack_vector3_96 vector out).2.drop 12 = out.drop 12)) ∧
    (∀ {F : Type} (sp : ScalarPacking F) (vector : Vector4_32 F) (is_unsigned : Bool)
      (X Y Z : Nat) (out : Buffer),
      sp.pack_scalar is_unsigned vector.x 16 = .ok X →
      sp.pack_scalar is_unsigned vector.y 16 = .ok Y →
      sp.pack_scalar is_unsigned vector.z 16 = .ok Z →
      X < 2 ^ 16 → Y < 2 ^ 16 → Z < 2 ^ 16 →
      ((pack_vector3_48 sp vector is_unsigned out).1 = .ok () ↔ 6 ≤ out.length) ∧
      [toByte X, toByte (X / 2 ^ 8), toByte Y, toByte (Y / 2 ^ 8), toByte Z,
        toByte (Z / 2 ^ 8)].length = 6 ∧
      (6 ≤ out.length →
        pack_vector3_48 sp vector is_unsigned out =
          (.ok (), [toByte X, toByte (X / 2 ^ 8), toByte Y, toByte (Y / 2 ^ 8), toByte Z,
            toByte (Z / 2 ^ 8)] ++ out.drop 6) ∧
        (pack_vector3_48 sp vector is_unsigned out).2.length = out.length ∧
        (pack_vector3_48 sp vector is_unsigned out).2.drop 6 = out.drop 6)) ∧
    (∀ {F : Type} (sp : ScalarPacking F) (vector : Vector4_32 F) (is_unsigned : Bool)
      (XBits YBits ZBits X Y Z : Nat) (out : Buffer),
      XBits + YBits + ZBits = 32 →
      sp.pack_scalar is_unsigned vector.x XBits = .ok X →
      sp.pack_scalar is_unsigned vector.y YBits = .ok Y →
      sp.pack_scalar is_unsigned vector.z ZBits = .ok Z →
      X < 2 ^ XBits → Y < 2 ^ YBits → Z < 2 ^ ZBits →
      ((pack_vector3_32 sp vector XBits YBits ZBits is_unsigned out).1 = .ok () ↔
        4 ≤ out.length) ∧
      [toByte ((X * 2 ^ (YBits + ZBits) + Y * 2 ^ ZBits + Z) / 2 ^ 16),
        toByte ((X * 2 ^ (YBits + ZBits) + Y * 2 ^ ZBits + Z) / 2 ^ 16 / 2 ^ 8),
        toByte ((X * 2 ^ (YBits + ZBits) + Y * 2 ^ ZBits + Z) % 2 ^ 16),
        toByte ((X * 2 ^ (YBits + ZBits) + Y * 2 ^ ZBits + Z) % 2 ^ 16 / 2 ^ 8)].length = 4 ∧
      (4 ≤ out.length →
        pack_vector3_32 sp vector XBits YBits ZBits is_unsigned out =
          (.ok (), [toByte ((X * 2 ^ (YBits + ZBits) + Y * 2 ^ ZBits + Z) / 2 ^ 16),
            toByte ((X * 2 ^ (YBits + ZBits) + Y * 2 ^ ZBits + Z) / 2 ^ 16 / 2 ^ 8),
            toByte ((X * 2 ^ (YBits + ZBits) + Y * 2 ^ ZBits + Z) % 2 ^ 16),
            toByte ((X * 2 ^ (YBits + ZBits) + Y * 2 ^ ZBits + Z) % 2 ^ 16 / 2 ^ 8)] ++
            out.drop 4) ∧
        (pack_vector3_32 sp vector XBits YBits ZBits is_unsigned out).2.length = out.length ∧
        (pack_vector3_32 sp vector XBits YBits ZBits is_unsigned out).2.drop 4 =
          out.drop 4)) := by
  refine ⟨rfl, rfl, rfl, ?_, ?_, ?_⟩
  · intro vector out
    refine ⟨⟨?_, ?_⟩, rfl, ?_⟩
    · intro h
      by_contra hlt
      rw [pack_vector3_96, vector_unaligned_write3_short vector out (by omega)] at h
      simp at h
    · intro h
      rw [pack_vector3_96, vector_unaligned_write3_run vector out h]
    · intro h
      rw [pack_vector3_96, vector_unaligned_write3_run vector out h]
      refine ⟨rfl, ?_, ?_⟩
      · simp [pattern_bytes]
        omega
      · simp [pattern_bytes]
  · intro F sp vector is_unsigned X Y Z out hx hy hz hX hY hZ
    refine ⟨⟨?_, ?_⟩, rfl, ?_⟩
    · intro h
      by_contra hlt
      rw [pack_vector3_48_short sp vector is_unsigned X Y Z out hx hy hz hX hY hZ
        (by omega)] at h
      simp at h
    · intro h
      rw [pack_vector3_48_run sp vector is_unsigned X Y Z out hx hy hz hX hY hZ h]
    · intro h
      rw [pack_vector3_48_run sp vector is_unsigned X Y Z out hx hy hz hX hY hZ h]
      refine ⟨rfl, ?_, ?_⟩
      · simp
        omega
      · simp
  · intro F sp vector is_unsigned XBits YBits ZBits X Y Z out hsum hx hy hz hX hY hZ
    refine ⟨⟨?_, ?_⟩, rfl, ?_⟩
    · intro h
      by_contra hlt
      rw [pack_vector3_32_short sp vector is_unsigned XBits YBits ZBits X Y Z out hsum hx hy
        hz hX hY hZ (by omega)] at h
      simp at h
    · intro h
      rw [pack_vector3_32_written sp vector is_unsigned XBits YBits ZBits X Y Z out hsum hx hy
        hz hX hY hZ h]
    · intro h
      rw [pack_vector3_32_written sp vector is_unsigned XBits YBits ZBits X Y Z out hsum hx hy
        hz hX hY hZ h]
      refine ⟨rfl, ?_, ?_⟩
      · simp
        omega
      · simp

/-- Witness of `get_packed_vector_size_table`: `pack_vector3_48` writes the
units 0x0105, 0x0206, 0x0307 over the first six of seven bytes, and
`pack_vector3_32` with widths (11, 11, 10) writes the units of the word
0x00A01807 over the first four of five bytes. -/
theorem get_packed_vector_size_table_witness :
    (((pack_vector3_48 code_quantizer ⟨261, 518, 775, 0⟩ true [9, 9, 9, 9, 9, 9, 9]).1 =
        .ok () ↔ 6 ≤ [(9 : Byte), 9, 9, 9, 9, 9, 9].length) ∧
      [toByte 261, toByte (261 / 2 ^ 8), toByte 518, toByte (518 / 2 ^ 8), toByte 775,
        toByte (775 / 2 ^ 8)].length = 6 ∧
      (6 ≤ [(9 : Byte), 9, 9, 9, 9, 9, 9].length →
        pack_vector3_48 code_quantizer ⟨261, 518, 775, 0⟩ true [9, 9, 9, 9, 9, 9, 9] =
          (.ok (), [toByte 261, toByte (261 / 2 ^ 8), toByte 518, toByte (518 / 2 ^ 8),
            toByte 775, toByte (775 / 2 ^ 8)] ++ [(9 : Byte), 9, 9, 9, 9, 9, 9].drop 6) ∧
        (pack_vector3_48 code_quantizer ⟨261, 518, 775, 0⟩ true
          [9, 9, 9, 9, 9, 9, 9]).2.length = [(9 : Byte), 9, 9, 9, 9, 9, 9].length ∧
        (pack_vector3_48 code_quantizer ⟨261, 518, 775, 0⟩ true
          [9, 9, 9, 9, 9, 9, 9]).2.drop 6 = [(9 : Byte), 9, 9, 9, 9, 9, 9].drop 6)) ∧
    pack_vector3_48 code_quantizer ⟨261, 518, 775, 0⟩ true [9, 9, 9, 9, 9, 9, 9] =
      (.ok (), [5, 1, 6, 2, 7, 3, 9]) ∧
    pack_vector3_32 code_quantizer ⟨5, 6, 7, 0⟩ 11 11 10 true [9, 9, 9, 9, 9] =
      (.ok (), [160, 0, 7, 24, 9]) :=
  ⟨get_packed_vector_size_table.2.2.2.2.1 code_quantizer ⟨261, 518, 775, 0⟩ true 261 518 775
      [9, 9, 9, 9, 9, 9, 9] rfl rfl rfl (by decide) (by decide) (by decide),
    rfl, rfl⟩

/-- C15: `get_packed_vector_size` fails with a precondition violation exactly
when the format is none of `Vector3_96`, `Vector3_48`, `Vector3_32`: it fails
on the variable-format sentinel and on every unknown tag, and on the three
fixed formats it returns a size. -/
theorem get_packed_vector_size_fails_iff :
    (∀ format : VectorFormat8, get_packed_vector_size format = .error .precondition ↔
      (format ≠ .Vector3_96 ∧ format ≠ .Vector3_48 ∧ format ≠ .Vector3_32)) ∧
    get_packed_vector_size .Vector3_Variable = .error .precondition ∧
    (∀ tag : Nat, get_packed_vector_size (.unknown tag) = .error .precondition) ∧
    (∃ size, get_packed_vector_size .Vector3_96 = .ok size) ∧
    (∃ size, get_packed_vector_size .Vector3_48 = .ok size) ∧
    (∃ size, get_packed_vector_size .Vector3_32 = .ok size) := by
  refine ⟨?_, rfl, fun _ => rfl, ⟨_, rfl⟩, ⟨_, rfl⟩, ⟨_, rfl⟩⟩
  intro format
  cases format <;> simp [get_packed_vector_size, ACL_ENSURE, bind, Except.bind]

/-- C16: `get_range_reduction_vector_size` returns 24 for every format
argument, the variable-format sentinel and unknown tags included: its result
does not depend on its input. -/
theorem get_range_reduction_vector_size_eq (format : VectorFormat8) :
    get_range_reduction_vector_size format = 24 := rfl

/-- C17: the three-component layouts are prefixes of the four-component ones.
When the quantizer gives codes that fit their width, the six bytes (three
16-bit units) `pack_vector3_48` writes are the first six bytes `pack_vector4_64`
writes, the three bytes `pack_vector3_24` writes are the first three bytes
`pack_vector4_32` writes, and the three-component packers leave the bytes
where the four-component packers store w as they were. -/
theorem vector3_layout_is_vector4_start {F : Type} (sp : ScalarPacking F)
    (vector : Vector4_32 F) (is_unsigned : Bool) (out : Buffer) :
    (∀ X Y Z W : Nat,
      sp.pack_scalar is_unsigned vector.x 16 = .ok X →
      sp.pack_scalar is_unsigned vector.y 16 = .ok Y →
      sp.pack_scalar is_unsigned vector.z 16 = .ok Z →
      sp.pack_scalar is_unsigned vector.w 16 = .ok W →
      X < 2 ^ 16 → Y < 2 ^ 16 → Z < 2 ^ 16 → W < 2 ^ 16 → 8 ≤ out.length →
      (pack_vector3_48 sp vector is_unsigned out).1 = .ok () ∧
      (pack_vector4_64 sp vector is_unsigned out).1 = .ok () ∧
      (pack_vector3_48 sp vector is_unsigned out).2.take 6 =
        (pack_vector4_64 sp vector is_unsigned out).2.take 6 ∧
      (pack_vector3_48 sp vector is_unsigned out).2.drop 6 = out.drop 6) ∧
    (∀ X Y Z W : Nat,
      sp.pack_scalar is_unsigned vector.x 8 = .ok X →
      sp.pack_scalar is_unsigned vector.y 8 = .ok Y →
      sp.pack_scalar is_unsigned vector.z 8 = .ok Z →
      sp.pack_scalar is_unsigned vector.w 8 = .ok W →
      X < 2 ^ 8 → Y < 2 ^ 8 → Z < 2 ^ 8 → W < 2 ^ 8 → 4 ≤ out.length →
      (pack_vector3_24 sp vector is_unsigned out).1 = .ok () ∧
      (pack_vector4_32 sp vector is_unsigned out).1 = .ok () ∧
      (pack_vector3_24 sp vector is_unsigned out).2.take 3 =
        (pack_vector4_32 sp vector is_unsigned out).2.take 3 ∧
      (pack_vector3_24 sp vector is_unsigned out).2.drop 3 = out.drop 3) := by
  constructor
  · intro X Y Z W hx hy hz hw hX hY hZ hW hout
    rw [pack_vector3_48_run sp vector is_unsigned X Y Z out hx hy hz hX hY hZ (by omega),
      pack_vector4_64_run sp vector is_unsigned X Y Z W out hx hy hz hw hX hY hZ hW hout]
    exact ⟨rfl, rfl, by simp, by simp⟩
  · intro X Y Z W hx hy hz hw hX hY hZ hW hout
    rw [pack_vector3_24_run sp vector is_unsigned X Y Z out hx hy hz hX hY hZ (by omega),
      pack_vector4_32_run sp vector is_unsigned X Y Z W out hx hy hz hw hX hY hZ hW hout]
    exact ⟨rfl, rfl, by simp, by simp⟩

/-- Witness of `vector3_layout_is_vector4_start`: the codes 500, 600, 700, 800
as 16-bit units on a buffer of eight bytes. -/
theorem vector3_layout_is_vector4_start_witness :
    (pack_vector3_48 code_quantizer ⟨500, 600, 700, 800⟩ true [1, 2, 3, 4, 5, 6, 7, 8]).1 =
      .ok () ∧
    (pack_vector4_64 code_quantizer ⟨500, 600, 700, 800⟩ true [1, 2, 3, 4, 5, 6, 7, 8]).1 =
      .ok () ∧
    (pack_vector3_48 code_quantizer ⟨500, 600, 700, 800⟩ true [1, 2, 3, 4, 5, 6, 7, 8]).2.take 6 =
      (pack_vector4_64 code_quantizer ⟨500, 600, 700, 800⟩ true
        [1, 2, 3, 4, 5, 6, 7, 8]).2.take 6 ∧
    (pack_vector3_48 code_quantizer ⟨500, 600, 700, 800⟩ true [1, 2, 3, 4, 5, 6, 7, 8]).2.drop 6 =
      [(1 : Byte), 2, 3, 4, 5, 6, 7, 8].drop 6 :=
  (vector3_layout_is_vector4_start code_quantizer ⟨500, 600, 700, 800⟩ true
    [1, 2, 3, 4, 5, 6, 7, 8]).1 500 600 700 800 rfl rfl rfl rfl (by decide) (by decide)
    (by decide) (by decide) (by decide)

/-- C18: the lossless round trip.  For every sample of four 32-bit float
patterns (zero and subnormal patterns included) and every output of at least 16
bytes, `pack_vector4_128` succeeds and `unpack_vector4_128`, on the output and
on its first 16 bytes alone, returns the four patterns of the input; for every
output of at least 12 bytes, `pack_vector3_96` succeeds and the non-streaming
`unpack_vector3_96`, on the output and on its first 12 bytes alone, returns the
patterns of x, y and z. -/
theorem lossless_round_trip (vector : Vector4_32 Nat) (out : Buffer)
    (hx : vector.x < 2 ^ 32) (hy : vector.y < 2 ^ 32) (hz : vector.z < 2 ^ 32)
    (hw : vector.w < 2 ^ 32) :
    (16 ≤ out.length →
      (pack_vector4_128 vector out).1 = .ok () ∧
      unpack_vector4_128 (pack_vector4_128 vector out).2 = .ok vector ∧
      unpack_vector4_128 ((pack_vector4_128 vector out).2.take 16) = .ok vector) ∧
    (12 ≤ out.length →
      (pack_vector3_96 vector out).1 = .ok () ∧
      unpack_vector3_96 (pack_vector3_96 vector out).2 = .ok (vector.x, vector.y, vector.z) ∧
      unpack_vector3_96 ((pack_vector3_96 vector out).2.take 12) =
        .ok (vector.x, vector.y, vector.z)) := by
  constructor
  · intro hout
    have htake : (pattern_bytes vector.x ++ pattern_bytes vector.y ++ pattern_bytes vector.z ++
        pattern_bytes vector.w ++ out.drop 16).take 16 =
        pattern_bytes vector.x ++ pattern_bytes vector.y ++ pattern_bytes vector.z ++
        pattern_bytes vector.w ++ [] := by
      simp [pattern_bytes]
    rw [pack_vector4_128, vector_unaligned_write_run vector out hout]
    refine ⟨rfl, ?_, ?_⟩
    · exact vector_unaligned_load_stored vector.x vector.y vector.z vector.w _ hx hy hz hw
    · show unpack_vector4_128 (List.take 16 _) = _
      rw [htake]
      exact vector_unaligned_load_stored vector.x vector.y vector.z vector.w _ hx hy hz hw
  · intro hout
    have htake : (pattern_bytes vector.x ++ pattern_bytes vector.y ++ pattern_bytes vector.z ++
        out.drop 12).take 12 =
        pattern_bytes vector.x ++ pattern_bytes vector.y ++ pattern_bytes vector.z ++ [] := by
      simp [pattern_bytes]
    rw [pack_vector3_96, vector_unaligned_write3_run vector out hout]
    refine ⟨rfl, ?_, ?_⟩
    · exact vector_unaligned_load3_stored vector.x vector.y vector.z _ hx hy hz
    · show unpack_vector3_96 (List.take 12 _) = _
      rw [htake]
      exact vector_unaligned_load3_stored vector.x vector.y vector.z _ hx hy hz

/-- Witness of `lossless_round_trip`: the patterns of 0.0, of the smallest
subnormal, of 1.0 and of -0.0 on a buffer of 16 bytes. -/
theorem lossless_round_trip_witness :
    (16 ≤ (List.replicate 16 (0 : Byte)).length →
      (pack_vector4_128 ⟨0, 1, 0x3F800000, 0x80000000⟩ (List.replicate 16 0)).1 = .ok () ∧
      unpack_vector4_128
        (pack_vector4_128 ⟨0, 1, 0x3F800000, 0x80000000⟩ (List.replicate 16 0)).2 =
        .ok ⟨0, 1, 0x3F800000, 0x80000000⟩ ∧
      unpack_vector4_128
        ((pack_vector4_128 ⟨0, 1, 0x3F800000, 0x80000000⟩ (List.replicate 16 0)).2.take 16) =
        .ok ⟨0, 1, 0x3F800000, 0x80000000⟩) ∧
    (12 ≤ (List.replicate 16 (0 : Byte)).length →
      (pack_vector3_96 ⟨0, 1, 0x3F800000, 0x80000000⟩ (List.replicate 16 0)).1 = .ok () ∧
      unpack_vector3_96
        (pack_vector3_96 ⟨0, 1, 0x3F800000, 0x80000000⟩ (List.replicate 16 0)).2 =
        .ok (0, 1, 0x3F800000) ∧
      unpack_vector3_96
        ((pack_vector3_96 ⟨0, 1, 0x3F800000, 0x80000000⟩ (List.replicate 16 0)).2.take 12) =
        .ok (0, 1, 0x3F800000)) :=
  lossless_round_trip ⟨0, 1, 0x3F800000, 0x80000000⟩ (List.replicate 16 0) (by norm_num)
    (by norm_num) (by norm_num) (by norm_num)

/-- C19: the streaming 96-bit unpacker reads the bitstream at every offset.
For every bit offset `b`, byte-aligned or not, and every buffer that holds the
three 8-byte loads (the last one at byte `(b + 64) / 8`), the cursor advancing
by 64 within 64 bits, the values `x64`, `y64`, `z64` of the streaming
`unpack_vector3_96` are the unsigned integers formed by the bits `[b, b + 32)`,
`[b + 32, b + 64)` and `[b + 64, b + 96)` of the buffer read as a big-endian
bitstream, and each is below `2 ^ 32`. -/
theorem unpack_vector3_96_bit_offset_codes_eq_stream (vector_data : Buffer) (b : Nat)
    (hlen : (b + 64) / 8 + 8 ≤ vector_data.length) (hcursor : b + 64 < 2 ^ 64) :
    ∃ x64 y64 z64, unpack_vector3_96_bit_offset_codes vector_data b = .ok (x64, y64, z64) ∧
      x64 = stream_bits vector_data b 32 ∧ y64 = stream_bits vector_data (b + 32) 32 ∧
      z64 = stream_bits vector_data (b + 64) 32 ∧
      x64 < 2 ^ 32 ∧ y64 < 2 ^ 32 ∧ z64 < 2 ^ 32 :=
  ⟨_, _, _, unpack_vector3_96_bit_offset_codes_run vector_data b hlen hcursor, rfl, rfl, rfl,
    stream_bits_lt _ _ _, stream_bits_lt _ _ _, stream_bits_lt _ _ _⟩

/-- Witness of `unpack_vector3_96_bit_offset_codes_eq_stream`: bit offset 5 of
a buffer of 17 bytes. -/
theorem unpack_vector3_96_bit_offset_codes_eq_stream_witness :
    ∃ x64 y64 z64,
      unpack_vector3_96_bit_offset_codes
        [1, 2, 3, 4, 5, 6, 7, 8, 9, 10, 11, 12, 13, 14, 15, 16, 17] 5 = .ok (x64, y64, z64) ∧
      x64 = stream_bits [1, 2, 3, 4, 5, 6, 7, 8, 9, 10, 11, 12, 13, 14, 15, 16, 17] 5 32 ∧
      y64 = stream_bits [1, 2, 3, 4, 5, 6, 7, 8, 9, 10, 11, 12, 13, 14, 15, 16, 17] (5 + 32) 32 ∧
      z64 = stream_bits [1, 2, 3, 4, 5, 6, 7, 8, 9, 10, 11, 12, 13, 14, 15, 16, 17] (5 + 64) 32 ∧
      x64 < 2 ^ 32 ∧ y64 < 2 ^ 32 ∧ z64 < 2 ^ 32 :=
  unpack_vector3_96_bit_offset_codes_eq_stream
    [1, 2, 3, 4, 5, 6, 7, 8, 9, 10, 11, 12, 13, 14, 15, 16, 17] 5 (by decide) (by norm_num)

/-- C20, counterexample: with widths (1, 1, 1) the words 0 and 8 agree on
their low three bits, yet the non-streaming `unpack_vector3_n` extracts the
codes (0, 0, 0) from the first and (2, 0, 0) from the second: `x64` is the
whole word shifted right, and 2 is more than `2 ^ 1 - 1`. -/
theorem unpack_vector3_n_codes_high_bits :
    load_u64 [0, 0, 0, 0, 0, 0, 0, 0] 0 = .ok 0 ∧
    load_u64 [8, 0, 0, 0, 0, 0, 0, 0] 0 = .ok 8 ∧
    0 % 2 ^ (1 + 1 + 1) = 8 % 2 ^ (1 + 1 + 1) ∧
    unpack_vector3_n_codes 1 1 [0, 0, 0, 0, 0, 0, 0, 0] = .ok (0, 0, 0) ∧
    unpack_vector3_n_codes 1 1 [8, 0, 0, 0, 0, 0, 0, 0] = .ok (2, 0, 0) ∧
    ¬ 2 ≤ 2 ^ 1 - 1 :=
  ⟨rfl, rfl, rfl, rfl, rfl, by decide⟩

/-- C20, as amended: the bits the non-streaming `unpack_vector3_n` reads.  For
`YBits` and `ZBits` at most 30 and two 64-bit input words that agree on their
low `XBits + YBits + ZBits` bits, the codes `y64` and `z64` are equal for both
words and at most `2 ^ width - 1`; `x64` is the whole word shifted right by
`YBits + ZBits`, not masked: its low `XBits` bits are equal for both words, it
is at most `2 ^ XBits - 1` exactly when the word is below
`2 ^ (XBits + YBits + ZBits)`, and it is equal for both words when both are
below that bound. -/
theorem unpack_vector3_n_codes_bits_used (XBits YBits ZBits word1 word2 : Nat)
    (data1 data2 : Buffer) (hYBits : YBits ≤ 30) (hZBits : ZBits ≤ 30)
    (hword1 : load_u64 data1 0 = .ok word1) (hword2 : load_u64 data2 0 = .ok word2)
    (hagree : word1 % 2 ^ (XBits + YBits + ZBits) = word2 % 2 ^ (XBits + YBits + ZBits)) :
    ∃ x1 y1 z1 x2 y2 z2,
      unpack_vector3_n_codes YBits ZBits data1 = .ok (x1, y1, z1) ∧
      unpack_vector3_n_codes YBits ZBits data2 = .ok (x2, y2, z2) ∧
      y1 = y2 ∧ z1 = z2 ∧ y1 ≤ 2 ^ YBits - 1 ∧ z1 ≤ 2 ^ ZBits - 1 ∧
      x1 = word1 / 2 ^ (YBits + ZBits) ∧ x2 = word2 / 2 ^ (YBits + ZBits) ∧
      x1 % 2 ^ XBits = x2 % 2 ^ XBits ∧
      (x1 ≤ 2 ^ XBits - 1 ↔ word1 < 2 ^ (XBits + YBits + ZBits)) ∧
      (x2 ≤ 2 ^ XBits - 1 ↔ word2 < 2 ^ (XBits + YBits + ZBits)) ∧
      (word1 < 2 ^ (XBits + YBits + ZBits) → word2 < 2 ^ (XBits + YBits + ZBits) →
        x1 = x2) := by
  have hpos : ∀ k : Nat, 0 < 2 ^ k := fun k => Nat.pow_pos (by norm_num)
  have hn : 2 ^ (XBits + YBits + ZBits) = 2 ^ (YBits + ZBits) * 2 ^ XBits := by
    rw [← pow_add]; congr 1; omega
  have hyz : 2 ^ (YBits + ZBits) = 2 ^ ZBits * 2 ^ YBits := by
    rw [← pow_add]; congr 1; omega
  -- agreement on the low YBits + ZBits bits, and on the low ZBits bits
  have hlow : word1 % 2 ^ (YBits + ZBits) = word2 % 2 ^ (YBits + ZBits) := by
    have hd : 2 ^ (YBits + ZBits) ∣ 2 ^ (XBits + YBits + ZBits) := ⟨_, hn⟩
    rw [← Nat.mod_mod_of_dvd word1 hd, ← Nat.mod_mod_of_dvd word2 hd, hagree]
  have hz : word1 % 2 ^ ZBits = word2 % 2 ^ ZBits := by
    have hd : 2 ^ ZBits ∣ 2 ^ (YBits + ZBits) := ⟨_, hyz⟩
    rw [← Nat.mod_mod_of_dvd word1 hd, ← Nat.mod_mod_of_dvd word2 hd, hlow]
  have hy : word1 / 2 ^ ZBits % 2 ^ YBits = word2 / 2 ^ ZBits % 2 ^ YBits := by
    rw [← Nat.mod_mul_right_div_self, ← Nat.mod_mul_right_div_self, ← hyz, hlow]
  have hx : word1 / 2 ^ (YBits + ZBits) % 2 ^ XBits =
      word2 / 2 ^ (YBits + ZBits) % 2 ^ XBits := by
    rw [← Nat.mod_mul_right_div_self, ← Nat.mod_mul_right_div_self, ← hn, hagree]
  have hrange : ∀ word : Nat, word / 2 ^ (YBits + ZBits) ≤ 2 ^ XBits - 1 ↔
      word < 2 ^ (XBits + YBits + ZBits) := by
    intro word
    rw [hn, Nat.mul_comm, ← Nat.div_lt_iff_lt_mul (hpos _)]
    have := hpos XBits
    omega
  refine ⟨_, _, _, _, _, _, unpack_vector3_n_codes_of_word YBits ZBits word1 data1 hYBits hZBits
    hword1, unpack_vector3_n_codes_of_word YBits ZBits word2 data2 hYBits hZBits hword2, hy, hz,
    ?_, ?_, rfl, rfl, hx, hrange word1, hrange word2, ?_⟩
  · have := Nat.mod_lt (word1 / 2 ^ ZBits) (hpos YBits)
    omega
  · have := Nat.mod_lt word1 (hpos ZBits)
    omega
  · intro h1 h2
    rw [Nat.mod_eq_of_lt h1, Nat.mod_eq_of_lt h2] at hagree
    rw [hagree]

/-- Witness of `unpack_vector3_n_codes_bits_used`: widths (1, 1, 1) on the
words 0 and 8. -/
theorem unpack_vector3_n_codes_bits_used_witness :
    ∃ x1 y1 z1 x2 y2 z2,
      unpack_vector3_n_codes 1 1 [0, 0, 0, 0, 0, 0, 0, 0] = .ok (x1, y1, z1) ∧
      unpack_vector3_n_codes 1 1 [8, 0, 0, 0, 0, 0, 0, 0] = .ok (x2, y2, z2) ∧
      y1 = y2 ∧ z1 = z2 ∧ y1 ≤ 2 ^ 1 - 1 ∧ z1 ≤ 2 ^ 1 - 1 ∧
      x1 = 0 / 2 ^ (1 + 1) ∧ x2 = 8 / 2 ^ (1 + 1) ∧
      x1 % 2 ^ 1 = x2 % 2 ^ 1 ∧
      (x1 ≤ 2 ^ 1 - 1 ↔ 0 < 2 ^ (1 + 1 + 1)) ∧
      (x2 ≤ 2 ^ 1 - 1 ↔ 8 < 2 ^ (1 + 1 + 1)) ∧
      (0 < 2 ^ (1 + 1 + 1) → 8 < 2 ^ (1 + 1 + 1) → x1 = x2) :=
  unpack_vector3_n_codes_bits_used 1 1 1 0 8 [0, 0, 0, 0, 0, 0, 0, 0] [8, 0, 0, 0, 0, 0, 0, 0]
    (by decide) (by decide) rfl rfl rfl

/-- C21: no checked narrowing cast fails in the fixed-width packers under the
range guarantee of the quantizer.  For every quantizer, when each scalar code
is at most `2 ^ bits - 1` for its width, `pack_vector4_64` and
`pack_vector3_48` (casts to 16 bits), `pack_vector4_32` and `pack_vector3_24`
(casts to 8 bits), `pack_vector3_72` (casts of `code >> 16` and of the masked
bytes to 8 bits) and `pack_vector3_32` (cast of the composed word to 32 bits
and of its halves to 16 bits, widths summing to 32) never end in a
precondition violation, whatever the output buffer, and they succeed, every
cast passed, on a buffer that holds the layout.  With the quantizer of the
spec the same holds for every vector whose packed components lie in the
normalized domain (widths of at least one bit summing to 32 for the 32-bit
triple). -/
theorem fixed_width_casts_never_fail :
    (∀ {F : Type} (sp : ScalarPacking F) (vector : Vector4_32 F) (is_unsigned : Bool)
      (X Y Z W : Nat) (out : Buffer),
      sp.pack_scalar is_unsigned vector.x 16 = .ok X →
      sp.pack_scalar is_unsigned vector.y 16 = .ok Y →
      sp.pack_scalar is_unsigned vector.z 16 = .ok Z →
      sp.pack_scalar is_unsigned vector.w 16 = .ok W →
      X ≤ 2 ^ 16 - 1 → Y ≤ 2 ^ 16 - 1 → Z ≤ 2 ^ 16 - 1 → W ≤ 2 ^ 16 - 1 →
      (pack_vector4_64 sp vector is_unsigned out).1 ≠ .error .precondition ∧
      (8 ≤ out.length → (pack_vector4_64 sp vector is_unsigned out).1 = .ok ())) ∧
    (∀ {F : Type} (sp : ScalarPacking F) (vector : Vector4_32 F) (is_unsigned : Bool)
      (X Y Z : Nat) (out : Buffer),
      sp.pack_scalar is_unsigned vector.x 16 = .ok X →
      sp.pack_scalar is_unsigned vector.y 16 = .ok Y →
      sp.pack_scalar is_unsigned vector.z 16 = .ok Z →
      X ≤ 2 ^ 16 - 1 → Y ≤ 2 ^ 16 - 1 → Z ≤ 2 ^ 16 - 1 →
      (pack_vector3_48 sp vector is_unsigned out).1 ≠ .error .precondition ∧
      (6 ≤ out.length → (pack_vector3_48 sp vector is_unsigned out).1 = .ok ())) ∧
    (∀ {F : Type} (sp : ScalarPacking F) (vector : Vector4_32 F) (is_unsigned : Bool)
      (X Y Z W : Nat) (out : Buffer),
      sp.pack_scalar is_unsigned vector.x 8 = .ok X →
      sp.pack_scalar is_unsigned vector.y 8 = .ok Y →
      sp.pack_scalar is_unsigned vector.z 8 = .ok Z →
      sp.pack_scalar is_unsigned vector.w 8 = .ok W →
      X ≤ 2 ^ 8 - 1 → Y ≤ 2 ^ 8 - 1 → Z ≤ 2 ^ 8 - 1 → W ≤ 2 ^ 8 - 1 →
      (pack_vector4_32 sp vector is_unsigned out).1 ≠ .error .precondition ∧
      (4 ≤ out.length → (pack_vector4_32 sp vector is_unsigned out).1 = .ok ())) ∧
    (∀ {F : Type} (sp : ScalarPacking F) (vector : Vector4_32 F) (is_unsigned : Bool)
      (X Y Z : Nat) (out : Buffer),
      sp.pack_scalar is_unsigned vector.x 8 = .ok X →
      sp.pack_scalar is_unsigned vector.y 8 = .ok Y →
      sp.pack_scalar is_unsigned vector.z 8 = .ok Z →
      X ≤ 2 ^ 8 - 1 → Y ≤ 2 ^ 8 - 1 → Z ≤ 2 ^ 8 - 1 →
      (pack_vector3_24 sp vector is_unsigned out).1 ≠ .error .precondition ∧
      (3 ≤ out.length → (pack_vector3_24 sp vector is_unsigned out).1 = .ok ())) ∧
    (∀ {F : Type} (sp : ScalarPacking F) (vector : Vector4_32 F) (is_unsigned : Bool)
      (X Y Z : Nat) (out : Buffer),
      sp.pack_scalar_24 is_unsigned vector.x = .ok X →
      sp.pack_scalar_24 is_unsigned vector.y = .ok Y →
      sp.pack_scalar_24 is_unsigned vector.z = .ok Z →
      X ≤ 2 ^ 24 - 1 → Y ≤ 2 ^ 24 - 1 → Z ≤ 2 ^ 24 - 1 →
      (pack_vector3_72 sp vector is_unsigned out).1 ≠ .error .precondition ∧
      (9 ≤ out.length → (pack_vector3_72 sp vector is_unsigned out).1 = .ok ())) ∧
    (∀ {F : Type} (sp : ScalarPacking F) (vector : Vector4_32 F) (is_unsigned : Bool)
      (XBits YBits ZBits X Y Z : Nat) (out : Buffer),
      XBits + YBits + ZBits = 32 →
      sp.pack_scalar is_unsigned vector.x XBits = .ok X →
      sp.pack_scalar is_unsigned vector.y YBits = .ok Y →
      sp.pack_scalar is_unsigned vector.z ZBits = .ok Z →
      X ≤ 2 ^ XBits - 1 → Y ≤ 2 ^ YBits - 1 → Z ≤ 2 ^ ZBits - 1 →
      (pack_vector3_32 sp vector XBits YBits ZBits is_unsigned out).1 ≠ .error .precondition ∧
      (4 ≤ out.length →
        (pack_vector3_32 sp vector XBits YBits ZBits is_unsigned out).1 = .ok ())) ∧
    (∀ (vector : Vector4_32 ℚ) (is_unsigned : Bool) (out : Buffer),
      in_domain is_unsigned vector.x → in_domain is_unsigned vector.y →
      in_domain is_unsigned vector.z → in_domain is_unsigned vector.w →
      (pack_vector4_64 spec_quantizer vector is_unsigned out).1 ≠ .error .precondition ∧
      (8 ≤ out.length → (pack_vector4_64 spec_quantizer vector is_unsigned out).1 = .ok ())) ∧
    (∀ (vector : Vector4_32 ℚ) (is_unsigned : Bool) (out : Buffer),
      in_domain is_unsigned vector.x → in_domain is_unsigned vector.y →
      in_domain is_unsigned vector.z →
      (pack_vector3_48 spec_quantizer vector is_unsigned out).1 ≠ .error .precondition ∧
      (6 ≤ out.length → (pack_vector3_48 spec_quantizer vector is_unsigned out).1 = .ok ())) ∧
    (∀ (vector : Vector4_32 ℚ) (is_unsigned : Bool) (out : Buffer),
      in_domain is_unsigned vector.x → in_domain is_unsigned vector.y →
      in_domain is_unsigned vector.z → in_domain is_unsigned vector.w →
      (pack_vector4_32 spec_quantizer vector is_unsigned out).1 ≠ .error .precondition ∧
      (4 ≤ out.length → (pack_vector4_32 spec_quantizer vector is_unsigned out).1 = .ok ())) ∧
    (∀ (vector : Vector4_32 ℚ) (is_unsigned : Bool) (out : Buffer),
      in_domain is_unsigned vector.x → in_domain is_unsigned vector.y →
      in_domain is_unsigned vector.z →
      (pack_vector3_24 spec_quantizer vector is_unsigned out).1 ≠ .error .precondition ∧
      (3 ≤ out.length → (pack_vector3_24 spec_quantizer vector is_unsigned out).1 = .ok ())) ∧
    (∀ (vector : Vector4_32 ℚ) (is_unsigned : Bool) (out : Buffer),
      in_domain is_unsigned vector.x → in_domain is_unsigned vector.y →
      in_domain is_unsigned vector.z →
      (pack_vector3_72 spec_quantizer vector is_unsigned out).1 ≠ .error .precondition ∧
      (9 ≤ out.length → (pack_vector3_72 spec_quantizer vector is_unsigned out).1 = .ok ())) ∧
    (∀ (vector : Vector4_32 ℚ) (XBits YBits ZBits : Nat) (is_unsigned : Bool) (out : Buffer),
      1 ≤ XBits → 1 ≤ YBits → 1 ≤ ZBits → XBits + YBits + ZBits = 32 →
      in_domain is_unsigned vector.x → in_domain is_unsigned vector.y →
      in_domain is_unsigned vector.z →
      (pack_vector3_32 spec_quantizer vector XBits YBits ZBits is_unsigned out).1 ≠
        .error .precondition ∧
      (4 ≤ out.length →
        (pack_vector3_32 spec_quantizer vector XBits YBits ZBits is_unsigned out).1 =
          .ok ())) :=
  ⟨fun sp => pack_vector4_64_casts_fit sp, fun sp => pack_vector3_48_casts_fit sp,
    fun sp => pack_vector4_32_casts_fit sp, fun sp => pack_vector3_24_casts_fit sp,
    fun sp => pack_vector3_72_casts_fit sp, fun sp => pack_vector3_32_casts_fit sp,
    pack_vector4_64_in_domain, pack_vector3_48_in_domain, pack_vector4_32_in_domain,
    pack_vector3_24_in_domain, pack_vector3_72_in_domain, pack_vector3_32_in_domain⟩

/-- Witness of `fixed_width_casts_never_fail`: `pack_vector3_72` on the largest
24-bit code, and `pack_vector3_32` with widths (11, 11, 10) on the signed
vector `(1, -1, 1/3)`. -/
theorem fixed_width_casts_never_fail_witness :
    ((pack_vector3_72 code_quantizer ⟨2 ^ 24 - 1, 0, 70000, 0⟩ true
        [0, 0, 0, 0, 0, 0, 0, 0, 0]).1 ≠ .error .precondition ∧
      (9 ≤ [(0 : Byte), 0, 0, 0, 0, 0, 0, 0, 0].length →
        (pack_vector3_72 code_quantizer ⟨2 ^ 24 - 1, 0, 70000, 0⟩ true
          [0, 0, 0, 0, 0, 0, 0, 0, 0]).1 = .ok ())) ∧
    ((pack_vector3_32 spec_quantizer ⟨1, -1, 1 / 3, 0⟩ 11 11 10 false [0, 0, 0, 0]).1 ≠
        .error .precondition ∧
      (4 ≤ [(0 : Byte), 0, 0, 0].length →
        (pack_vector3_32 spec_quantizer ⟨1, -1, 1 / 3, 0⟩ 11 11 10 false [0, 0, 0, 0]).1 =
          .ok ())) :=
  ⟨fixed_width_casts_never_fail.2.2.2.2.1 code_quantizer ⟨2 ^ 24 - 1, 0, 70000, 0⟩ true
      (2 ^ 24 - 1) 0 70000 [0, 0, 0, 0, 0, 0, 0, 0, 0] rfl rfl rfl (by decide) (by decide)
      (by decide),
    fixed_width_casts_never_fail.2.2.2.2.2.2.2.2.2.2.2 ⟨1, -1, 1 / 3, 0⟩ 11 11 10 false
      [0, 0, 0, 0] (by decide) (by decide) (by decide) (by decide) (by norm_num [in_domain])
      (by norm_num [in_domain]) (by norm_num [in_domain])⟩

end acl
